import Mathlib

/-!
# Captive core ledger backend

A shallow embedding of `ingest/ledgerbackend/captive_core_backend.go`:
the backend state `CaptiveDiamcircleCore`, range preparation (`PrepareRange`,
`startPreparingRange`, `isPrepared`, the two `open...ReplaySubprocess`,
`runFromParams`), the read path `GetLedger`, the per-result validation
`handleMetaPipeResult` / `checkMetaPipeResult`, `GetLatestLedgerSequence` and
`Close`.

Conventions.
* Go `uint32` values are natural numbers; where the source adds to one
  (`result.LedgerSequence() + 1`, the "too far" bound of the online open, the sum of
  `GetLatestLedgerSequence`) the result is reduced modulo `2^32`.
* A Go pointer that may be nil is an `Option`; a nil dereference is the `none`
  result of a function returning `Option` (`handleMetaPipeResult`) or the
  `panicked` outcome of `GetLedger`.
* A Go `error` result is an `Option Error`, `none` being `nil`.
* The blocking `select` of `GetLedger` is driven by an explicit list of the
  cases the `select` resolves to, one per loop iteration; when the list is used
  up the call is still `blocked`.
* The collaborators (archive, checkpoint manager, hash store, runner factory)
  are a parameter `Collaborators` of the functions that consult them; the lock
  and the cancel function are not modelled.
-/

set_option autoImplicit false

namespace Ledgerbackend

/-- Number of values of a Go `uint32`. -/
def uint32Size : Nat := 4294967296

/-- Errors built by the backend, one constructor per `errors.New` / `errors.Errorf`
site of `captive_core_backend.go`, with the formatted arguments as fields;
`wrap` is `errors.Wrap(cause, msg)` and `other` is an error value produced by a
collaborator (a context, the runner, the stream decoder). -/
inductive Error where
  /-- Message "diamcircle-core is no longer usable" -/
  | noLongerUsable
  /-- Message "session is not prepared, call PrepareRange first" -/
  | notPrepared
  /-- Message "diamcircle-core cannot be nil, call PrepareRange first" -/
  | runnerNil
  /-- Message "diamcircle-core has an error, call PrepareRange first" -/
  | hasError
  /-- Message "requested ledger %d is behind the captive core stream (expected=%d)" -/
  | behindStream (requested expected : Nat)
  /-- Message "reading past bounded range (requested sequence=%d, last ledger in range=%d)" -/
  | pastBoundedRange (requested last : Nat)
  /-- Message "unexpected ledger sequence (expected=%d actual=%d)" -/
  | unexpectedLedgerSequence (expected actual : Nat)
  /-- Message "unexpected ledger sequence (expected=<=%d actual=%d)" -/
  | unexpectedFirstLedgerSequence (expectedAtMost actual : Nat)
  /-- Message "unexpected previous ledger hash for ledger %d (expected=%s actual=%s)" -/
  | unexpectedPreviousLedgerHash (seq : Nat) (expected actual : String)
  /-- Message "diamcircle core exited unexpectedly" (no exit error available) -/
  | exitedUnexpectedly
  /-- Message "meta pipe closed unexpectedly" -/
  | metaPipeClosedUnexpectedly
  /-- Message "from sequence: %d is greater than max available in history archives: %d" -/
  | fromAboveArchive (from_ latest : Nat)
  /-- Message "to sequence: %d is greater than max available in history archives: %d" -/
  | toAboveArchive (to_ latest : Nat)
  /-- Message "trying to start online mode too far (latest checkpoint=%d), only two
  checkpoints in the future allowed" -/
  | onlineTooFar (latest : Nat)
  /-- Message "CaptiveCore is unable to start from ledger 1, start from ledger 2" -/
  | startFromLedgerOne
  /-- Message "the previous Diamcircle-Core instance is still running" -/
  | previousStillRunning
  /-- Message "diamcircle-core must be prepared, call PrepareRange first" -/
  | mustBePrepared
  /-- Message "diamcircle-core is closed, call PrepareRange first" -/
  | closedCallPrepareRange
  /-- Go `errors.Wrap(cause, msg)` -/
  | wrap (cause : Error) (msg : String)
  /-- Go `errors.Wrapf(cause, format, arg)` with one `%d` argument -/
  | wrapf (cause : Error) (format : String) (arg : Nat)
  /-- An error value coming from a collaborator. -/
  | other (description : String)
  deriving DecidableEq, Repr

/-- Modelled from the spec: `xdr.LedgerCloseMeta` is declared outside the listed
sources. A ledger record carries a sequence number (`LedgerSequence()`), a hash of
itself (`LedgerHash().HexString()`), the hash of its predecessor
(`PreviousLedgerHash().HexString()`), and an otherwise opaque payload. -/
structure LedgerCloseMeta where
  ledgerSequence : Nat
  ledgerHash : String
  previousLedgerHash : String
  payload : List Nat
  deriving DecidableEq, Repr

/-- The zero value `xdr.LedgerCloseMeta{}` returned next to an error. -/
def LedgerCloseMeta.zero : LedgerCloseMeta :=
  { ledgerSequence := 0, ledgerHash := "", previousLedgerHash := "", payload := [] }

/-- Modelled from the spec: `metaResult`, the element type of the runner's pipe,
is declared outside the listed sources. The backend reads its two fields
`LedgerCloseMeta` (a pointer) and `err`; the zero value, received from a closed
pipe, has both nil. -/
structure metaResult where
  LedgerCloseMeta : Option LedgerCloseMeta
  err : Option Error
  deriving DecidableEq, Repr

/-- A ledger range, `Range{from, to, bounded}` (`from` and `to` are reserved
words here, hence the underscores). -/
structure Range where
  from_ : Nat
  to_ : Nat
  bounded : Bool
  deriving DecidableEq, Repr

/-- Go `BoundedRange(from, to)`. -/
def BoundedRange (from_ to_ : Nat) : Range := { from_ := from_, to_ := to_, bounded := true }

/-- Go `UnboundedRange(from)`. -/
def UnboundedRange (from_ : Nat) : Range := { from_ := from_, to_ := 0, bounded := false }

/-- Go `diamcircleCoreRunnerMode`. -/
inductive diamcircleCoreRunnerMode where
  | diamcircleCoreRunnerModeOnline
  | diamcircleCoreRunnerModeOffline
  deriving DecidableEq, Repr

/-- Modelled from the spec: the implementation behind `diamcircleCoreRunnerInterface`
is outside the listed sources. A runner is described by what it answers to the
backend: `context().Err()`, `getProcessExitError()`, and the errors returned
by `close()`, `catchup(from, to)` and `runFrom(from, hash)`. The remaining fields
record the calls made so far: the number of `close()` calls and the arguments
of the `catchup` and `runFrom` calls. -/
structure Runner where
  contextErr : Option Error
  processExited : Bool
  processExitError : Option Error
  closeErr : Option Error
  catchupErr : Option Error
  runFromErr : Option Error
  closeCalls : Nat
  catchupCalls : List (Nat × Nat)
  runFromCalls : List (Nat × String)
  deriving DecidableEq, Repr

/-- Modelled from the spec: `runner.close()`, as the returned error and the runner
afterwards (one more recorded call). -/
def Runner.close (r : Runner) : Option Error × Runner :=
  (r.closeErr, { r with closeCalls := r.closeCalls + 1 })

/-- Modelled from the spec: `runner.catchup(from, to)`, as the returned error and the
runner afterwards (one more recorded call). -/
def Runner.catchup (r : Runner) (from_ to_ : Nat) : Option Error × Runner :=
  (r.catchupErr, { r with catchupCalls := r.catchupCalls ++ [(from_, to_)] })

/-- Modelled from the spec: `runner.runFrom(from, hash)`, as the returned error and
the runner afterwards (one more recorded call). -/
def Runner.runFrom (r : Runner) (from_ : Nat) (hash : String) : Option Error × Runner :=
  (r.runFromErr, { r with runFromCalls := r.runFromCalls ++ [(from_, hash)] })

/-- The collaborators held in the immutable fields of `CaptiveDiamcircleCore`
(`archive`, `checkpointManager`, `ledgerHashStore`, `diamcircleCoreRunnerFactory`),
declared outside the listed sources and taken as parameters: each field is what
the collaborator answers to the call named in its comment. -/
structure Collaborators where
  /-- Go `archive.GetRootHAS()`: the `CurrentLedger` of the root state, or an error. -/
  rootHAS : Except Error Nat
  /-- Go `archive.GetLedgerHeader(seq)`: the hex string of the header's
  `PreviousLedgerHash`, or an error. -/
  ledgerHeader : Nat → Except Error String
  /-- Go `checkpointManager.GetCheckpointRange(ledger).Low`. -/
  checkpointRangeLow : Nat → Nat
  /-- Go `checkpointManager.GetCheckpoint(ledger)`. -/
  getCheckpoint : Nat → Nat
  /-- Go `ledgerHashStore`: nil, or what `GetLedgerHash(ctx, seq)` returns as
  `(hash, exists, err)`. -/
  ledgerHashStore : Option (Nat → String × Bool × Option Error)
  /-- Go `diamcircleCoreRunnerFactory(mode)`: a new runner or an error. -/
  diamcircleCoreRunnerFactory : diamcircleCoreRunnerMode → Except Error Runner

/-- The mutable fields of `CaptiveDiamcircleCore`: the runner, the cache and the
session cursor. -/
structure CaptiveDiamcircleCore where
  diamcircleCoreRunner : Option Runner
  cachedMeta : Option LedgerCloseMeta
  prepared : Option Range
  closed : Bool
  nextLedger : Nat
  lastLedger : Option Nat
  previousLedgerHash : Option String
  deriving DecidableEq, Repr

namespace CaptiveDiamcircleCore

/-- Go `isClosed`. -/
def isClosed (c : CaptiveDiamcircleCore) : Bool := c.closed

/-- Go `nextExpectedSequence`: `nextLedger` if set, else the start of the prepared
range, else 0. -/
def nextExpectedSequence (c : CaptiveDiamcircleCore) : Nat :=
  if c.nextLedger = 0 then
    match c.prepared with
    | some r => r.from_
    | none => c.nextLedger
  else c.nextLedger

/-- Go `checkMetaPipeResult`, as a function of the (non-nil) runner it queries. -/
def checkMetaPipeResult (runner : Runner) (result : metaResult) (ok : Bool) : Option Error :=
  match runner.contextErr with
  | some err => some err
  | none =>
    if ok = false ∨ result.err ≠ none then
      match result.err with
      | some err => some err
      | none =>
        if runner.processExited then
          match runner.processExitError with
          | none => some Error.exitedUnexpectedly
          | some err => some (Error.wrap err "diamcircle core exited unexpectedly")
        else if ok = false then some Error.metaPipeClosedUnexpectedly
        else none
    else none

/-- The backend after `c.diamcircleCoreRunner.close()` on its runner `runner`. -/
def closeRunner (c : CaptiveDiamcircleCore) (runner : Runner) : CaptiveDiamcircleCore :=
  { c with diamcircleCoreRunner := some runner.close.2 }

/-- Lines 537-566 of `handleMetaPipeResult`: the hash-chain check, the update of
cursor, previous hash and cache, and the return for a record `m` that passed the
sequence checks. -/
def acceptLedger (c : CaptiveDiamcircleCore) (runner : Runner) (sequence : Nat)
    (m : LedgerCloseMeta) : (Bool × LedgerCloseMeta × Option Error) × CaptiveDiamcircleCore :=
  let seq := m.ledgerSequence
  let newPreviousLedgerHash := m.previousLedgerHash
  if c.previousLedgerHash ≠ none ∧ c.previousLedgerHash ≠ some newPreviousLedgerHash then
    ((false, LedgerCloseMeta.zero,
        some (Error.unexpectedPreviousLedgerHash seq (c.previousLedgerHash.getD "")
          newPreviousLedgerHash)),
      c.closeRunner runner)
  else
    let c1 : CaptiveDiamcircleCore :=
      { c with
        nextLedger := (m.ledgerSequence + 1) % uint32Size
        previousLedgerHash := some m.ledgerHash
        cachedMeta := some m }
    if seq = sequence then
      if c1.lastLedger = some seq then
        match runner.close.1 with
        | some err =>
          ((false, LedgerCloseMeta.zero, some (Error.wrap err "error closing session")),
            c1.closeRunner runner)
        | none => ((true, m, none), c1.closeRunner runner)
      else ((true, m, none), c1)
    else ((false, LedgerCloseMeta.zero, none), c1)

/-- Go `handleMetaPipeResult(sequence, result, ok)`: the returned triple
`(found, ledger, err)` and the backend afterwards; `none` is a nil dereference
(no runner, a result without record that passed `checkMetaPipeResult`, or no
prepared range when `nextLedger` is 0). -/
def handleMetaPipeResult (c : CaptiveDiamcircleCore) (sequence : Nat) (result : metaResult)
    (ok : Bool) : Option ((Bool × LedgerCloseMeta × Option Error) × CaptiveDiamcircleCore) :=
  match c.diamcircleCoreRunner with
  | none => none
  | some runner =>
    match checkMetaPipeResult runner result ok with
    | some err => some ((false, LedgerCloseMeta.zero, some err), c.closeRunner runner)
    | none =>
      match result.LedgerCloseMeta with
      | none => none
      | some m =>
        let seq := m.ledgerSequence
        if c.nextLedger ≠ 0 ∧ seq ≠ c.nextLedger then
          some ((false, LedgerCloseMeta.zero,
              some (Error.unexpectedLedgerSequence c.nextLedger seq)),
            c.closeRunner runner)
        else if c.nextLedger = 0 then
          match c.prepared with
          | none => none
          | some r =>
            if seq > r.from_ then
              some ((false, LedgerCloseMeta.zero,
                  some (Error.unexpectedFirstLedgerSequence r.from_ seq)),
                c.closeRunner runner)
            else some (c.acceptLedger runner sequence m)
        else some (c.acceptLedger runner sequence m)

end CaptiveDiamcircleCore

/-- One resolution of the `select` in the loop of `GetLedger`: the caller's
context is done (with `ctx.Err()`), or a receive from `getMetaPipe()` yielding
`(result, ok)`. -/
inductive SelectCase where
  | ctxDone (err : Error)
  | metaPipe (result : metaResult) (ok : Bool)
  deriving DecidableEq, Repr

/-- How a call of `GetLedger` ends: it returned `(ledger, err)` leaving the
backend `c` and the select cases `pending`; it is still blocked in `select`
after all given cases; or it dereferenced nil. -/
inductive Outcome where
  | returned (ledger : LedgerCloseMeta) (err : Option Error) (c : CaptiveDiamcircleCore)
      (pending : List SelectCase)
  | blocked (c : CaptiveDiamcircleCore)
  | panicked
  deriving DecidableEq, Repr

/-- The backend a call of `GetLedger` leaves behind, if it did not panic. -/
def Outcome.backend : Outcome → Option CaptiveDiamcircleCore
  | Outcome.returned _ _ c _ => some c
  | Outcome.blocked c => some c
  | Outcome.panicked => none

namespace CaptiveDiamcircleCore

/-- The `for { select { ... } }` loop of `GetLedger`. -/
def getLedgerLoop (c : CaptiveDiamcircleCore) (sequence : Nat) :
    List SelectCase → Outcome
  | [] => Outcome.blocked c
  | SelectCase.ctxDone err :: pending =>
    Outcome.returned LedgerCloseMeta.zero (some err) c pending
  | SelectCase.metaPipe result ok :: pending =>
    match c.handleMetaPipeResult sequence result ok with
    | none => Outcome.panicked
    | some ((found, ledger, err), c1) =>
      if found = true ∨ err ≠ none then Outcome.returned ledger err c1 pending
      else getLedgerLoop c1 sequence pending

/-- Go `GetLedger(ctx, sequence)`, the `select` of its loop resolving to `cases`. -/
def GetLedger (c : CaptiveDiamcircleCore) (sequence : Nat) (cases : List SelectCase) :
    Outcome :=
  match c.cachedMeta.filter (fun m => decide (sequence = m.ledgerSequence)) with
  | some m => Outcome.returned m none c cases
  | none =>
    if c.isClosed then
      Outcome.returned LedgerCloseMeta.zero (some Error.noLongerUsable) c cases
    else if c.prepared = none then
      Outcome.returned LedgerCloseMeta.zero (some Error.notPrepared) c cases
    else if c.diamcircleCoreRunner = none then
      Outcome.returned LedgerCloseMeta.zero (some Error.runnerNil) c cases
    else if c.closed then
      Outcome.returned LedgerCloseMeta.zero (some Error.hasError) c cases
    else if sequence < c.nextExpectedSequence then
      Outcome.returned LedgerCloseMeta.zero
        (some (Error.behindStream sequence c.nextExpectedSequence)) c cases
    else
      match c.lastLedger.filter (fun last => decide (sequence > last)) with
      | some last =>
        Outcome.returned LedgerCloseMeta.zero
          (some (Error.pastBoundedRange sequence last)) c cases
      | none => c.getLedgerLoop sequence cases

/-- Go `roundDownToFirstReplayAfterCheckpointStart`. -/
def roundDownToFirstReplayAfterCheckpointStart (env : Collaborators) (ledger : Nat) : Nat :=
  if env.checkpointRangeLow ledger ≤ 1 then 2 else env.checkpointRangeLow ledger

/-- Go `getLatestCheckpointSequence`. -/
def getLatestCheckpointSequence (env : Collaborators) : Except Error Nat :=
  match env.rootHAS with
  | Except.error err => Except.error (Error.wrap err "error getting root HAS")
  | Except.ok currentLedger => Except.ok currentLedger

/-- Go `openOfflineReplaySubprocess(from, to)`: the returned error and the backend
afterwards. -/
def openOfflineReplaySubprocess (c : CaptiveDiamcircleCore) (env : Collaborators)
    (from_ to_ : Nat) : Option Error × CaptiveDiamcircleCore :=
  match getLatestCheckpointSequence env with
  | Except.error err => (some (Error.wrap err "error getting latest checkpoint sequence"), c)
  | Except.ok latestCheckpointSequence =>
    if from_ > latestCheckpointSequence then
      (some (Error.fromAboveArchive from_ latestCheckpointSequence), c)
    else if to_ > latestCheckpointSequence then
      (some (Error.toAboveArchive to_ latestCheckpointSequence), c)
    else
      match env.diamcircleCoreRunnerFactory
          diamcircleCoreRunnerMode.diamcircleCoreRunnerModeOffline with
      | Except.error err => (some (Error.wrap err "error creating diamcircle-core runner"), c)
      | Except.ok runner =>
        match (runner.catchup from_ to_).1 with
        | some err =>
          (some (Error.wrap err "error running diamcircle-core"),
            { c with diamcircleCoreRunner := some (runner.catchup from_ to_).2 })
        | none =>
          (none,
            { c with
              diamcircleCoreRunner := some (runner.catchup from_ to_).2
              prepared := some (BoundedRange from_ to_)
              nextLedger := roundDownToFirstReplayAfterCheckpointStart env from_
              lastLedger := some to_
              previousLedgerHash := none })

/-- Go `runFromParams(ctx, from)`: the named results `(runFrom, ledgerHash, err)`. -/
def runFromParams (env : Collaborators) (from_ : Nat) : Nat × String × Option Error :=
  if from_ = 1 then (0, "", some Error.startFromLedgerOne)
  else
    let from1 := if from_ ≤ 63 then 3 else from_
    let runFrom := from1 - 1
    let fromArchive (ledgerHash : String) : Nat × String × Option Error :=
      match env.ledgerHeader from1 with
      | Except.error err2 =>
        (runFrom, ledgerHash,
          some (Error.wrapf err2 "error trying to read ledger header %d from HAS" from1))
      | Except.ok previousLedgerHash => (runFrom, previousLedgerHash, none)
    match env.ledgerHashStore with
    | some store =>
      match store runFrom with
      | (ledgerHash, _, some err) =>
        (runFrom, ledgerHash,
          some (Error.wrapf err "error trying to read ledger hash %d" runFrom))
      | (ledgerHash, true, none) => (runFrom, ledgerHash, none)
      | (ledgerHash, false, none) => fromArchive ledgerHash
    | none => fromArchive ""

/-- Go `openOnlineReplaySubprocess(ctx, from)`: the returned error and the backend
afterwards. -/
def openOnlineReplaySubprocess (c : CaptiveDiamcircleCore) (env : Collaborators)
    (from_ : Nat) : Option Error × CaptiveDiamcircleCore :=
  match getLatestCheckpointSequence env with
  | Except.error err => (some (Error.wrap err "error getting latest checkpoint sequence"), c)
  | Except.ok latestCheckpointSequence =>
    let twoCheckPointsLength := ((env.getCheckpoint 0 + 1) % uint32Size * 2) % uint32Size
    let maxLedger := (latestCheckpointSequence + twoCheckPointsLength) % uint32Size
    if from_ > maxLedger then (some (Error.onlineTooFar latestCheckpointSequence), c)
    else
      match env.diamcircleCoreRunnerFactory
          diamcircleCoreRunnerMode.diamcircleCoreRunnerModeOnline with
      | Except.error err => (some (Error.wrap err "error creating diamcircle-core runner"), c)
      | Except.ok runner =>
        match runFromParams env from_ with
        | (_, _, some err) =>
          (some (Error.wrap err "error calculating ledger and hash for diamcircle-core run"),
            { c with diamcircleCoreRunner := some runner })
        | (runFrom, ledgerHash, none) =>
          match (runner.runFrom runFrom ledgerHash).1 with
          | some err =>
            (some (Error.wrap err "error running diamcircle-core"),
              { c with diamcircleCoreRunner := some (runner.runFrom runFrom ledgerHash).2 })
          | none =>
            (none,
              { c with
                diamcircleCoreRunner := some (runner.runFrom runFrom ledgerHash).2
                nextLedger := 0
                prepared := some (UnboundedRange from_)
                lastLedger := none
                previousLedgerHash := none })

/-- Go `isPrepared(ledgerRange)`. -/
def isPrepared (c : CaptiveDiamcircleCore) (ledgerRange : Range) : Bool :=
  if c.isClosed then false
  else if c.diamcircleCoreRunner = none then false
  else if c.closed then false
  else
    let lastLedger := c.lastLedger.getD 0
    let cachedLedger := (c.cachedMeta.map LedgerCloseMeta.ledgerSequence).getD 0
    if c.prepared = none then false
    else if lastLedger = 0 then
      decide (c.nextExpectedSequence ≤ ledgerRange.from_ ∨ cachedLedger = ledgerRange.from_)
    else if ledgerRange.bounded then
      decide
        ((c.nextExpectedSequence ≤ ledgerRange.from_ ∨ cachedLedger = ledgerRange.from_) ∧
          lastLedger ≥ ledgerRange.to_)
    else false

/-- Lines 355-365 of `startPreparingRange`: open the subprocess for the range. -/
def openSubprocess (c : CaptiveDiamcircleCore) (env : Collaborators) (ledgerRange : Range) :
    (Bool × Option Error) × CaptiveDiamcircleCore :=
  let opened :=
    if ledgerRange.bounded then c.openOfflineReplaySubprocess env ledgerRange.from_ ledgerRange.to_
    else c.openOnlineReplaySubprocess env ledgerRange.from_
  match opened.1 with
  | some err => ((false, some (Error.wrap err "opening subprocess")), opened.2)
  | none => ((false, none), opened.2)

/-- Go `startPreparingRange(ctx, ledgerRange)`: the returned pair
`(alreadyPrepared, err)` and the backend afterwards. -/
def startPreparingRange (c : CaptiveDiamcircleCore) (env : Collaborators)
    (ledgerRange : Range) : (Bool × Option Error) × CaptiveDiamcircleCore :=
  if c.isPrepared ledgerRange then ((true, none), c)
  else
    match c.diamcircleCoreRunner with
    | some runner =>
      match runner.close.1 with
      | some err =>
        ((false, some (Error.wrap err "error closing existing session")), c.closeRunner runner)
      | none =>
        if runner.close.2.processExited = false then
          ((false, some Error.previousStillRunning), c.closeRunner runner)
        else (c.closeRunner runner).openSubprocess env ledgerRange
    | none => c.openSubprocess env ledgerRange

end CaptiveDiamcircleCore

/-- How a call of `PrepareRange` ends: it returned `err` leaving the backend `c`
and the select cases `pending`; its fast-forward `GetLedger` is still blocked;
or it dereferenced nil. -/
inductive PrepareOutcome where
  | returned (err : Option Error) (c : CaptiveDiamcircleCore) (pending : List SelectCase)
  | blocked (c : CaptiveDiamcircleCore)
  | panicked
  deriving DecidableEq, Repr

namespace CaptiveDiamcircleCore

/-- Go `PrepareRange(ctx, ledgerRange)`, the `select` of the fast-forward `GetLedger`
resolving to `cases`. -/
def PrepareRange (c : CaptiveDiamcircleCore) (env : Collaborators) (ledgerRange : Range)
    (cases : List SelectCase) : PrepareOutcome :=
  match c.startPreparingRange env ledgerRange with
  | ((_, some err), c1) =>
    PrepareOutcome.returned (some (Error.wrap err "error starting prepare range")) c1 cases
  | ((true, none), c1) => PrepareOutcome.returned none c1 cases
  | ((false, none), c1) =>
    match c1.GetLedger ledgerRange.from_ cases with
    | Outcome.returned _ (some err) c2 pending =>
      PrepareOutcome.returned
        (some (Error.wrapf err "Error fast-forwarding to %d" ledgerRange.from_)) c2 pending
    | Outcome.returned _ none c2 pending => PrepareOutcome.returned none c2 pending
    | Outcome.blocked c2 => PrepareOutcome.blocked c2
    | Outcome.panicked => PrepareOutcome.panicked

/-- Go `IsPrepared(ctx, ledgerRange)`: the returned pair `(prepared, err)`. -/
def IsPrepared (c : CaptiveDiamcircleCore) (ledgerRange : Range) : Bool × Option Error :=
  (c.isPrepared ledgerRange, none)

/-- Go `GetLatestLedgerSequence(ctx)`: the returned pair `(sequence, err)`, where
`buffered` is `len(c.diamcircleCoreRunner.getMetaPipe())`; the sum is uint32
arithmetic. -/
def GetLatestLedgerSequence (c : CaptiveDiamcircleCore) (buffered : Nat) :
    Nat × Option Error :=
  if c.isClosed then (0, some Error.noLongerUsable)
  else if c.prepared = none then (0, some Error.mustBePrepared)
  else if c.diamcircleCoreRunner = none then (0, some Error.runnerNil)
  else if c.closed then (0, some Error.closedCallPrepareRange)
  else
    match c.lastLedger with
    | none =>
      ((c.nextExpectedSequence + (uint32Size - 1) + buffered % uint32Size) % uint32Size, none)
    | some lastLedger => (lastLedger, none)

/-- Go `Close()`: the returned error and the backend afterwards. The calls
`c.cancel()` (line 644) and `c.ledgerHashStore.Close()` (line 649) change no field
of the backend: they act on the collaborators, and what they do to them is
`Collaborators.afterClose`. -/
def Close (c : CaptiveDiamcircleCore) : Option Error × CaptiveDiamcircleCore :=
  match c.diamcircleCoreRunner with
  | some runner =>
    (runner.close.1, { c with closed := true, diamcircleCoreRunner := some runner.close.2 })
  | none => (none, { c with closed := true })

end CaptiveDiamcircleCore

/-- The backend a call of `PrepareRange` leaves behind, if it did not panic. -/
def PrepareOutcome.backend : PrepareOutcome → Option CaptiveDiamcircleCore
  | PrepareOutcome.returned _ c _ => some c
  | PrepareOutcome.blocked c => some c
  | PrepareOutcome.panicked => none

/-- One call of the public interface of the backend, with the answers of the
environment during the call (collaborators, resolution of the selects, number of
results buffered in the pipe). -/
inductive Call where
  | prepareRange (env : Collaborators) (ledgerRange : Range) (cases : List SelectCase)
  | getLedger (sequence : Nat) (cases : List SelectCase)
  | isPrepared (ledgerRange : Range)
  | getLatestLedgerSequence (buffered : Nat)
  | close

/-- The backend after one call of the public interface, if the call did not
panic (a call left blocked is abandoned in the state it has reached). -/
def Call.backendAfter (c : CaptiveDiamcircleCore) : Call → Option CaptiveDiamcircleCore
  | Call.prepareRange env ledgerRange cases => (c.PrepareRange env ledgerRange cases).backend
  | Call.getLedger sequence cases => (c.GetLedger sequence cases).backend
  | Call.isPrepared _ => some c
  | Call.getLatestLedgerSequence _ => some c
  | Call.close => some c.Close.2

/-- The backend after a sequence of calls of the public interface, if none of
them panicked. -/
def runCalls (c : CaptiveDiamcircleCore) : List Call → Option CaptiveDiamcircleCore
  | [] => some c
  | call :: rest =>
    match call.backendAfter c with
    | some c1 => runCalls c1 rest
    | none => none

/-- One call `handleMetaPipeResult(sequence, result, ok)`. -/
structure PipeStep where
  sequence : Nat
  result : metaResult
  ok : Bool
  deriving DecidableEq, Repr

namespace CaptiveDiamcircleCore

/-- The records accepted during one runner session: the steps are fed to
`handleMetaPipeResult` in order, the backend state being threaded through, and
the record of every call that returns without error is collected. The session
ends at the first call that returns an error (which closes the runner) or
dereferences nil. -/
def sessionRecords (c : CaptiveDiamcircleCore) : List PipeStep → List LedgerCloseMeta
  | [] => []
  | s :: rest =>
    match c.handleMetaPipeResult s.sequence s.result s.ok with
    | some ((_, _, none), c1) =>
      match s.result.LedgerCloseMeta with
      | some m => m :: sessionRecords c1 rest
      | none => []
    | _ => []

/-- The call `GetLedger(sequence)` passes its fast path and every precondition
check, so that it reaches the drain loop. -/
def entersLoop (c : CaptiveDiamcircleCore) (sequence : Nat) : Prop :=
  c.cachedMeta.filter (fun m => decide (sequence = m.ledgerSequence)) = none ∧
  c.closed = false ∧ c.prepared ≠ none ∧ c.diamcircleCoreRunner ≠ none ∧
  ¬ sequence < c.nextExpectedSequence ∧
  c.lastLedger.filter (fun last => decide (sequence > last)) = none

instance (c : CaptiveDiamcircleCore) (sequence : Nat) : Decidable (c.entersLoop sequence) := by
  unfold entersLoop
  infer_instance

/-- A bounded session with upper bound `last`: the backend is not closed, has a
runner and a prepared range starting no later than `last + 1`, its `lastLedger`
is `last`, and its cursor has not passed `last + 1`. A successful
`openOfflineReplaySubprocess` for a range with `from <= to` starts the session
in such a state and `GetLedger` keeps it (`BoundedSession_openOffline`,
`BoundedSession_GetLedger`). -/
def BoundedSession (c : CaptiveDiamcircleCore) (last : Nat) : Prop :=
  c.closed = false ∧ c.diamcircleCoreRunner ≠ none ∧
  (∃ r, c.prepared = some r ∧ r.from_ ≤ last + 1) ∧
  c.lastLedger = some last ∧ c.nextExpectedSequence ≤ last + 1

/-- The call of `handleMetaPipeResult` rejected the result: an error is returned
with the zero record, the runner has been closed and nothing else has changed. -/
def Rejected (c c1 : CaptiveDiamcircleCore) (runner : Runner)
    (out : Bool × LedgerCloseMeta × Option Error) : Prop :=
  out.1 = false ∧ out.2.1 = LedgerCloseMeta.zero ∧ out.2.2 ≠ none ∧
  c1 = c.closeRunner runner

/-- The call of `handleMetaPipeResult` committed the record `m`: cursor, previous
hash and cache are those of `m`, range, bound and closed flag are kept, and the call
returns `m` if it is the requested ledger (or the error of a failed `close()`),
and nothing if it is not. -/
def Committed (c c1 : CaptiveDiamcircleCore) (sequence : Nat) (m : LedgerCloseMeta)
    (out : Bool × LedgerCloseMeta × Option Error) : Prop :=
  (∀ p, c.previousLedgerHash = some p → m.previousLedgerHash = p) ∧
  c1.nextLedger = (m.ledgerSequence + 1) % uint32Size ∧
  c1.previousLedgerHash = some m.ledgerHash ∧ c1.cachedMeta = some m ∧
  c1.prepared = c.prepared ∧ c1.lastLedger = c.lastLedger ∧ c1.closed = c.closed ∧
  c1.diamcircleCoreRunner ≠ none ∧
  ((m.ledgerSequence = sequence ∧
      (out = (true, m, none) ∨
        (out.1 = false ∧ out.2.1 = LedgerCloseMeta.zero ∧ out.2.2 ≠ none))) ∨
    (m.ledgerSequence ≠ sequence ∧ out = (false, LedgerCloseMeta.zero, none)))

/-- The runner after a call of `handleMetaPipeResult` that returned `(found, _, err)`
on the runner `runner`: it has been closed once if an error is returned or if
the requested ledger was found and is the last one of a bounded session, and it
is untouched otherwise; the bound is kept. -/
def RunnerAfter (c c1 : CaptiveDiamcircleCore) (runner : Runner) (sequence : Nat)
    (found : Bool) (err : Option Error) : Prop :=
  c1.lastLedger = c.lastLedger ∧
  (err ≠ none → c1.diamcircleCoreRunner = some runner.close.2) ∧
  (err = none → found = true → c.lastLedger = some sequence →
    c1.diamcircleCoreRunner = some runner.close.2) ∧
  (err = none → found = true → c.lastLedger ≠ some sequence →
    c1.diamcircleCoreRunner = some runner) ∧
  (err = none → found = false → c1.diamcircleCoreRunner = some runner)

/-- The backend after the drain loop has accepted `m` as the requested ledger on
the runner `runner`: cursor, previous hash and cache are those of `m`, and the
runner has been closed if `m` is the last ledger of a bounded session. -/
def afterDrain (c : CaptiveDiamcircleCore) (runner : Runner) (m : LedgerCloseMeta) :
    CaptiveDiamcircleCore :=
  { c with
    diamcircleCoreRunner :=
      if c.lastLedger = some m.ledgerSequence then some runner.close.2 else some runner
    nextLedger := m.ledgerSequence + 1
    previousLedgerHash := some m.ledgerHash
    cachedMeta := some m }

end CaptiveDiamcircleCore

/-- The select cases of a pipe that delivers the records `ms` in order, each as
a result without error (`ok` true), the caller's context never being done. -/
def recordCases (ms : List LedgerCloseMeta) : List SelectCase :=
  ms.map (fun m => SelectCase.metaPipe { LedgerCloseMeta := some m, err := none } true)

/-- The records have the sequences `n, n+1, ...` and their hashes chain from the
recorded previous hash `prev` (no constraint on the first record when `prev` is
`none`). -/
def ChainsFrom : Option String → Nat → List LedgerCloseMeta → Prop
  | _, _, [] => True
  | prev, n, m :: ms =>
    m.ledgerSequence = n ∧ (∀ p, prev = some p → m.previousLedgerHash = p) ∧
      ChainsFrom (some m.ledgerHash) (n + 1) ms

/-! ### Concrete values used to instantiate the theorems -/

/-- A runner whose context is live, whose process runs, and whose `close` succeeds. -/
def liveRunner : Runner :=
  { contextErr := none, processExited := false, processExitError := none,
    closeErr := none, catchupErr := none, runFromErr := none, closeCalls := 0,
    catchupCalls := [], runFromCalls := [] }

/-- A runner like `liveRunner` whose `close` fails. -/
def stubbornRunner : Runner :=
  { liveRunner with closeErr := some (Error.other "close failed") }

/-- A record with the given sequence, hash and previous hash. -/
def ledger (seq : Nat) (hash prev : String) : LedgerCloseMeta :=
  { ledgerSequence := seq, ledgerHash := hash, previousLedgerHash := prev, payload := [] }

/-- A pipe result carrying the record `m`. -/
def recordResult (m : LedgerCloseMeta) : metaResult :=
  { LedgerCloseMeta := some m, err := none }

/-- An unbounded session prepared from ledger 5 whose cursor is at `next`, with
the recorded previous hash `prev` and cache `cached`. -/
def onlineBackend (next : Nat) (prev : Option String) (cached : Option LedgerCloseMeta) :
    CaptiveDiamcircleCore :=
  { diamcircleCoreRunner := some liveRunner, cachedMeta := cached,
    prepared := some (UnboundedRange 5), closed := false, nextLedger := next,
    lastLedger := none, previousLedgerHash := prev }

/-- A bounded session for `[2, last]` on `runner` whose cursor is at `next`. -/
def offlineBackend (runner : Runner) (last next : Nat) (prev : Option String)
    (cached : Option LedgerCloseMeta) : CaptiveDiamcircleCore :=
  { diamcircleCoreRunner := some runner, cachedMeta := cached,
    prepared := some (BoundedRange 2 last), closed := false, nextLedger := next,
    lastLedger := some last, previousLedgerHash := prev }

/-- Two pipe steps: ledger `2^32 - 1` is requested and delivered, then ledger 5
is requested and delivered with a previous hash that matches. -/
def wrapSteps : List PipeStep :=
  [{ sequence := 4294967295, result := recordResult (ledger 4294967295 "b" "a"), ok := true },
   { sequence := 5, result := recordResult (ledger 5 "c" "b"), ok := true }]

/-- Two pipe steps delivering ledgers 7 and 8 for the requested sequence 8. -/
def plainSteps : List PipeStep :=
  [{ sequence := 8, result := recordResult (ledger 7 "b" "a"), ok := true },
   { sequence := 8, result := recordResult (ledger 8 "c" "b"), ok := true }]

/-- A runner like `liveRunner` that reports its process as exited. -/
def exitedRunner : Runner :=
  { liveRunner with processExited := true }

/-- Collaborators for checkpoint frequency 64: the archive's latest checkpoint
is 63, the checkpoint range of a ledger starts at the multiple of 64 below it,
there is no hash store, and the factory hands out `exitedRunner`. -/
def archiveAt63 : Collaborators :=
  { rootHAS := Except.ok 63
    ledgerHeader := fun _ => Except.ok "h"
    checkpointRangeLow := fun l => l / 64 * 64
    getCheckpoint := fun l => l / 64 * 64 + 63
    ledgerHashStore := none
    diamcircleCoreRunnerFactory := fun _ => Except.ok exitedRunner }

/-- The ledgers 2 to 5 of a hash chain. -/
def ledgers2To5 : List LedgerCloseMeta :=
  [ledger 2 "h2" "h1", ledger 3 "h3" "h2", ledger 4 "h4" "h3", ledger 5 "h5" "h4"]

/-- The ledgers 2 to 8 of the same hash chain. -/
def ledgers2To8 : List LedgerCloseMeta :=
  ledgers2To5 ++ [ledger 6 "h6" "h5", ledger 7 "h7" "h6", ledger 8 "h8" "h7"]

/-- The backend after `PrepareRange(Bounded(8, 8))` on a fresh backend: ledgers 2
to 8 were drained, ledger 8 is cached, and the runner was closed on reaching
the last ledger. -/
def firstSession : CaptiveDiamcircleCore :=
  { diamcircleCoreRunner :=
      some ({ exitedRunner with closeCalls := 1, catchupCalls := [(8, 8)] }),
    cachedMeta := some (ledger 8 "h8" "h7"), prepared := some (BoundedRange 8 8),
    closed := false, nextLedger := 9, lastLedger := some 8,
    previousLedgerHash := some "h8" }

/-- The backend after a following `PrepareRange(Bounded(8, 20))`: a new offline
session is open (cursor at 2, bound 20, previous hash cleared) and `cachedMeta`
still holds ledger 8 of the first session. -/
def reopenedBackend : CaptiveDiamcircleCore :=
  { diamcircleCoreRunner := some ({ exitedRunner with catchupCalls := [(8, 20)] }),
    cachedMeta := some (ledger 8 "h8" "h7"), prepared := some (BoundedRange 8 20),
    closed := false, nextLedger := 2, lastLedger := some 20, previousLedgerHash := none }

/-- A freshly constructed backend: nothing prepared, no runner, no cache. -/
def freshBackend : CaptiveDiamcircleCore :=
  { diamcircleCoreRunner := none, cachedMeta := none, prepared := none, closed := false,
    nextLedger := 0, lastLedger := none, previousLedgerHash := none }

/-- The backend after `PrepareRange(Unbounded(8))` on a fresh backend: the online
session was started from ledger 2, ledgers 2 to 8 were drained and ledger 8 is
cached. -/
def onlineSession : CaptiveDiamcircleCore :=
  { diamcircleCoreRunner := some ({ exitedRunner with runFromCalls := [(2, "h")] }),
    cachedMeta := some (ledger 8 "h8" "h7"), prepared := some (UnboundedRange 8),
    closed := false, nextLedger := 9, lastLedger := none, previousLedgerHash := some "h8" }

/-- The backend `onlineSession` after a `GetLedger(9)` that received ledger 10:
the runner has been closed once and nothing else has changed. -/
def failedSession : CaptiveDiamcircleCore :=
  { onlineSession with
    diamcircleCoreRunner :=
      some ({ exitedRunner with runFromCalls := [(2, "h")], closeCalls := 1 }) }

/-- The backend `onlineSession` after `Close()`: the closed flag is set and the
runner has been closed once. -/
def closedSession : CaptiveDiamcircleCore :=
  { onlineSession with
    closed := true
    diamcircleCoreRunner :=
      some ({ exitedRunner with runFromCalls := [(2, "h")], closeCalls := 1 }) }

/-- A runner created after the root context was cancelled: its context reports
the cancellation, and it answers like `exitedRunner` otherwise. -/
def cancelledRunner : Runner :=
  { exitedRunner with contextErr := some (Error.other "context canceled") }

/-- Collaborators like `archiveAt63` whose factory hands out `cancelledRunner`. -/
def archiveAfterCancel : Collaborators :=
  { archiveAt63 with diamcircleCoreRunnerFactory := fun _ => Except.ok cancelledRunner }

/-- A sequence of calls made after `Close()`: two reads, the two queries, a
`PrepareRange` answered by collaborators that ignore the cancellation, and a
second `Close()`. -/
def laterCalls : List Call :=
  [Call.getLedger 8 (recordCases ledgers2To5),
   Call.getLedger 9 (recordCases ledgers2To5),
   Call.isPrepared (UnboundedRange 8),
   Call.getLatestLedgerSequence 3,
   Call.prepareRange archiveAfterCancel (BoundedRange 9 20) (recordCases ledgers2To5),
   Call.close]

/-- The backend `closedSession` after the calls `laterCalls`. -/
def afterLaterCalls : CaptiveDiamcircleCore :=
  { diamcircleCoreRunner :=
      some ({ cancelledRunner with closeCalls := 1, catchupCalls := [(9, 20)] }),
    cachedMeta := some (ledger 8 "h8" "h7"), prepared := some (BoundedRange 9 20),
    closed := true, nextLedger := 2, lastLedger := some 20, previousLedgerHash := none }

/-- The local variable `cachedLedger` of `isPrepared`: the sequence of the cached
record, 0 when nothing is cached. -/
def CaptiveDiamcircleCore.cachedLedger (c : CaptiveDiamcircleCore) : Nat :=
  (c.cachedMeta.map LedgerCloseMeta.ledgerSequence).getD 0

/-- The value of the local `from` of `runFromParams` after lines 292-299: a
request for a ledger up to 63 is redirected to ledger 3. -/
def redirectedFrom (from_ : Nat) : Nat := if from_ ≤ 63 then 3 else from_

/-- A hash store that knows a hash for every ledger. -/
def fullHashStore : Nat → String × Bool × Option Error :=
  fun _ => ("stored", true, none)

/-- A hash store that knows no hash. -/
def emptyHashStore : Nat → String × Bool × Option Error :=
  fun _ => ("", false, none)

/-- A hash store whose lookups fail. -/
def brokenHashStore : Nat → String × Bool × Option Error :=
  fun _ => ("", false, some (Error.other "store down"))

/-- The checkpoint manager, declared outside the listed sources, is one of
frequency 64: the checkpoint range of a ledger `l` starts at a multiple of 64
(the comment in `roundDownToFirstReplayAfterCheckpointStart`), where ledger 1 may
stand for the non-existent ledger 0 in the first range; it does not start after
`l` (after ledger 1 for `l = 0`); and it spans at most 64 ledgers. -/
def Frequency64 (env : Collaborators) : Prop :=
  ∀ l, (64 ∣ env.checkpointRangeLow l ∨ (env.checkpointRangeLow l = 1 ∧ l < 64)) ∧
    env.checkpointRangeLow l ≤ max l 1 ∧ l < env.checkpointRangeLow l + 64

/-- The archive of the examples with the largest uint32 as latest checkpoint. -/
def archiveAtMax : Collaborators :=
  { archiveAt63 with rootHAS := Except.ok 4294967295 }

/-- The archive of the examples with ledger 319 as latest checkpoint. -/
def archiveAt319 : Collaborators :=
  { archiveAt63 with rootHAS := Except.ok 319 }

/-- The backend after `PrepareRange(Bounded(200, 300))` on `firstSession` was
interrupted by the caller's context before the first record arrived: the new
offline session is open with its cursor at 192, and the cache still holds
ledger 8 of the first session. -/
def stalledSession : CaptiveDiamcircleCore :=
  { diamcircleCoreRunner := some ({ exitedRunner with catchupCalls := [(200, 300)] }),
    cachedMeta := some (ledger 8 "h8" "h7"), prepared := some (BoundedRange 200 300),
    closed := false, nextLedger := 192, lastLedger := some 300, previousLedgerHash := none }

/-- The ledgers 2 to 10 of a well-formed stream. -/
def ledgers2To10 : List LedgerCloseMeta :=
  ledgers2To8 ++ [ledger 9 "h9" "h8", ledger 10 "h10" "h9"]

/-- The backend after `PrepareRange(Bounded(10, 12))` on a fresh backend. -/
def boundedPrepared : CaptiveDiamcircleCore :=
  { diamcircleCoreRunner := some ({ exitedRunner with catchupCalls := [(10, 12)] }),
    cachedMeta := some (ledger 10 "h10" "h9"), prepared := some (BoundedRange 10 12),
    closed := false, nextLedger := 11, lastLedger := some 12,
    previousLedgerHash := some "h10" }

/-- The backend after `GetLedger(12)` on `boundedPrepared` has read ledgers 11 and
12: the runner has been closed once. -/
def boundedDone : CaptiveDiamcircleCore :=
  { diamcircleCoreRunner :=
      some ({ exitedRunner with closeCalls := 1, catchupCalls := [(10, 12)] }),
    cachedMeta := some (ledger 12 "h12" "h11"), prepared := some (BoundedRange 10 12),
    closed := false, nextLedger := 13, lastLedger := some 12,
    previousLedgerHash := some "h12" }

/-- An unbounded session prepared from ledger `2^32 - 1`, the largest uint32,
that has not received its first record yet. -/
def lastUint32Session : CaptiveDiamcircleCore :=
  { diamcircleCoreRunner := some liveRunner, cachedMeta := none,
    prepared := some (UnboundedRange 4294967295), closed := false, nextLedger := 0,
    lastLedger := none, previousLedgerHash := none }

/-- The calls of `handleMetaPipeResult` made by the drain loop of
`GetLedger(sequence)` on the select cases `cases`, in order: for each call the
backend it is made in and the `(result, ok)` it is given. The loop makes its next
call in the backend the previous one left, as long as that one returned neither
a record nor an error. -/
def CaptiveDiamcircleCore.loopCalls (c : CaptiveDiamcircleCore) (sequence : Nat) :
    List SelectCase → List (CaptiveDiamcircleCore × metaResult × Bool)
  | [] => []
  | SelectCase.ctxDone _ :: _ => []
  | SelectCase.metaPipe result ok :: pending =>
    (c, result, ok) ::
      match c.handleMetaPipeResult sequence result ok with
      | none => []
      | some ((found, _, err), c1) =>
        if found = true ∨ err ≠ none then [] else loopCalls c1 sequence pending

/-- The ledgers 2 to 9 of a stream that differs from the one of `ledgers2To8`: the
same sequences with other hashes. -/
def forkedLedgers2To9 : List LedgerCloseMeta :=
  [ledger 2 "g2" "g1", ledger 3 "g3" "g2", ledger 4 "g4" "g3", ledger 5 "g5" "g4",
   ledger 6 "g6" "g5", ledger 7 "g7" "g6", ledger 8 "g8" "g7", ledger 9 "g9" "g8"]

/-- The backend after `GetLedger(9)` on `reopenedBackend` has read the ledgers
`forkedLedgers2To9` from the stream of the second session. -/
def afterForkedRead : CaptiveDiamcircleCore :=
  { reopenedBackend with
    cachedMeta := some (ledger 9 "g9" "g8")
    nextLedger := 10
    previousLedgerHash := some "g9" }

/-- Until its first record is cached, the backend has no session whose cursor is
below ledger 2: no range is prepared, or a record is cached, or the cursor
`nextExpectedSequence()` is at least 2. A new backend is in this state, and every
call of the interface whose range starts at ledger 1 or later keeps it
(`CursorAboveLedgerOne_freshBackend`, `CursorAboveLedgerOne_PrepareRange`,
`CursorAboveLedgerOne_GetLedger`, `CursorAboveLedgerOne_Close`,
`CursorAboveLedgerOne_runCalls`). -/
def CaptiveDiamcircleCore.CursorAboveLedgerOne (c : CaptiveDiamcircleCore) : Prop :=
  c.prepared = none ∨ c.cachedMeta ≠ none ∨ 2 ≤ c.nextExpectedSequence

/-- The range of the call, if it has one, starts at ledger 1 or later (the
invariant `from >= 1` of a range). -/
def Call.fromLedgerOne : Call → Prop
  | Call.prepareRange _ ledgerRange _ => 1 ≤ ledgerRange.from_
  | _ => True

/-- The backend after `PrepareRange(Bounded(1, 20))` has failed on the fresh backend:
the offline session is open with its cursor at 2. -/
def ledgerOneRefused : CaptiveDiamcircleCore :=
  { freshBackend with
    diamcircleCoreRunner := some ({ exitedRunner with catchupCalls := [(1, 20)] })
    prepared := some (BoundedRange 1 20)
    nextLedger := 2
    lastLedger := some 20 }

/-- The error of a request made on a cancelled context (Go `context.Canceled`). -/
def contextCanceled : Error := Error.other "context canceled"

/-- Modelled from the spec: what `c.cancel()` and `c.ledgerHashStore.Close()` in
`Close()` (lines 644-650) do to the collaborators, whose implementations are
outside the listed sources. `cancel` cancels the context `config.Context` on which
`NewCaptive` builds the archive pool (lines 146-155) and on which the factory
`newDiamcircleCoreRunner(config, mode)` builds every runner (lines 169-171), after
which the backend "will not be able to stream ledgers from Diamcircle Core or spawn
new instances" (lines 74-77) and "all subsequent calls to PrepareRange() will fail"
(line 643): the requests of the archive fail with the cancellation error, and a
runner handed out by the factory has a cancelled context and starts no process.
A released hash store answers no lookup. The checkpoint arithmetic does not
depend on the context. -/
def Collaborators.afterClose (env : Collaborators) : Collaborators :=
  { env with
    rootHAS := Except.error contextCanceled
    ledgerHeader := fun _ => Except.error contextCanceled
    ledgerHashStore :=
      env.ledgerHashStore.map (fun _ _ => ("", false, some (Error.other "store is closed")))
    diamcircleCoreRunnerFactory := fun mode =>
      match env.diamcircleCoreRunnerFactory mode with
      | Except.error err => Except.error err
      | Except.ok runner =>
        Except.ok
          { runner with
            contextErr := some contextCanceled
            catchupErr := some contextCanceled
            runFromErr := some contextCanceled } }

/-- The error with which `openOfflineReplaySubprocess` and
`openOnlineReplaySubprocess` return once the root context is cancelled, as wrapped
by `startPreparingRange` and `PrepareRange`. -/
def startAfterCloseError : Error :=
  Error.wrap
    (Error.wrap
      (Error.wrap (Error.wrap contextCanceled "error getting root HAS")
        "error getting latest checkpoint sequence")
      "opening subprocess")
    "error starting prepare range"

/-! ## Theorems -/

namespace CaptiveDiamcircleCore

/-- What `acceptLedger` has done when it returns without error. -/
theorem acceptLedger_ok {c : CaptiveDiamcircleCore} {runner : Runner} {sequence : Nat}
    {m : LedgerCloseMeta} {found : Bool} {ledger : LedgerCloseMeta} {c1 : CaptiveDiamcircleCore}
    (h : c.acceptLedger runner sequence m = ((found, ledger, none), c1)) :
    (∀ p, c.previousLedgerHash = some p → m.previousLedgerHash = p) ∧
    c1.nextLedger = (m.ledgerSequence + 1) % uint32Size ∧
    c1.previousLedgerHash = some m.ledgerHash ∧
    c1.cachedMeta = some m ∧
    c1.prepared = c.prepared ∧ c1.lastLedger = c.lastLedger ∧ c1.closed = c.closed ∧
    (found = true ↔ m.ledgerSequence = sequence) ∧ (found = true → ledger = m) := by
  have hprev : ¬ (c.previousLedgerHash ≠ none ∧
      c.previousLedgerHash ≠ some m.previousLedgerHash) →
      ∀ p, c.previousLedgerHash = some p → m.previousLedgerHash = p := by
    intro h1 p hp
    simp [hp] at h1
    exact h1.symm
  unfold acceptLedger at h
  simp only at h
  split_ifs at h with h1 h2 h3
  · simp at h
  · split at h
    · simp at h
    · simp only [Prod.mk.injEq] at h
      obtain ⟨⟨hf, hl, -⟩, hc⟩ := h
      subst hc hf hl
      exact ⟨hprev h1, rfl, rfl, rfl, rfl, rfl, rfl, by simp [h2], by simp⟩
  · simp only [Prod.mk.injEq] at h
    obtain ⟨⟨hf, hl, -⟩, hc⟩ := h
    subst hc hf hl
    exact ⟨hprev h1, rfl, rfl, rfl, rfl, rfl, rfl, by simp [h2], by simp⟩
  · simp only [Prod.mk.injEq] at h
    obtain ⟨⟨hf, hl, -⟩, hc⟩ := h
    subst hc hf hl
    exact ⟨hprev h1, rfl, rfl, rfl, rfl, rfl, rfl, by simp [h2], by simp⟩

/-- What `handleMetaPipeResult` has checked when it returns without error. -/
theorem handleMetaPipeResult_ok {c : CaptiveDiamcircleCore} {sequence : Nat}
    {result : metaResult} {ok : Bool} {found : Bool} {ledger : LedgerCloseMeta}
    {c1 : CaptiveDiamcircleCore}
    (h : c.handleMetaPipeResult sequence result ok = some ((found, ledger, none), c1)) :
    ∃ runner m, c.diamcircleCoreRunner = some runner ∧ result.LedgerCloseMeta = some m ∧
      checkMetaPipeResult runner result ok = none ∧
      (c.nextLedger ≠ 0 → m.ledgerSequence = c.nextLedger) ∧
      (c.nextLedger = 0 → ∃ r, c.prepared = some r ∧ m.ledgerSequence ≤ r.from_) ∧
      c.acceptLedger runner sequence m = ((found, ledger, none), c1) := by
  unfold handleMetaPipeResult at h
  split at h
  · simp at h
  · next runner hr =>
    split at h
    · simp at h
    · next hchk =>
      split at h
      · simp at h
      · next m hm =>
        simp only at h
        split_ifs at h with h1 h2
        · simp at h
        · split at h
          · simp at h
          · next r hp =>
            split_ifs at h with h3
            · simp at h
            · refine ⟨runner, m, hr, hm, hchk, fun h0 => absurd h2 h0,
                fun _ => ⟨r, hp, by omega⟩, ?_⟩
              simpa using h
        · refine ⟨runner, m, hr, hm, hchk, fun h0 => ?_, fun h0 => absurd h0 h2, ?_⟩
          · by_contra hne
            exact h1 ⟨h0, hne⟩
          · simpa using h

/-- Unfolding of `sessionRecords` at a step that is accepted. -/
theorem sessionRecords_cons_ok {c c1 : CaptiveDiamcircleCore} {s : PipeStep}
    {rest : List PipeStep} {found : Bool} {ledger m : LedgerCloseMeta}
    (h : c.handleMetaPipeResult s.sequence s.result s.ok = some ((found, ledger, none), c1))
    (hm : s.result.LedgerCloseMeta = some m) :
    sessionRecords c (s :: rest) = m :: sessionRecords c1 rest := by
  simp [sessionRecords, h, hm]

/-- The session is over when a step fails. -/
theorem sessionRecords_cons_stop {c : CaptiveDiamcircleCore} {s : PipeStep}
    {rest : List PipeStep}
    (h : ∀ found ledger c1,
      c.handleMetaPipeResult s.sequence s.result s.ok ≠ some ((found, ledger, none), c1)) :
    sessionRecords c (s :: rest) = [] := by
  unfold sessionRecords
  split
  · next f l c1 heq => exact absurd heq (h f l c1)
  · rfl

/-- Every session is a chain for a relation `R` between consecutive records, as
soon as `R` holds between a record and the next record accepted after it. -/
theorem sessionRecords_chain (R : LedgerCloseMeta → LedgerCloseMeta → Prop)
    (step : ∀ (c c1 : CaptiveDiamcircleCore) (m : LedgerCloseMeta),
      c.previousLedgerHash = some m.ledgerHash →
      c.nextLedger = (m.ledgerSequence + 1) % uint32Size →
      ∀ (s : PipeStep) (found : Bool) (ledger m1 : LedgerCloseMeta),
        c.handleMetaPipeResult s.sequence s.result s.ok = some ((found, ledger, none), c1) →
        s.result.LedgerCloseMeta = some m1 → R m m1)
    (steps : List PipeStep) :
    ∀ c : CaptiveDiamcircleCore,
      List.Chain' R (sessionRecords c steps) ∧
      ∀ m, c.previousLedgerHash = some m.ledgerHash →
        c.nextLedger = (m.ledgerSequence + 1) % uint32Size →
        ∀ m1 ∈ (sessionRecords c steps).head?, R m m1 := by
  induction steps with
  | nil =>
    intro c
    simp [sessionRecords]
  | cons s rest ih =>
    intro c
    by_cases hacc : ∃ found ledger c1,
        c.handleMetaPipeResult s.sequence s.result s.ok = some ((found, ledger, none), c1)
    · obtain ⟨found, ledger, c1, h⟩ := hacc
      obtain ⟨runner, m1, -, hm1, -, -, -, hacc1⟩ := handleMetaPipeResult_ok h
      obtain ⟨-, hnext, hprev, -⟩ := acceptLedger_ok hacc1
      rw [sessionRecords_cons_ok h hm1]
      obtain ⟨ihc, ihh⟩ := ih c1
      refine ⟨List.chain'_cons'.2 ⟨ihh m1 hprev hnext, ihc⟩, ?_⟩
      intro m hp hn m0 hm0
      simp only [List.head?_cons, Option.mem_def, Option.some.injEq] at hm0
      subst hm0
      exact step c c1 m hp hn s found ledger m1 h hm1
    · have hstop : sessionRecords c (s :: rest) = [] :=
        sessionRecords_cons_stop (fun f l c1 heq => hacc ⟨f, l, c1, heq⟩)
      rw [hstop]
      simp

end CaptiveDiamcircleCore

/-- Whatever the backend state at the start and whatever results the pipe
delivers for whatever requested sequences, the records accepted by
`handleMetaPipeResult` during a session form a hash chain: each record's declared
previous-ledger hash equals the ledger hash of the record accepted just before
it. -/
theorem chain_integrity (c : CaptiveDiamcircleCore) (steps : List PipeStep) :
    List.Chain' (fun a b : LedgerCloseMeta => b.previousLedgerHash = a.ledgerHash)
      (c.sessionRecords steps) := by
  refine (CaptiveDiamcircleCore.sessionRecords_chain _ ?_ steps c).1
  intro c0 c1 m hp _ s found ledger m1 h hm1
  obtain ⟨runner, m2, -, hm2, -, -, -, hacc⟩ :=
    CaptiveDiamcircleCore.handleMetaPipeResult_ok h
  rw [hm1] at hm2
  cases hm2
  exact (CaptiveDiamcircleCore.acceptLedger_ok hacc).1 _ hp

namespace CaptiveDiamcircleCore

/-- The runner field after `acceptLedger` is the old one or the closed runner. -/
theorem acceptLedger_runner (c : CaptiveDiamcircleCore) (runner : Runner) (sequence : Nat)
    (m : LedgerCloseMeta) :
    (c.acceptLedger runner sequence m).2.diamcircleCoreRunner = c.diamcircleCoreRunner ∨
    (c.acceptLedger runner sequence m).2.diamcircleCoreRunner = some runner.close.2 := by
  unfold acceptLedger
  simp only
  split_ifs
  · right; rfl
  · split
    · right; rfl
    · right; rfl
  · left; rfl
  · left; rfl

/-- A record whose sequence differs from a known cursor is rejected, and the
runner closed; the error is the one of `checkMetaPipeResult` if it has one, and
the sequence mismatch otherwise. -/
theorem handleMetaPipeResult_gap {c : CaptiveDiamcircleCore} {runner : Runner}
    (sequence : Nat) {result : metaResult} (ok : Bool) {m : LedgerCloseMeta}
    (hr : c.diamcircleCoreRunner = some runner) (hn : c.nextLedger ≠ 0)
    (hm : result.LedgerCloseMeta = some m) (hs : m.ledgerSequence ≠ c.nextLedger) :
    c.handleMetaPipeResult sequence result ok =
      some ((false, LedgerCloseMeta.zero,
          some ((checkMetaPipeResult runner result ok).getD
            (Error.unexpectedLedgerSequence c.nextLedger m.ledgerSequence))),
        c.closeRunner runner) := by
  unfold handleMetaPipeResult
  rw [hr]
  simp only
  cases hchk : checkMetaPipeResult runner result ok with
  | some e => simp
  | none => simp [hm, hn, hs]

/-- The loop returns as soon as `handleMetaPipeResult` returns an error. -/
theorem getLedgerLoop_cons_err {c c1 : CaptiveDiamcircleCore} {sequence : Nat}
    {result : metaResult} {ok : Bool} {found : Bool} {ledger : LedgerCloseMeta} {e : Error}
    (pending : List SelectCase)
    (h : c.handleMetaPipeResult sequence result ok = some ((found, ledger, some e), c1)) :
    c.getLedgerLoop sequence (SelectCase.metaPipe result ok :: pending) =
      Outcome.returned ledger (some e) c1 pending := by
  simp [getLedgerLoop, h]

end CaptiveDiamcircleCore

/-- C2 (ordering), refuted as stated: starting with the cursor at `2^32 - 1`, the
backend accepts ledger `2^32 - 1` and then ledger 5 in the same session, so the
accepted sequences are neither consecutive nor increasing. -/
theorem ordering_fails_at_uint32_max :
    (onlineBackend 4294967295 none none).sessionRecords wrapSteps =
      [ledger 4294967295 "b" "a", ledger 5 "c" "b"] ∧
    ¬ List.Chain' (fun a b : LedgerCloseMeta => b.ledgerSequence = a.ledgerSequence + 1)
      ((onlineBackend 4294967295 none none).sessionRecords wrapSteps) ∧
    ¬ List.Chain' (fun a b : LedgerCloseMeta => a.ledgerSequence < b.ledgerSequence)
      ((onlineBackend 4294967295 none none).sessionRecords wrapSteps) := by
  have h : (onlineBackend 4294967295 none none).sessionRecords wrapSteps =
      [ledger 4294967295 "b" "a", ledger 5 "c" "b"] := by decide
  rw [h]
  simp [ledger]

/-- C2 (ordering), amended. In every session, a record accepted right after a
record whose sequence `s` is below `2^32 - 1` has sequence exactly `s + 1`; and
once such a record has been accepted, a pipe result carrying a record with any
other sequence makes the drain loop of `GetLedger` return an error and no
record. -/
theorem ordering_consecutive (c : CaptiveDiamcircleCore) (steps : List PipeStep) :
    List.Chain'
      (fun a b : LedgerCloseMeta =>
        a.ledgerSequence + 1 < uint32Size → b.ledgerSequence = a.ledgerSequence + 1)
      (c.sessionRecords steps) ∧
    ∀ (s : PipeStep) (found : Bool) (ledger m : LedgerCloseMeta) (c1 : CaptiveDiamcircleCore),
      c.handleMetaPipeResult s.sequence s.result s.ok = some ((found, ledger, none), c1) →
      s.result.LedgerCloseMeta = some m → m.ledgerSequence + 1 < uint32Size →
      ∀ (sequence : Nat) (result : metaResult) (ok : Bool) (m2 : LedgerCloseMeta)
        (pending : List SelectCase),
        result.LedgerCloseMeta = some m2 → m2.ledgerSequence ≠ m.ledgerSequence + 1 →
        ∃ e c2, c1.getLedgerLoop sequence (SelectCase.metaPipe result ok :: pending) =
          Outcome.returned LedgerCloseMeta.zero (some e) c2 pending := by
  constructor
  · refine (CaptiveDiamcircleCore.sessionRecords_chain _ ?_ steps c).1
    intro c0 c1 m _ hn s found ledger m1 h hm1 hlt
    obtain ⟨runner, m2, -, hm2, -, hseq, -, -⟩ :=
      CaptiveDiamcircleCore.handleMetaPipeResult_ok h
    rw [hm1] at hm2
    cases hm2
    rw [Nat.mod_eq_of_lt hlt] at hn
    rw [hseq (by omega), hn]
  · intro s found ledger m c1 h hm hlt sequence result ok m2 pending hm2 hne
    obtain ⟨runner, m0, hr, hm0, -, -, -, hacc⟩ :=
      CaptiveDiamcircleCore.handleMetaPipeResult_ok h
    rw [hm] at hm0
    cases hm0
    have hnext : c1.nextLedger = m.ledgerSequence + 1 := by
      rw [(CaptiveDiamcircleCore.acceptLedger_ok hacc).2.1, Nat.mod_eq_of_lt hlt]
    have hrun : ∃ r1, c1.diamcircleCoreRunner = some r1 := by
      have := CaptiveDiamcircleCore.acceptLedger_runner c runner s.sequence m
      rw [hacc] at this
      rcases this with h1 | h1
      · exact ⟨runner, by rw [h1, hr]⟩
      · exact ⟨_, h1⟩
    obtain ⟨r1, hr1⟩ := hrun
    exact ⟨_, _, CaptiveDiamcircleCore.getLedgerLoop_cons_err pending
      (CaptiveDiamcircleCore.handleMetaPipeResult_gap sequence ok hr1 (by omega) hm2
        (by omega))⟩

/-- The amended C2 at a concrete session: ledgers 7 and 8 are accepted in order,
after which a result carrying ledger 10 makes the loop fail. -/
theorem ordering_consecutive_witness :
    List.Chain'
      (fun a b : LedgerCloseMeta =>
        a.ledgerSequence + 1 < uint32Size → b.ledgerSequence = a.ledgerSequence + 1)
      ((onlineBackend 7 none none).sessionRecords plainSteps) ∧
    ∃ e c2, (onlineBackend 8 (some "b") (some (ledger 7 "b" "a"))).getLedgerLoop 10
        [SelectCase.metaPipe (recordResult (ledger 10 "e" "d")) true] =
      Outcome.returned LedgerCloseMeta.zero (some e) c2 [] :=
  ⟨(ordering_consecutive (onlineBackend 7 none none) plainSteps).1,
   (ordering_consecutive (onlineBackend 7 none none) plainSteps).2
      { sequence := 8, result := recordResult (ledger 7 "b" "a"), ok := true }
      false LedgerCloseMeta.zero (ledger 7 "b" "a")
      (onlineBackend 8 (some "b") (some (ledger 7 "b" "a")))
      (by decide) rfl (by decide) 10 (recordResult (ledger 10 "e" "d")) true
      (ledger 10 "e" "d") [] rfl (by decide)⟩

namespace CaptiveDiamcircleCore

/-- When the precondition checks pass, `GetLedger` is its drain loop. -/
theorem GetLedger_of_entersLoop {c : CaptiveDiamcircleCore} {sequence : Nat}
    (h : c.entersLoop sequence) (cases : List SelectCase) :
    c.GetLedger sequence cases = c.getLedgerLoop sequence cases := by
  obtain ⟨h1, h2, h3, h4, h5, h6⟩ := h
  simp [GetLedger, h1, isClosed, h2, h3, h4, h5, h6]

/-- When a check does not pass, `GetLedger` returns without touching the backend
or the pipe. -/
theorem GetLedger_of_not_entersLoop {c : CaptiveDiamcircleCore} {sequence : Nat}
    (h : ¬ c.entersLoop sequence) (cases : List SelectCase) :
    ∃ ledger err, c.GetLedger sequence cases = Outcome.returned ledger err c cases := by
  unfold GetLedger
  split
  · exact ⟨_, _, rfl⟩
  · next h1 =>
    split_ifs with h2 h3 h4 h5 h6
    · exact ⟨_, _, rfl⟩
    · exact ⟨_, _, rfl⟩
    · exact ⟨_, _, rfl⟩
    · exact ⟨_, _, rfl⟩
    · exact ⟨_, _, rfl⟩
    · split
      · exact ⟨_, _, rfl⟩
      · next h7 =>
        exfalso
        apply h
        simp only [isClosed, Bool.not_eq_true] at h2
        exact ⟨h1, h2, h3, h4, h6, h7⟩

/-- A record that passes `checkMetaPipeResult` and the sequence checks is handed
to `acceptLedger`. -/
theorem handleMetaPipeResult_eq_acceptLedger {c : CaptiveDiamcircleCore} {runner : Runner}
    (sequence : Nat) {result : metaResult} {ok : Bool} {m : LedgerCloseMeta}
    (hr : c.diamcircleCoreRunner = some runner)
    (hvalid : checkMetaPipeResult runner result ok = none)
    (hm : result.LedgerCloseMeta = some m)
    (hseq : (c.nextLedger ≠ 0 ∧ m.ledgerSequence = c.nextLedger) ∨
      (c.nextLedger = 0 ∧ ∃ r, c.prepared = some r ∧ m.ledgerSequence ≤ r.from_)) :
    c.handleMetaPipeResult sequence result ok = some (c.acceptLedger runner sequence m) := by
  unfold handleMetaPipeResult
  rw [hr]
  simp only [hvalid, hm]
  rcases hseq with ⟨h0, h1⟩ | ⟨h0, r, hp, hle⟩
  · simp [h0, h1]
  · simp [h0, hp, Nat.not_lt.2 hle]

end CaptiveDiamcircleCore

/-- C3 (gap detection). In a state whose cursor `nextLedger` is known (nonzero),
a pipe result that passes `checkMetaPipeResult` and carries a record whose
sequence differs from the cursor makes `handleMetaPipeResult` return the
"unexpected ledger sequence" error with no record, after one more `close()` on the
runner and with every other field untouched; and a `GetLedger` that receives this
result in its loop returns that error and the zero record. -/
theorem gap_detection (c : CaptiveDiamcircleCore) (runner : Runner) (sequence : Nat)
    (result : metaResult) (ok : Bool) (m : LedgerCloseMeta) (pending : List SelectCase)
    (hr : c.diamcircleCoreRunner = some runner) (hn : c.nextLedger ≠ 0)
    (hvalid : CaptiveDiamcircleCore.checkMetaPipeResult runner result ok = none)
    (hm : result.LedgerCloseMeta = some m) (hs : m.ledgerSequence ≠ c.nextLedger) :
    c.handleMetaPipeResult sequence result ok =
      some ((false, LedgerCloseMeta.zero,
          some (Error.unexpectedLedgerSequence c.nextLedger m.ledgerSequence)),
        { c with diamcircleCoreRunner := some (runner.close).2 }) ∧
    (c.entersLoop sequence →
      c.GetLedger sequence (SelectCase.metaPipe result ok :: pending) =
        Outcome.returned LedgerCloseMeta.zero
          (some (Error.unexpectedLedgerSequence c.nextLedger m.ledgerSequence))
          { c with diamcircleCoreRunner := some (runner.close).2 }
          pending) := by
  have h := CaptiveDiamcircleCore.handleMetaPipeResult_gap sequence ok hr hn hm hs
  rw [hvalid] at h
  refine ⟨h, fun hloop => ?_⟩
  rw [CaptiveDiamcircleCore.GetLedger_of_entersLoop hloop]
  exact CaptiveDiamcircleCore.getLedgerLoop_cons_err pending h

/-- C3 at a concrete state: ledger 8 is expected and ledger 9 arrives. -/
theorem gap_detection_witness :
    (onlineBackend 8 none none).handleMetaPipeResult 9 (recordResult (ledger 9 "c" "b")) true =
      some ((false, LedgerCloseMeta.zero, some (Error.unexpectedLedgerSequence 8 9)),
        { onlineBackend 8 none none with
          diamcircleCoreRunner := some (liveRunner.close).2 }) ∧
    (onlineBackend 8 none none).GetLedger 9
        [SelectCase.metaPipe (recordResult (ledger 9 "c" "b")) true] =
      Outcome.returned LedgerCloseMeta.zero (some (Error.unexpectedLedgerSequence 8 9))
        { onlineBackend 8 none none with
          diamcircleCoreRunner := some (liveRunner.close).2 } [] :=
  ⟨(gap_detection (onlineBackend 8 none none) liveRunner 9 (recordResult (ledger 9 "c" "b"))
      true (ledger 9 "c" "b") [] rfl (by decide) (by decide) rfl (by decide)).1,
   (gap_detection (onlineBackend 8 none none) liveRunner 9 (recordResult (ledger 9 "c" "b"))
      true (ledger 9 "c" "b") [] rfl (by decide) (by decide) rfl (by decide)).2 (by decide)⟩

/-- C4 (hash-chain check). For a pipe result that passes `checkMetaPipeResult`
and carries a record with the expected sequence: if a previous hash `p` is
recorded and the record declares another previous hash, `handleMetaPipeResult`
returns the "unexpected previous ledger hash" error after one more `close()` on
the runner, every other field untouched; if no previous hash is recorded, or the
record declares the recorded one, the record is accepted (cursor, previous hash
and cache are updated) and the returned error, if any, is not the hash error. -/
theorem hash_chain_check (c : CaptiveDiamcircleCore) (runner : Runner) (sequence : Nat)
    (result : metaResult) (ok : Bool) (m : LedgerCloseMeta)
    (hr : c.diamcircleCoreRunner = some runner)
    (hvalid : CaptiveDiamcircleCore.checkMetaPipeResult runner result ok = none)
    (hm : result.LedgerCloseMeta = some m)
    (hseq : (c.nextLedger ≠ 0 ∧ m.ledgerSequence = c.nextLedger) ∨
      (c.nextLedger = 0 ∧ ∃ r, c.prepared = some r ∧ m.ledgerSequence ≤ r.from_)) :
    (∀ p, c.previousLedgerHash = some p → m.previousLedgerHash ≠ p →
      c.handleMetaPipeResult sequence result ok =
        some ((false, LedgerCloseMeta.zero,
            some (Error.unexpectedPreviousLedgerHash m.ledgerSequence p m.previousLedgerHash)),
          { c with diamcircleCoreRunner := some (runner.close).2 })) ∧
    ((c.previousLedgerHash = none ∨ c.previousLedgerHash = some m.previousLedgerHash) →
      ∃ found ledger err c1,
        c.handleMetaPipeResult sequence result ok = some ((found, ledger, err), c1) ∧
        (∀ s e a, err ≠ some (Error.unexpectedPreviousLedgerHash s e a)) ∧
        c1.cachedMeta = some m ∧ c1.previousLedgerHash = some m.ledgerHash ∧
        c1.nextLedger = (m.ledgerSequence + 1) % uint32Size) := by
  have h := CaptiveDiamcircleCore.handleMetaPipeResult_eq_acceptLedger sequence hr hvalid hm hseq
  rw [h]
  constructor
  · intro p hp hne
    have hne2 : ¬ p = m.previousLedgerHash := fun e => hne e.symm
    simp [CaptiveDiamcircleCore.acceptLedger, hp, hne2, CaptiveDiamcircleCore.closeRunner,
      Runner.close]
  · intro hprev
    have hno : ¬ (c.previousLedgerHash ≠ none ∧
        c.previousLedgerHash ≠ some m.previousLedgerHash) := by
      rcases hprev with h0 | h0
      · exact fun hx => hx.1 h0
      · exact fun hx => hx.2 h0
    unfold CaptiveDiamcircleCore.acceptLedger
    simp only [hno, if_false]
    split_ifs
    · split
      · exact ⟨_, _, _, _, rfl, by simp, rfl, rfl, rfl⟩
      · exact ⟨_, _, _, _, rfl, by simp, rfl, rfl, rfl⟩
    · exact ⟨_, _, _, _, rfl, by simp, rfl, rfl, rfl⟩
    · exact ⟨_, _, _, _, rfl, by simp, rfl, rfl, rfl⟩

/-- C4 at a concrete state: the hash "b" is recorded, ledger 8 is expected; a
record declaring the previous hash "x" is refused, one declaring "b" is accepted. -/
theorem hash_chain_check_witness :
    (onlineBackend 8 (some "b") none).handleMetaPipeResult 8
        (recordResult (ledger 8 "c" "x")) true =
      some ((false, LedgerCloseMeta.zero,
          some (Error.unexpectedPreviousLedgerHash 8 "b" "x")),
        { onlineBackend 8 (some "b") none with
          diamcircleCoreRunner := some (liveRunner.close).2 }) ∧
    ∃ found returned err c1,
      (onlineBackend 8 (some "b") none).handleMetaPipeResult 8
          (recordResult (ledger 8 "c" "b")) true = some ((found, returned, err), c1) ∧
      (∀ s e a, err ≠ some (Error.unexpectedPreviousLedgerHash s e a)) ∧
      c1.cachedMeta = some (ledger 8 "c" "b") ∧ c1.previousLedgerHash = some "c" ∧
      c1.nextLedger = (8 + 1) % uint32Size :=
  ⟨(hash_chain_check (onlineBackend 8 (some "b") none) liveRunner 8
      (recordResult (ledger 8 "c" "x")) true (ledger 8 "c" "x") rfl (by decide) rfl
      (Or.inl ⟨by decide, rfl⟩)).1 "b" rfl (by decide),
   (hash_chain_check (onlineBackend 8 (some "b") none) liveRunner 8
      (recordResult (ledger 8 "c" "b")) true (ledger 8 "c" "b") rfl (by decide) rfl
      (Or.inl ⟨by decide, rfl⟩)).2 (Or.inr rfl)⟩

namespace CaptiveDiamcircleCore

/-- A successful fast path returns the cached record, whose sequence is the
requested one. -/
theorem cached_of_filter {c : CaptiveDiamcircleCore} {sequence : Nat} {m : LedgerCloseMeta}
    (h : c.cachedMeta.filter (fun m => decide (sequence = m.ledgerSequence)) = some m) :
    c.cachedMeta = some m ∧ m.ledgerSequence = sequence := by
  cases hc : c.cachedMeta with
  | none => simp [hc] at h
  | some m0 =>
    rw [hc] at h
    by_cases hs : sequence = m0.ledgerSequence
    · simp [Option.filter, hs] at h
      subst h
      exact ⟨rfl, hs.symm⟩
    · simp [Option.filter, hs] at h

/-- The fast path is taken again on a backend whose cache holds the requested
sequence. -/
theorem GetLedger_cached {c : CaptiveDiamcircleCore} {m : LedgerCloseMeta}
    (h : c.cachedMeta = some m) (cases : List SelectCase) :
    c.GetLedger m.ledgerSequence cases = Outcome.returned m none c cases := by
  simp [GetLedger, h, Option.filter]

/-- A drain loop that returns without error returns the record it has just
cached, and that record has the requested sequence. -/
theorem getLedgerLoop_ok {sequence : Nat} {ledger : LedgerCloseMeta}
    {c1 : CaptiveDiamcircleCore} {pending : List SelectCase} (cases : List SelectCase) :
    ∀ c : CaptiveDiamcircleCore,
      c.getLedgerLoop sequence cases = Outcome.returned ledger none c1 pending →
      ledger.ledgerSequence = sequence ∧ c1.cachedMeta = some ledger := by
  induction cases with
  | nil =>
    intro c h
    simp [getLedgerLoop] at h
  | cons x rest ih =>
    intro c h
    cases x with
    | ctxDone err => simp [getLedgerLoop] at h
    | metaPipe result ok =>
      unfold getLedgerLoop at h
      split at h
      · simp at h
      · next found led err c2 hres =>
        split_ifs at h with hret
        · simp only [Outcome.returned.injEq] at h
          obtain ⟨hl, he, hc, -⟩ := h
          subst hl he hc
          simp only [ne_eq, not_true_eq_false, or_false] at hret
          obtain ⟨runner, m, -, -, -, -, -, hacc⟩ := handleMetaPipeResult_ok hres
          obtain ⟨-, -, -, hcache, -, -, -, hfound, hled⟩ := acceptLedger_ok hacc
          rw [hled hret]
          exact ⟨hfound.1 hret, hcache⟩
        · exact ih c2 h

/-- A `GetLedger` that returns without error returns the record now cached, and
that record has the requested sequence. -/
theorem GetLedger_ok {c c1 : CaptiveDiamcircleCore} {sequence : Nat} {ledger : LedgerCloseMeta}
    {cases pending : List SelectCase}
    (h : c.GetLedger sequence cases = Outcome.returned ledger none c1 pending) :
    ledger.ledgerSequence = sequence ∧ c1.cachedMeta = some ledger := by
  by_cases hloop : c.entersLoop sequence
  · rw [GetLedger_of_entersLoop hloop] at h
    exact getLedgerLoop_ok cases c h
  · unfold GetLedger at h
    split at h
    · next m hm =>
      simp only [Outcome.returned.injEq, true_and] at h
      obtain ⟨hl, hc, -⟩ := h
      subst hl hc
      obtain ⟨h1, h2⟩ := cached_of_filter hm
      exact ⟨h2, h1⟩
    · next h1 =>
      split_ifs at h with h2 h3 h4 h5 h6
      · simp at h
      · simp at h
      · simp at h
      · simp at h
      · simp at h
      · split at h
        · simp at h
        · next h7 =>
          exfalso
          apply hloop
          simp only [isClosed, Bool.not_eq_true] at h2
          exact ⟨h1, h2, h3, h4, h6, h7⟩

end CaptiveDiamcircleCore

/-- C5. For every backend state, every requested sequence and every resolution
of the `select`s, a `GetLedger(sequence)` that returns without error returns a
record whose ledger sequence is `sequence`. -/
theorem GetLedger_returns_requested (c c1 : CaptiveDiamcircleCore) (sequence : Nat)
    (cases pending : List SelectCase) (ledger : LedgerCloseMeta)
    (h : c.GetLedger sequence cases = Outcome.returned ledger none c1 pending) :
    ledger.ledgerSequence = sequence :=
  (CaptiveDiamcircleCore.GetLedger_ok h).1

/-- C5 at a concrete call: ledger 8 is requested while ledger 7 is next; the
pipe delivers 7 and 8 and the call returns ledger 8. -/
theorem GetLedger_returns_requested_witness :
    (onlineBackend 7 none none).GetLedger 8
        (recordCases [ledger 7 "b" "a", ledger 8 "c" "b"]) =
      Outcome.returned (ledger 8 "c" "b") none
        (onlineBackend 9 (some "c") (some (ledger 8 "c" "b"))) [] ∧
    (ledger 8 "c" "b").ledgerSequence = 8 :=
  ⟨by decide,
   GetLedger_returns_requested (onlineBackend 7 none none)
    (onlineBackend 9 (some "c") (some (ledger 8 "c" "b"))) 8
    (recordCases [ledger 7 "b" "a", ledger 8 "c" "b"]) [] (ledger 8 "c" "b") (by decide)⟩

/-- C7 (re-read idempotence). Whenever `GetLedger(sequence)` has returned a record
without error, leaving the backend `c1`, a second `GetLedger(sequence)` on `c1`
returns the same record without error, takes nothing from the pipe (all select
cases are still pending) and leaves `c1` unchanged. -/
theorem reread_idempotent (c c1 : CaptiveDiamcircleCore) (sequence : Nat)
    (cases pending : List SelectCase) (ledger : LedgerCloseMeta)
    (h : c.GetLedger sequence cases = Outcome.returned ledger none c1 pending)
    (cases2 : List SelectCase) :
    c1.GetLedger sequence cases2 = Outcome.returned ledger none c1 cases2 := by
  obtain ⟨hseq, hcache⟩ := CaptiveDiamcircleCore.GetLedger_ok h
  rw [← hseq]
  exact CaptiveDiamcircleCore.GetLedger_cached hcache cases2

/-- C7 at a concrete call: after `GetLedger(8)` has drained ledgers 7 and 8, a
second `GetLedger(8)` returns ledger 8 again and leaves the offered record
pending. -/
theorem reread_idempotent_witness :
    (onlineBackend 7 none none).GetLedger 8
        (recordCases [ledger 7 "b" "a", ledger 8 "c" "b"]) =
      Outcome.returned (ledger 8 "c" "b") none
        (onlineBackend 9 (some "c") (some (ledger 8 "c" "b"))) [] ∧
    (onlineBackend 9 (some "c") (some (ledger 8 "c" "b"))).GetLedger 8
        (recordCases [ledger 9 "d" "c"]) =
      Outcome.returned (ledger 8 "c" "b") none
        (onlineBackend 9 (some "c") (some (ledger 8 "c" "b")))
        (recordCases [ledger 9 "d" "c"]) :=
  ⟨by decide,
   reread_idempotent (onlineBackend 7 none none)
    (onlineBackend 9 (some "c") (some (ledger 8 "c" "b"))) 8
    (recordCases [ledger 7 "b" "a", ledger 8 "c" "b"]) [] (ledger 8 "c" "b") (by decide)
    (recordCases [ledger 9 "d" "c"])⟩

namespace CaptiveDiamcircleCore

/-- The precondition checks of `GetLedger`, spelled out. -/
theorem entersLoop_iff (c : CaptiveDiamcircleCore) (sequence : Nat) :
    c.entersLoop sequence ↔
      (∀ m, c.cachedMeta = some m → m.ledgerSequence ≠ sequence) ∧ c.closed = false ∧
      c.prepared ≠ none ∧ c.diamcircleCoreRunner ≠ none ∧
      c.nextExpectedSequence ≤ sequence ∧
      (∀ last, c.lastLedger = some last → sequence ≤ last) := by
  have hcache : c.cachedMeta.filter (fun m => decide (sequence = m.ledgerSequence)) = none ↔
      ∀ m, c.cachedMeta = some m → m.ledgerSequence ≠ sequence := by
    cases hc : c.cachedMeta with
    | none => simp
    | some m0 =>
      by_cases hs : sequence = m0.ledgerSequence
      · simp [Option.filter, hs]
      · simp [Option.filter, hs, eq_comm]
  have hlast : c.lastLedger.filter (fun last => decide (sequence > last)) = none ↔
      ∀ last, c.lastLedger = some last → sequence ≤ last := by
    cases hc : c.lastLedger with
    | none => simp
    | some l0 =>
      by_cases hs : sequence > l0
      · simp [Option.filter, hs]
      · simp only [gt_iff_lt, not_lt] at hs
        simp [Option.filter, hs]
  unfold entersLoop
  rw [hcache, hlast, Nat.not_lt]

/-- The cursor is `nextLedger` once it is known. -/
theorem nextExpectedSequence_of_ne_zero {c : CaptiveDiamcircleCore} (h : c.nextLedger ≠ 0) :
    c.nextExpectedSequence = c.nextLedger := by
  simp [nextExpectedSequence, h]

end CaptiveDiamcircleCore

namespace CaptiveDiamcircleCore

/-- Every way `acceptLedger` can return. -/
theorem acceptLedger_cases {c c1 : CaptiveDiamcircleCore} {runner : Runner} {sequence : Nat}
    {m : LedgerCloseMeta} {out : Bool × LedgerCloseMeta × Option Error}
    (hr : c.diamcircleCoreRunner = some runner)
    (h : c.acceptLedger runner sequence m = (out, c1)) :
    Rejected c c1 runner out ∨ Committed c c1 sequence m out := by
  unfold acceptLedger at h
  simp only at h
  split_ifs at h with h1 h2 h3
  · simp only [Prod.mk.injEq] at h
    obtain ⟨ho, hc⟩ := h
    subst ho hc
    exact Or.inl ⟨rfl, rfl, by simp, rfl⟩
  all_goals
    have hprev : ∀ p, c.previousLedgerHash = some p → m.previousLedgerHash = p := by
      intro p hp
      simp [hp] at h1
      exact h1.symm
  · split at h
    · simp only [Prod.mk.injEq] at h
      obtain ⟨ho, hc⟩ := h
      subst ho hc
      exact Or.inr ⟨hprev, rfl, rfl, rfl, rfl, rfl, rfl, by simp [closeRunner],
        Or.inl ⟨h2, Or.inr ⟨rfl, rfl, by simp⟩⟩⟩
    · simp only [Prod.mk.injEq] at h
      obtain ⟨ho, hc⟩ := h
      subst ho hc
      exact Or.inr ⟨hprev, rfl, rfl, rfl, rfl, rfl, rfl, by simp [closeRunner],
        Or.inl ⟨h2, Or.inl rfl⟩⟩
  · simp only [Prod.mk.injEq] at h
    obtain ⟨ho, hc⟩ := h
    subst ho hc
    exact Or.inr ⟨hprev, rfl, rfl, rfl, rfl, rfl, rfl, by simp [hr],
      Or.inl ⟨h2, Or.inl rfl⟩⟩
  · simp only [Prod.mk.injEq] at h
    obtain ⟨ho, hc⟩ := h
    subst ho hc
    exact Or.inr ⟨hprev, rfl, rfl, rfl, rfl, rfl, rfl, by simp [hr], Or.inr ⟨h2, rfl⟩⟩

/-- Every way `handleMetaPipeResult` can return: the result is rejected, or its
record passed `checkMetaPipeResult` and the sequence checks and was committed. -/
theorem handleMetaPipeResult_cases {c c1 : CaptiveDiamcircleCore} {sequence : Nat}
    {result : metaResult} {ok : Bool} {out : Bool × LedgerCloseMeta × Option Error}
    (h : c.handleMetaPipeResult sequence result ok = some (out, c1)) :
    ∃ runner, c.diamcircleCoreRunner = some runner ∧
      (Rejected c c1 runner out ∨
        ∃ m, result.LedgerCloseMeta = some m ∧ checkMetaPipeResult runner result ok = none ∧
          (c.nextLedger ≠ 0 → m.ledgerSequence = c.nextLedger) ∧
          (c.nextLedger = 0 → ∃ r, c.prepared = some r ∧ m.ledgerSequence ≤ r.from_) ∧
          Committed c c1 sequence m out) := by
  unfold handleMetaPipeResult at h
  split at h
  · simp at h
  · next runner hr =>
    refine ⟨runner, hr, ?_⟩
    have hrej : ∀ e, some ((false, LedgerCloseMeta.zero, some e), c.closeRunner runner) =
        some (out, c1) → Rejected c c1 runner out := by
      intro e he
      simp only [Option.some.injEq, Prod.mk.injEq] at he
      obtain ⟨ho, hc⟩ := he
      subst ho hc
      exact ⟨rfl, rfl, by simp, rfl⟩
    split at h
    · exact Or.inl (hrej _ h)
    · next hchk =>
      split at h
      · simp at h
      · next m hm =>
        simp only at h
        split_ifs at h with h1 h2
        · exact Or.inl (hrej _ h)
        · split at h
          · simp at h
          · next r hp =>
            split_ifs at h with h3
            · exact Or.inl (hrej _ h)
            · rcases acceptLedger_cases hr (Option.some.inj h) with hx | hx
              · exact Or.inl hx
              · exact Or.inr ⟨m, hm, hchk, fun h0 => absurd h2 h0,
                  fun _ => ⟨r, hp, by omega⟩, hx⟩
        · rcases acceptLedger_cases hr (Option.some.inj h) with hx | hx
          · exact Or.inl hx
          · refine Or.inr ⟨m, hm, hchk, fun h0 => ?_, fun h0 => absurd h0 h2, hx⟩
            by_contra hne
            exact h1 ⟨h0, hne⟩

/-- Closing the runner does not move the cursor. -/
theorem nextExpectedSequence_closeRunner (c : CaptiveDiamcircleCore) (runner : Runner) :
    (c.closeRunner runner).nextExpectedSequence = c.nextExpectedSequence := rfl

/-- The drain loop keeps a bounded session a bounded session. -/
theorem BoundedSession_getLedgerLoop {last sequence : Nat} (hseq : sequence < uint32Size)
    (hle : sequence ≤ last) (cases : List SelectCase) :
    ∀ c : CaptiveDiamcircleCore, c.BoundedSession last → c.nextExpectedSequence ≤ sequence →
      ∀ c1 ∈ (c.getLedgerLoop sequence cases).backend, c1.BoundedSession last := by
  induction cases with
  | nil =>
    intro c hc _ c1 h1
    simp only [getLedgerLoop, Outcome.backend, Option.mem_def, Option.some.injEq] at h1
    exact h1 ▸ hc
  | cons x rest ih =>
    intro c hc hcur c1 h1
    cases x with
    | ctxDone err =>
      simp only [getLedgerLoop, Outcome.backend, Option.mem_def, Option.some.injEq] at h1
      exact h1 ▸ hc
    | metaPipe result ok =>
      unfold getLedgerLoop at h1
      split at h1
      · simp [Outcome.backend] at h1
      · next found led err c2 hres =>
        obtain ⟨hclosed, hrun, ⟨r, hprep, hfrom⟩, hlast, hbound⟩ := hc
        obtain ⟨runner, hr, hcase⟩ := handleMetaPipeResult_cases hres
        rcases hcase with ⟨-, -, hne, hc2⟩ | ⟨m, -, -, hs1, hs2, hcom⟩
        · have hret : found = true ∨ err ≠ none := Or.inr hne
          simp only [hret, if_true, Outcome.backend, Option.mem_def, Option.some.injEq] at h1
          subst h1 hc2
          exact ⟨hclosed, by simp [closeRunner], ⟨r, hprep, hfrom⟩, hlast, hbound⟩
        · obtain ⟨-, hnext, -, -, hp2, hl2, hcl2, hr2, hout⟩ := hcom
          have hmle : m.ledgerSequence ≤ sequence := by
            by_cases h0 : c.nextLedger = 0
            · obtain ⟨r0, hr0, hle0⟩ := hs2 h0
              rw [hprep] at hr0
              cases hr0
              have : c.nextExpectedSequence = r.from_ := by
                simp [nextExpectedSequence, h0, hprep]
              omega
            · have := hs1 h0
              rw [nextExpectedSequence_of_ne_zero h0] at hcur
              omega
          have hexp2 : c2.nextExpectedSequence ≤ m.ledgerSequence + 1 ∨
              c2.nextExpectedSequence = r.from_ := by
            by_cases h0 : c2.nextLedger = 0
            · right
              simp [nextExpectedSequence, h0, hp2, hprep]
            · left
              rw [nextExpectedSequence_of_ne_zero h0, hnext]
              exact Nat.mod_le _ _
          have hinv2 : c2.BoundedSession last :=
            ⟨by rw [hcl2, hclosed], hr2, ⟨r, by rw [hp2, hprep], hfrom⟩, by rw [hl2, hlast],
              by rcases hexp2 with h | h <;> omega⟩
          split_ifs at h1 with hret
          · simp only [Outcome.backend, Option.mem_def, Option.some.injEq] at h1
            exact h1 ▸ hinv2
          · refine ih c2 hinv2 ?_ c1 h1
            rcases hout with ⟨-, ho | ⟨-, -, ho⟩⟩ | ⟨hne, -⟩
            · simp only [Prod.mk.injEq] at ho
              exact absurd (Or.inl ho.1) hret
            · exact absurd (Or.inr ho) hret
            · have hlt : m.ledgerSequence + 1 < uint32Size := by omega
              rw [nextExpectedSequence_of_ne_zero (by rw [hnext, Nat.mod_eq_of_lt hlt]; omega),
                hnext, Nat.mod_eq_of_lt hlt]
              omega

/-- A call of `GetLedger` keeps a bounded session a bounded session: whatever the pipe
delivers, the cursor does not pass `last + 1`. -/
theorem BoundedSession_GetLedger {c : CaptiveDiamcircleCore} {last sequence : Nat}
    (hseq : sequence < uint32Size) (cases : List SelectCase) (hc : c.BoundedSession last) :
    ∀ c1 ∈ (c.GetLedger sequence cases).backend, c1.BoundedSession last := by
  by_cases hloop : c.entersLoop sequence
  · rw [GetLedger_of_entersLoop hloop]
    obtain ⟨-, -, -, -, hcur, hb⟩ := (entersLoop_iff c sequence).1 hloop
    exact BoundedSession_getLedgerLoop hseq (hb last hc.2.2.2.1) cases c hc hcur
  · obtain ⟨ledger, err, h⟩ := GetLedger_of_not_entersLoop hloop cases
    rw [h]
    intro c1 h1
    simp only [Outcome.backend, Option.mem_def, Option.some.injEq] at h1
    exact h1 ▸ hc

/-- A successful `openOfflineReplaySubprocess(from, to)` on a backend that is not
closed starts a bounded session, provided the range and the replay start do not
lie beyond `to + 1`. -/
theorem BoundedSession_openOffline {c c1 : CaptiveDiamcircleCore} {env : Collaborators}
    {from_ to_ : Nat} (hclosed : c.closed = false)
    (h : c.openOfflineReplaySubprocess env from_ to_ = (none, c1))
    (hfrom : from_ ≤ to_ + 1)
    (hround : roundDownToFirstReplayAfterCheckpointStart env from_ ≤ to_ + 1) :
    c1.BoundedSession to_ := by
  have hpos : roundDownToFirstReplayAfterCheckpointStart env from_ ≠ 0 := by
    unfold roundDownToFirstReplayAfterCheckpointStart
    split_ifs <;> omega
  unfold openOfflineReplaySubprocess at h
  split at h
  · simp at h
  · split_ifs at h
    · simp at h
    · simp at h
    · split at h
      · simp at h
      · split at h
        · simp at h
        · simp only [Prod.mk.injEq, true_and] at h
          subst h
          refine ⟨hclosed, by simp, ⟨_, rfl, by simpa [BoundedRange] using hfrom⟩, rfl, ?_⟩
          rw [nextExpectedSequence_of_ne_zero hpos]
          exact hround

end CaptiveDiamcircleCore

/-- C9. In a bounded session with upper bound `last`, `GetLedger(sequence)` for a
`sequence` above `last` that is not the cached sequence returns the "reading
past bounded range" error and the zero record, with every select case still
pending and the backend unchanged. -/
theorem reading_past_bounded_range (c : CaptiveDiamcircleCore) (last sequence : Nat)
    (cases : List SelectCase) (hsession : c.BoundedSession last) (hseq : last < sequence)
    (hcache : ∀ m, c.cachedMeta = some m → m.ledgerSequence ≠ sequence) :
    c.GetLedger sequence cases =
      Outcome.returned LedgerCloseMeta.zero (some (Error.pastBoundedRange sequence last))
        c cases := by
  obtain ⟨hclosed, hr, ⟨r, hprep, -⟩, hlast, hcur⟩ := hsession
  have hfilter : c.cachedMeta.filter (fun m => decide (sequence = m.ledgerSequence)) = none := by
    cases hc : c.cachedMeta with
    | none => rfl
    | some m0 =>
      have hne : ¬ sequence = m0.ledgerSequence := fun e => hcache m0 hc e.symm
      simp [Option.filter, hne]
  have hpast : c.lastLedger.filter (fun last => decide (sequence > last)) = some last := by
    rw [hlast]
    simp [Option.filter, hseq]
  have hnb : ¬ sequence < c.nextExpectedSequence := by omega
  unfold CaptiveDiamcircleCore.GetLedger
  rw [hfilter]
  simp [CaptiveDiamcircleCore.isClosed, hclosed, hprep, hr, hnb, hpast]

/-- C9 at a concrete state: the bounded session `[2, 12]` has delivered ledger
12, and ledger 13 is requested. -/
theorem reading_past_bounded_range_witness :
    (offlineBackend liveRunner 12 13 (some "c") (some (ledger 12 "c" "b"))).GetLedger 13
        (recordCases [ledger 13 "d" "c"]) =
      Outcome.returned LedgerCloseMeta.zero (some (Error.pastBoundedRange 13 12))
        (offlineBackend liveRunner 12 13 (some "c") (some (ledger 12 "c" "b")))
        (recordCases [ledger 13 "d" "c"]) :=
  reading_past_bounded_range
    (offlineBackend liveRunner 12 13 (some "c") (some (ledger 12 "c" "b")))
    12 13 (recordCases [ledger 13 "d" "c"])
    ⟨rfl, by decide, ⟨BoundedRange 2 12, rfl, by decide⟩, rfl, by decide⟩
    (by decide) (by intro m hm; cases hm; decide)

/-- C10. On a backend with no prepared range and no cached record, `GetLedger`
returns an error and the zero record for every sequence ("no longer usable" if
the backend is closed, "not prepared" otherwise), with every select case still
pending and the backend unchanged. -/
theorem GetLedger_unprepared (c : CaptiveDiamcircleCore) (sequence : Nat)
    (cases : List SelectCase) (hprep : c.prepared = none) (hcache : c.cachedMeta = none) :
    c.GetLedger sequence cases =
      Outcome.returned LedgerCloseMeta.zero
        (some (if c.closed = true then Error.noLongerUsable else Error.notPrepared)) c cases := by
  cases hcl : c.closed <;>
    simp [CaptiveDiamcircleCore.GetLedger, hcache, CaptiveDiamcircleCore.isClosed, hcl, hprep]

/-- C10 at the freshly constructed backend. -/
theorem GetLedger_unprepared_witness :
    freshBackend.GetLedger 2 (recordCases [ledger 2 "b" "a"]) =
      Outcome.returned LedgerCloseMeta.zero (some Error.notPrepared) freshBackend
        (recordCases [ledger 2 "b" "a"]) :=
  GetLedger_unprepared freshBackend 2 (recordCases [ledger 2 "b" "a"]) rfl rfl

namespace CaptiveDiamcircleCore

/-- A result that carries a record and no error passes `checkMetaPipeResult` on a
runner whose context is live. -/
theorem checkMetaPipeResult_record {runner : Runner} (m : LedgerCloseMeta)
    (hctx : runner.contextErr = none) :
    checkMetaPipeResult runner { LedgerCloseMeta := some m, err := none } true = none := by
  simp [checkMetaPipeResult, hctx]

/-- On a well-formed stream the drain loop accepts every record up to the requested
one and returns it. -/
theorem getLedgerLoop_drain {runner : Runner} {sequence : Nat} (pending : List SelectCase)
    (hctx : runner.contextErr = none) (hlt : sequence + 1 < uint32Size)
    (ms : List LedgerCloseMeta) :
    ∀ (c : CaptiveDiamcircleCore),
      c.diamcircleCoreRunner = some runner → c.nextLedger ≠ 0 → c.nextLedger ≤ sequence →
      (c.lastLedger = some sequence → runner.closeErr = none) →
      ms.length = sequence - c.nextLedger + 1 →
      ChainsFrom c.previousLedgerHash c.nextLedger ms →
      ∃ m, ms.getLast? = some m ∧ m.ledgerSequence = sequence ∧
        c.getLedgerLoop sequence (recordCases ms ++ pending) =
          Outcome.returned m none (c.afterDrain runner m) pending := by
  induction ms with
  | nil =>
    intro c _ _ _ _ hlen _
    simp at hlen
  | cons m rest ih =>
    intro c hr hn hle hclose hlen hchain
    obtain ⟨hseq, hprev, hrest⟩ := hchain
    have hnoerr : ¬ (c.previousLedgerHash ≠ none ∧
        c.previousLedgerHash ≠ some m.previousLedgerHash) := by
      rintro ⟨h1, h2⟩
      cases hp : c.previousLedgerHash with
      | none => exact h1 hp
      | some p => exact h2 (by rw [hp, hprev p hp])
    have hhandle := handleMetaPipeResult_eq_acceptLedger sequence hr
      (checkMetaPipeResult_record m hctx) rfl (Or.inl ⟨hn, hseq⟩)
    have hmod : (m.ledgerSequence + 1) % uint32Size = m.ledgerSequence + 1 :=
      Nat.mod_eq_of_lt (by omega)
    by_cases hlast : m.ledgerSequence = sequence
    · have hnil : rest = [] := by
        apply List.eq_nil_of_length_eq_zero
        simp only [List.length_cons] at hlen
        omega
      subst hnil
      refine ⟨m, rfl, hlast, ?_⟩
      simp only [recordCases, List.map_cons, List.map_nil, List.cons_append, List.nil_append]
      unfold getLedgerLoop
      rw [hhandle]
      unfold acceptLedger
      simp only [hnoerr, if_false, hlast, if_true, hmod]
      by_cases hb : c.lastLedger = some sequence
      · simp [hb, Runner.close, hclose hb, closeRunner, afterDrain, hlast,
          Nat.mod_eq_of_lt hlt]
      · simp [hb, afterDrain, hlast, hr, Nat.mod_eq_of_lt hlt]
    · have hlt2 : m.ledgerSequence < sequence := by omega
      simp only [recordCases, List.map_cons, List.cons_append]
      unfold getLedgerLoop
      rw [hhandle]
      unfold acceptLedger
      simp only [hnoerr, if_false, hlast, hmod]
      simp only [Bool.false_eq_true, ne_eq, not_true_eq_false, or_self, if_false]
      obtain ⟨m1, hm1, hs1, hloop⟩ := ih
        { c with
          nextLedger := m.ledgerSequence + 1
          previousLedgerHash := some m.ledgerHash
          cachedMeta := some m }
        hr (by simp) (by simp only; omega) hclose
        (by simp only [List.length_cons] at hlen; simp only; omega)
        (by simpa [hseq] using hrest)
      refine ⟨m1, ?_, hs1, ?_⟩
      · cases rest with
        | nil => simp at hm1
        | cons a l => simpa using hm1
      · simp only [recordCases] at hloop
        rw [hloop]
        rfl

end CaptiveDiamcircleCore

/-- C6 (drain on a well-formed stream), refuted as stated. First input: in the
bounded session `[2, 3]` with ledger 3 expected, the pipe delivers ledger 3
chaining from the recorded hash, all preconditions of the claim hold, and
`GetLedger(3)` fails because the runner's `close()` fails. Second input: with
the cursor at `2^32 - 1`, `GetLedger(2^32 - 1)` succeeds and leaves `nextLedger`
at 0. -/
theorem drain_fails_as_stated :
    ((offlineBackend stubbornRunner 3 3 (some "b") none).entersLoop 3 ∧
      ChainsFrom (some "b") 3 [ledger 3 "c" "b"] ∧
      (offlineBackend stubbornRunner 3 3 (some "b") none).GetLedger 3
          (recordCases [ledger 3 "c" "b"]) =
        Outcome.returned LedgerCloseMeta.zero
          (some (Error.wrap (Error.other "close failed") "error closing session"))
          (offlineBackend (stubbornRunner.close).2 3 4 (some "c") (some (ledger 3 "c" "b")))
          []) ∧
    ((onlineBackend 4294967295 (some "b") none).entersLoop 4294967295 ∧
      ChainsFrom (some "b") 4294967295 [ledger 4294967295 "c" "b"] ∧
      (onlineBackend 4294967295 (some "b") none).GetLedger 4294967295
          (recordCases [ledger 4294967295 "c" "b"]) =
        Outcome.returned (ledger 4294967295 "c" "b") none
          (onlineBackend 0 (some "c") (some (ledger 4294967295 "c" "b"))) []) := by
  refine ⟨⟨by decide, ?_, by decide⟩, ⟨by decide, ?_, by decide⟩⟩
  · simp [ChainsFrom, ledger]
  · simp [ChainsFrom, ledger]

/-- C6 (drain on a well-formed stream), amended. On a non-closed backend with a
prepared range and a runner whose context is live, with a known cursor
`nextLedger = n` (nonzero), for a requested `sequence` with `n <= sequence`,
`sequence < 2^32 - 1`, `sequence` within the bound of a bounded session and not
the cached sequence, when the pipe delivers `sequence - n + 1` records with
sequences `n, ..., sequence` whose hashes chain from the recorded previous hash,
and provided the runner's `close()` succeeds in case `sequence` is the last
ledger of a bounded session: `GetLedger(sequence)` returns the last of these
records without error, exactly these results are consumed (`pending` is what
is left), and the backend has `nextLedger = sequence + 1`, the record's hash as
previous hash and the record as cache. -/
theorem drain_well_formed_stream (c : CaptiveDiamcircleCore) (r : Range) (runner : Runner)
    (sequence : Nat) (ms : List LedgerCloseMeta) (pending : List SelectCase)
    (hclosed : c.closed = false) (hprep : c.prepared = some r)
    (hr : c.diamcircleCoreRunner = some runner) (hctx : runner.contextErr = none)
    (hn : c.nextLedger ≠ 0) (hle : c.nextLedger ≤ sequence)
    (hlt : sequence + 1 < uint32Size)
    (hbound : ∀ last, c.lastLedger = some last → sequence ≤ last)
    (hcache : ∀ m, c.cachedMeta = some m → m.ledgerSequence ≠ sequence)
    (hclose : c.lastLedger = some sequence → runner.closeErr = none)
    (hlen : ms.length = sequence - c.nextLedger + 1)
    (hchain : ChainsFrom c.previousLedgerHash c.nextLedger ms) :
    ∃ m, ms.getLast? = some m ∧ m.ledgerSequence = sequence ∧
      c.GetLedger sequence (recordCases ms ++ pending) =
        Outcome.returned m none (c.afterDrain runner m) pending ∧
      (c.afterDrain runner m).nextLedger = sequence + 1 ∧
      (c.afterDrain runner m).previousLedgerHash = some m.ledgerHash ∧
      (c.afterDrain runner m).cachedMeta = some m := by
  have hloop : c.entersLoop sequence := by
    rw [CaptiveDiamcircleCore.entersLoop_iff]
    refine ⟨hcache, hclosed, by simp [hprep], by simp [hr], ?_, hbound⟩
    rw [CaptiveDiamcircleCore.nextExpectedSequence_of_ne_zero hn]
    exact hle
  obtain ⟨m, hm, hs, hres⟩ :=
    CaptiveDiamcircleCore.getLedgerLoop_drain pending hctx hlt ms c hr hn hle hclose hlen hchain
  refine ⟨m, hm, hs, ?_, ?_, rfl, rfl⟩
  · rw [CaptiveDiamcircleCore.GetLedger_of_entersLoop hloop]
    exact hres
  · simp [CaptiveDiamcircleCore.afterDrain, hs]

/-- The amended C6 at a concrete call: in the bounded session `[2, 12]` with
ledger 10 expected, `GetLedger(12)` drains ledgers 10, 11 and 12, leaves the
following select case pending, and closes the runner. -/
theorem drain_well_formed_stream_witness :
    ∃ m, [ledger 10 "c" "b", ledger 11 "d" "c", ledger 12 "e" "d"].getLast? = some m ∧
      m.ledgerSequence = 12 ∧
      (offlineBackend liveRunner 12 10 (some "b") none).GetLedger 12
          (recordCases [ledger 10 "c" "b", ledger 11 "d" "c", ledger 12 "e" "d"] ++
            [SelectCase.ctxDone (Error.other "context canceled")]) =
        Outcome.returned m none
          ((offlineBackend liveRunner 12 10 (some "b") none).afterDrain liveRunner m)
          [SelectCase.ctxDone (Error.other "context canceled")] ∧
      ((offlineBackend liveRunner 12 10 (some "b") none).afterDrain liveRunner m).nextLedger =
        12 + 1 ∧
      ((offlineBackend liveRunner 12 10 (some "b") none).afterDrain liveRunner
          m).previousLedgerHash = some m.ledgerHash ∧
      ((offlineBackend liveRunner 12 10 (some "b") none).afterDrain liveRunner m).cachedMeta =
        some m :=
  drain_well_formed_stream (offlineBackend liveRunner 12 10 (some "b") none)
    (BoundedRange 2 12) liveRunner 12
    [ledger 10 "c" "b", ledger 11 "d" "c", ledger 12 "e" "d"]
    [SelectCase.ctxDone (Error.other "context canceled")]
    rfl rfl rfl rfl (by decide) (by decide) (by decide)
    (by intro last h; cases h; decide) (by intro m h; cases h) (fun _ => rfl) rfl
    (by simp [ChainsFrom, ledger, offlineBackend])

namespace CaptiveDiamcircleCore

/-- A drain loop that returns a record leaves the cursor one past the requested
sequence (modulo `2^32`) and keeps the backend open and prepared. -/
theorem getLedgerLoop_ok_cursor {sequence : Nat} {ledger : LedgerCloseMeta}
    {c1 : CaptiveDiamcircleCore} {pending : List SelectCase} (cases : List SelectCase) :
    ∀ c : CaptiveDiamcircleCore,
      c.getLedgerLoop sequence cases = Outcome.returned ledger none c1 pending →
      c.closed = false → c.prepared ≠ none →
      c1.nextLedger = (sequence + 1) % uint32Size ∧ c1.closed = false ∧
        c1.prepared ≠ none ∧ c1.diamcircleCoreRunner ≠ none := by
  induction cases with
  | nil =>
    intro c h
    simp [getLedgerLoop] at h
  | cons x rest ih =>
    intro c h hcl hprep
    cases x with
    | ctxDone err => simp [getLedgerLoop] at h
    | metaPipe result ok =>
      unfold getLedgerLoop at h
      split at h
      · simp at h
      · next found led err c2 hres =>
        split_ifs at h with hret
        · simp only [Outcome.returned.injEq] at h
          obtain ⟨hl, he, hc, -⟩ := h
          subst hl he hc
          simp only [ne_eq, not_true_eq_false, or_false] at hret
          obtain ⟨runner, m, hr, -, -, -, -, hacc⟩ := handleMetaPipeResult_ok hres
          obtain ⟨-, hnext, -, -, hp, -, hc, hfound, -⟩ := acceptLedger_ok hacc
          refine ⟨by rw [hnext, hfound.1 hret], by rw [hc, hcl], by rw [hp]; exact hprep, ?_⟩
          have hrun := acceptLedger_runner c runner sequence m
          rw [hacc] at hrun
          simp only at hrun
          rcases hrun with h1 | h1
          · simp [h1, hr]
          · simp [h1]
        · simp only [not_or, Bool.not_eq_true, ne_eq, not_not] at hret
          obtain ⟨hf, he⟩ := hret
          subst he
          obtain ⟨runner, m, -, -, -, -, -, hacc⟩ := handleMetaPipeResult_ok hres
          obtain ⟨-, -, -, -, hp, -, hc, -, -⟩ := acceptLedger_ok hacc
          exact ih c2 h (by rw [hc, hcl]) (by rw [hp]; exact hprep)

/-- Monotonic read order when the last ledger was read from the stream: after a
`GetLedger(sequence)` that passed its precondition checks and returned a record,
with `sequence < 2^32 - 1`, every `GetLedger(earlier)` with `earlier < sequence`
returns the "behind the captive core stream" error, with every select case
still pending and the backend unchanged. -/
theorem behind_stream_after_stream_read (c c1 : CaptiveDiamcircleCore)
    (sequence earlier : Nat) (cases pending cases2 : List SelectCase)
    (ledger : LedgerCloseMeta) (hloop : c.entersLoop sequence)
    (h : c.GetLedger sequence cases = Outcome.returned ledger none c1 pending)
    (hlt : sequence + 1 < uint32Size) (hearlier : earlier < sequence) :
    c1.GetLedger earlier cases2 =
      Outcome.returned LedgerCloseMeta.zero
        (some (Error.behindStream earlier (sequence + 1))) c1 cases2 := by
  obtain ⟨hseq, hcache⟩ := GetLedger_ok h
  rw [GetLedger_of_entersLoop hloop] at h
  obtain ⟨-, hcl, hp, hr, -, -⟩ := (entersLoop_iff c sequence).1 hloop
  obtain ⟨hnext, hcl1, hp1, hr1⟩ := getLedgerLoop_ok_cursor cases c h hcl hp
  rw [Nat.mod_eq_of_lt hlt] at hnext
  have hexp : c1.nextExpectedSequence = sequence + 1 := by
    rw [nextExpectedSequence_of_ne_zero (by omega), hnext]
  have hne : ¬ earlier = ledger.ledgerSequence := by omega
  have hb : earlier < sequence + 1 := by omega
  simp [GetLedger, hcache, Option.filter, hne, isClosed, hcl1, hp1, hr1, hexp, hb]

end CaptiveDiamcircleCore

/-- C8 (monotonic read order), the code at the failing input. On a fresh backend
`PrepareRange(Bounded(8, 8))` succeeds, draining ledgers 2 to 8; a following
`PrepareRange(Bounded(8, 20))` succeeds too, opening a new session whose
fast-forward read is answered from the cache; then `GetLedger(8)` returns ledger
8 without error (nothing consumed, state unchanged), and the following
`GetLedger(5)` is not refused as behind the stream: it drains ledgers 2 to 5
from the pipe and returns ledger 5 without error. -/
theorem read_behind_last_request_succeeds :
    freshBackend.PrepareRange archiveAt63 (BoundedRange 8 8) (recordCases ledgers2To8) =
      PrepareOutcome.returned none firstSession [] ∧
    firstSession.PrepareRange archiveAt63 (BoundedRange 8 20) (recordCases ledgers2To5) =
      PrepareOutcome.returned none reopenedBackend (recordCases ledgers2To5) ∧
    reopenedBackend.GetLedger 8 (recordCases ledgers2To5) =
      Outcome.returned (ledger 8 "h8" "h7") none reopenedBackend (recordCases ledgers2To5) ∧
    reopenedBackend.GetLedger 5 (recordCases ledgers2To5) =
      Outcome.returned (ledger 5 "h5" "h4") none
        { reopenedBackend with
          cachedMeta := some (ledger 5 "h5" "h4")
          nextLedger := 6
          previousLedgerHash := some "h5" }
        [] := by
  refine ⟨by decide, by decide, by decide, by decide⟩

namespace CaptiveDiamcircleCore

/-- Opening an offline session keeps the closed flag and the cache. -/
theorem openOfflineReplaySubprocess_frame (c : CaptiveDiamcircleCore) (env : Collaborators)
    (from_ to_ : Nat) :
    (c.openOfflineReplaySubprocess env from_ to_).2.closed = c.closed ∧
    (c.openOfflineReplaySubprocess env from_ to_).2.cachedMeta = c.cachedMeta := by
  unfold openOfflineReplaySubprocess
  split
  · exact ⟨rfl, rfl⟩
  · split_ifs
    · exact ⟨rfl, rfl⟩
    · exact ⟨rfl, rfl⟩
    · split
      · exact ⟨rfl, rfl⟩
      · split <;> exact ⟨rfl, rfl⟩

/-- Opening an online session keeps the closed flag and the cache. -/
theorem openOnlineReplaySubprocess_frame (c : CaptiveDiamcircleCore) (env : Collaborators)
    (from_ : Nat) :
    (c.openOnlineReplaySubprocess env from_).2.closed = c.closed ∧
    (c.openOnlineReplaySubprocess env from_).2.cachedMeta = c.cachedMeta := by
  unfold openOnlineReplaySubprocess
  split
  · exact ⟨rfl, rfl⟩
  · simp only
    split_ifs
    · exact ⟨rfl, rfl⟩
    · split
      · exact ⟨rfl, rfl⟩
      · split
        · exact ⟨rfl, rfl⟩
        · split <;> exact ⟨rfl, rfl⟩

/-- A successful offline open installs a runner, the bounded range and its
bound. -/
theorem openOfflineReplaySubprocess_ok {c c1 : CaptiveDiamcircleCore} {env : Collaborators}
    {from_ to_ : Nat} (h : c.openOfflineReplaySubprocess env from_ to_ = (none, c1)) :
    c1.diamcircleCoreRunner ≠ none ∧ c1.prepared = some (BoundedRange from_ to_) ∧
    c1.lastLedger = some to_ := by
  unfold openOfflineReplaySubprocess at h
  split at h
  · simp at h
  · split_ifs at h
    · simp at h
    · simp at h
    · split at h
      · simp at h
      · split at h
        · simp at h
        · simp only [Prod.mk.injEq, true_and] at h
          subst h
          exact ⟨by simp, rfl, rfl⟩

/-- A successful online open installs a runner and the unbounded range, with no
bound. -/
theorem openOnlineReplaySubprocess_ok {c c1 : CaptiveDiamcircleCore} {env : Collaborators}
    {from_ : Nat} (h : c.openOnlineReplaySubprocess env from_ = (none, c1)) :
    c1.diamcircleCoreRunner ≠ none ∧ c1.prepared = some (UnboundedRange from_) ∧
    c1.lastLedger = none := by
  unfold openOnlineReplaySubprocess at h
  split at h
  · simp at h
  · simp only at h
    split_ifs at h
    · simp at h
    · split at h
      · simp at h
      · split at h
        · simp at h
        · split at h
          · simp at h
          · simp only [Prod.mk.injEq, true_and] at h
            subst h
            exact ⟨by simp, rfl, rfl⟩

/-- Opening the subprocess never reports the range as already prepared, keeps
the closed flag and the cache, and on success installs a runner, a prepared
range and the bound of the requested range. -/
theorem openSubprocess_spec (c : CaptiveDiamcircleCore) (env : Collaborators) (r : Range) :
    (c.openSubprocess env r).1.1 = false ∧
    (c.openSubprocess env r).2.closed = c.closed ∧
    (c.openSubprocess env r).2.cachedMeta = c.cachedMeta ∧
    ((c.openSubprocess env r).1.2 = none →
      (c.openSubprocess env r).2.diamcircleCoreRunner ≠ none ∧
      (c.openSubprocess env r).2.prepared ≠ none ∧
      (c.openSubprocess env r).2.lastLedger = if r.bounded then some r.to_ else none) := by
  unfold openSubprocess
  by_cases hb : r.bounded = true
  · simp only [hb, if_true]
    have hf := openOfflineReplaySubprocess_frame c env r.from_ r.to_
    cases hopen : c.openOfflineReplaySubprocess env r.from_ r.to_ with
    | mk e c1 =>
      rw [hopen] at hf
      cases e with
      | some err => exact ⟨rfl, hf.1, hf.2, by simp⟩
      | none =>
        obtain ⟨h1, h2, h3⟩ := openOfflineReplaySubprocess_ok hopen
        exact ⟨rfl, hf.1, hf.2, fun _ => ⟨h1, by simp [h2], h3⟩⟩
  · simp only [hb]
    have hf := openOnlineReplaySubprocess_frame c env r.from_
    cases hopen : c.openOnlineReplaySubprocess env r.from_ with
    | mk e c1 =>
      rw [hopen] at hf
      cases e with
      | some err => exact ⟨rfl, hf.1, hf.2, by simp⟩
      | none =>
        obtain ⟨h1, h2, h3⟩ := openOnlineReplaySubprocess_ok hopen
        exact ⟨rfl, hf.1, hf.2, fun _ => ⟨h1, by simp [h2], h3⟩⟩

/-- What `startPreparingRange` leaves behind: it reports the range as already
prepared exactly when `isPrepared` holds, and then changes nothing; it always
keeps the closed flag and the cache; and when it returns `(false, nil)` a runner,
a prepared range and the bound of the requested range are installed. -/
theorem startPreparingRange_spec (c : CaptiveDiamcircleCore) (env : Collaborators) (r : Range) :
    ((c.startPreparingRange env r).1.1 = true ↔ c.isPrepared r = true) ∧
    (c.isPrepared r = true → c.startPreparingRange env r = ((true, none), c)) ∧
    (c.startPreparingRange env r).2.closed = c.closed ∧
    (c.startPreparingRange env r).2.cachedMeta = c.cachedMeta ∧
    (c.isPrepared r = false → (c.startPreparingRange env r).1.2 = none →
      (c.startPreparingRange env r).2.diamcircleCoreRunner ≠ none ∧
      (c.startPreparingRange env r).2.prepared ≠ none ∧
      (c.startPreparingRange env r).2.lastLedger = if r.bounded then some r.to_ else none) := by
  unfold startPreparingRange
  by_cases hp : c.isPrepared r = true
  · simp [hp]
  · simp only [hp, if_false, false_iff, not_false_eq_true, false_implies, true_and,
      Bool.false_eq_true]
    cases hr : c.diamcircleCoreRunner with
    | none =>
      obtain ⟨h1, h2, h3, h4⟩ := openSubprocess_spec c env r
      simp only
      exact ⟨by simp [h1], h2, h3, fun _ => h4⟩
    | some runner =>
      simp only
      cases hcl : runner.close.1 with
      | some err => exact ⟨by simp, rfl, rfl, by simp⟩
      | none =>
        simp only
        by_cases hex : runner.close.2.processExited = false
        · rw [if_pos hex]
          exact ⟨by simp, rfl, rfl, by simp⟩
        · rw [if_neg hex]
          obtain ⟨h1, h2, h3, h4⟩ := openSubprocess_spec (c.closeRunner runner) env r
          exact ⟨by simp [h1], h2, h3, fun _ => h4⟩


/-- The drain loop changes neither the closed flag, nor the prepared range, nor
the bound, and keeps a runner in place. -/
theorem getLedgerLoop_frame {sequence : Nat} (cases : List SelectCase) :
    ∀ c : CaptiveDiamcircleCore, ∀ c1 ∈ (c.getLedgerLoop sequence cases).backend,
      c1.closed = c.closed ∧ c1.prepared = c.prepared ∧ c1.lastLedger = c.lastLedger ∧
      (c.diamcircleCoreRunner ≠ none → c1.diamcircleCoreRunner ≠ none) := by
  induction cases with
  | nil =>
    intro c c1 h1
    simp only [getLedgerLoop, Outcome.backend, Option.mem_def, Option.some.injEq] at h1
    subst h1
    exact ⟨rfl, rfl, rfl, id⟩
  | cons x rest ih =>
    intro c c1 h1
    cases x with
    | ctxDone err =>
      simp only [getLedgerLoop, Outcome.backend, Option.mem_def, Option.some.injEq] at h1
      subst h1
      exact ⟨rfl, rfl, rfl, id⟩
    | metaPipe result ok =>
      unfold getLedgerLoop at h1
      split at h1
      · simp [Outcome.backend] at h1
      · next found led err c2 hres =>
        obtain ⟨runner, hr, hcase⟩ := handleMetaPipeResult_cases hres
        have h2 : c2.closed = c.closed ∧ c2.prepared = c.prepared ∧
            c2.lastLedger = c.lastLedger ∧ c2.diamcircleCoreRunner ≠ none := by
          rcases hcase with ⟨-, -, -, hc2⟩ | ⟨m, -, -, -, -, hcom⟩
          · subst hc2
            exact ⟨rfl, rfl, rfl, by simp [closeRunner]⟩
          · obtain ⟨-, -, -, -, hp2, hl2, hcl2, hr2, -⟩ := hcom
            exact ⟨hcl2, hp2, hl2, hr2⟩
        split_ifs at h1 with hret
        · simp only [Outcome.backend, Option.mem_def, Option.some.injEq] at h1
          subst h1
          exact ⟨h2.1, h2.2.1, h2.2.2.1, fun _ => h2.2.2.2⟩
        · obtain ⟨g1, g2, g3, g4⟩ := ih c2 c1 h1
          exact ⟨g1.trans h2.1, g2.trans h2.2.1, g3.trans h2.2.2.1, fun _ => g4 h2.2.2.2⟩

/-- A call of `GetLedger` changes neither the closed flag, nor the prepared
range, nor the bound, and keeps a runner in place. -/
theorem GetLedger_frame {c : CaptiveDiamcircleCore} {sequence : Nat} (cases : List SelectCase) :
    ∀ c1 ∈ (c.GetLedger sequence cases).backend,
      c1.closed = c.closed ∧ c1.prepared = c.prepared ∧ c1.lastLedger = c.lastLedger ∧
      (c.diamcircleCoreRunner ≠ none → c1.diamcircleCoreRunner ≠ none) := by
  by_cases hloop : c.entersLoop sequence
  · rw [GetLedger_of_entersLoop hloop]
    exact getLedgerLoop_frame cases c
  · obtain ⟨ledger, err, h⟩ := GetLedger_of_not_entersLoop hloop cases
    rw [h]
    intro c1 h1
    simp only [Outcome.backend, Option.mem_def, Option.some.injEq] at h1
    subst h1
    exact ⟨rfl, rfl, rfl, id⟩

/-- How a successful `PrepareRange` came about: the range was already prepared
and nothing changed, or a session was opened and the fast-forward `GetLedger`
returned without error. -/
theorem PrepareRange_ok {c c1 : CaptiveDiamcircleCore} {env : Collaborators} {r : Range}
    {cases pending : List SelectCase}
    (h : c.PrepareRange env r cases = PrepareOutcome.returned none c1 pending) :
    (c.isPrepared r = true ∧ c1 = c ∧ pending = cases) ∨
    (c.isPrepared r = false ∧ (c.startPreparingRange env r).1.2 = none ∧
      ∃ ledger, (c.startPreparingRange env r).2.GetLedger r.from_ cases =
        Outcome.returned ledger none c1 pending) := by
  obtain ⟨hiff, hyes, -, -, -⟩ := startPreparingRange_spec c env r
  unfold PrepareRange at h
  rcases hst : c.startPreparingRange env r with ⟨⟨b, e⟩, c0⟩
  rw [hst] at h hiff
  cases e with
  | some err => simp at h
  | none =>
    cases b with
    | true =>
      simp only [PrepareOutcome.returned.injEq, true_and] at h
      have hp : c.isPrepared r = true := hiff.1 rfl
      have := hyes hp
      rw [hst] at this
      simp only [Prod.mk.injEq, true_and] at this
      left
      exact ⟨hp, by rw [← h.1, this], h.2.symm⟩
    | false =>
      right
      have hp : c.isPrepared r = false := by
        cases hq : c.isPrepared r with
        | false => rfl
        | true => simpa using hiff.2 hq
      refine ⟨hp, rfl, ?_⟩
      simp only at h
      split at h
      · simp at h
      · next led c2 pending2 hget =>
        simp only [PrepareOutcome.returned.injEq, true_and] at h
        exact ⟨led, by rw [hget, h.1, h.2]⟩
      · simp at h
      · simp at h

/-- After a successful `PrepareRange(r)` on a backend that is not closed, the
range `r` is prepared. -/
theorem isPrepared_of_PrepareRange_ok {c c1 : CaptiveDiamcircleCore} {env : Collaborators}
    {r : Range} {cases pending : List SelectCase} (hclosed : c.closed = false)
    (h : c.PrepareRange env r cases = PrepareOutcome.returned none c1 pending) :
    c1.isPrepared r = true := by
  rcases PrepareRange_ok h with ⟨hp, hc, -⟩ | ⟨hp, herr, ledger, hget⟩
  · rw [hc]
    exact hp
  · obtain ⟨-, -, hcl0, -, hopen⟩ := startPreparingRange_spec c env r
    obtain ⟨hr0, hp0, hl0⟩ := hopen hp herr
    obtain ⟨hseq, hcache⟩ := GetLedger_ok hget
    have hframe := GetLedger_frame cases c1 (by rw [hget]; simp [Outcome.backend])
    obtain ⟨hcl1, hp1, hl1, hr1⟩ := hframe
    have hcl : c1.closed = false := by rw [hcl1, hcl0, hclosed]
    have hrun : c1.diamcircleCoreRunner ≠ none := hr1 hr0
    have hprep : c1.prepared ≠ none := by rw [hp1]; exact hp0
    rw [hl0] at hl1
    unfold isPrepared
    simp only [isClosed, hcl, hrun, hprep, hcache, hl1, Option.map_some', Option.getD_some,
      hseq, if_false, Bool.false_eq_true, or_true, true_and, decide_True]
    by_cases hb : r.bounded = true
    · simp [hb]
    · simp [hb]

end CaptiveDiamcircleCore

/-- C11 (idempotent preparation). On a backend that is not closed, whenever
`PrepareRange(r)` has returned successfully, leaving the backend `c1`, the range
`r` is prepared in `c1`, and an immediately following `PrepareRange(r)`, whatever
the collaborators answer and whatever the pipe offers, returns successfully
with the backend unchanged (the runner included: no `close()`, no new runner,
no `catchup` or `runFrom`) and every select case still pending. -/
theorem idempotent_preparation (c c1 : CaptiveDiamcircleCore) (env env2 : Collaborators)
    (r : Range) (cases pending cases2 : List SelectCase) (hclosed : c.closed = false)
    (h : c.PrepareRange env r cases = PrepareOutcome.returned none c1 pending) :
    c1.isPrepared r = true ∧
    c1.PrepareRange env2 r cases2 = PrepareOutcome.returned none c1 cases2 := by
  have hp := CaptiveDiamcircleCore.isPrepared_of_PrepareRange_ok hclosed h
  refine ⟨hp, ?_⟩
  have hst := (CaptiveDiamcircleCore.startPreparingRange_spec c1 env2 r).2.1 hp
  simp [CaptiveDiamcircleCore.PrepareRange, hst]

/-- C11 at a concrete call: `PrepareRange(Bounded(8, 8))` on a fresh backend
succeeds by draining ledgers 2 to 8, and a second `PrepareRange(Bounded(8, 8))`
succeeds without touching the backend or the pipe. -/
theorem idempotent_preparation_witness :
    freshBackend.PrepareRange archiveAt63 (BoundedRange 8 8) (recordCases ledgers2To8) =
      PrepareOutcome.returned none firstSession [] ∧
    firstSession.isPrepared (BoundedRange 8 8) = true ∧
    firstSession.PrepareRange archiveAt63 (BoundedRange 8 8) (recordCases ledgers2To5) =
      PrepareOutcome.returned none firstSession (recordCases ledgers2To5) :=
  ⟨by decide,
   idempotent_preparation freshBackend firstSession archiveAt63 archiveAt63 (BoundedRange 8 8)
    (recordCases ledgers2To8) [] (recordCases ledgers2To5) rfl (by decide)⟩

namespace CaptiveDiamcircleCore

/-- A `GetLedger` that returns a record that was not in the cache has passed the
precondition checks. -/
theorem entersLoop_of_ok {c c1 : CaptiveDiamcircleCore} {sequence : Nat}
    {ledger : LedgerCloseMeta} {cases pending : List SelectCase}
    (h : c.GetLedger sequence cases = Outcome.returned ledger none c1 pending)
    (hcache : ∀ m, c.cachedMeta = some m → m.ledgerSequence ≠ sequence) :
    c.entersLoop sequence := by
  by_contra hloop
  have hfilter : c.cachedMeta.filter (fun m => decide (sequence = m.ledgerSequence)) = none := by
    cases hc : c.cachedMeta with
    | none => rfl
    | some m0 =>
      have hne : ¬ sequence = m0.ledgerSequence := fun e => hcache m0 hc e.symm
      simp [Option.filter, hne]
  unfold GetLedger at h
  rw [hfilter] at h
  simp only at h
  split_ifs at h with h2 h3 h4 h5 h6
  · simp at h
  · simp at h
  · simp at h
  · simp at h
  · simp at h
  · split at h
    · simp at h
    · next h7 =>
      apply hloop
      simp only [isClosed, Bool.not_eq_true] at h2
      exact ⟨hfilter, h2, h3, h4, h6, h7⟩

/-- Positioning of the stream when nothing stale is in the way: if `PrepareRange(r)`
opens a new session and returns successfully, no record with sequence `r.from`
was cached before the call, and `r.from < 2^32 - 1`, then on return the cached
record has sequence `r.from` and the cursor is `r.from + 1`. -/
theorem PrepareRange_positions_stream {c c1 : CaptiveDiamcircleCore} {env : Collaborators}
    {r : Range} {cases pending : List SelectCase} (hnew : c.isPrepared r = false)
    (hcache : ∀ m, c.cachedMeta = some m → m.ledgerSequence ≠ r.from_)
    (hlt : r.from_ + 1 < uint32Size)
    (h : c.PrepareRange env r cases = PrepareOutcome.returned none c1 pending) :
    (∃ m, c1.cachedMeta = some m ∧ m.ledgerSequence = r.from_) ∧
    c1.nextLedger = r.from_ + 1 ∧ c1.nextExpectedSequence = r.from_ + 1 := by
  rcases PrepareRange_ok h with ⟨hp, -, -⟩ | ⟨-, -, ledger, hget⟩
  · rw [hnew] at hp
    cases hp
  · obtain ⟨-, -, -, hc0, -⟩ := startPreparingRange_spec c env r
    have hcache0 : ∀ m, (c.startPreparingRange env r).2.cachedMeta = some m →
        m.ledgerSequence ≠ r.from_ := by
      rw [hc0]
      exact hcache
    have hloop := entersLoop_of_ok hget hcache0
    obtain ⟨hseq, hcached⟩ := GetLedger_ok hget
    rw [GetLedger_of_entersLoop hloop] at hget
    obtain ⟨-, hcl, hp, -, -, -⟩ := (entersLoop_iff _ _).1 hloop
    obtain ⟨hnext, -, -, -⟩ := getLedgerLoop_ok_cursor cases _ hget hcl hp
    rw [Nat.mod_eq_of_lt hlt] at hnext
    refine ⟨⟨ledger, hcached, hseq⟩, hnext, ?_⟩
    rw [nextExpectedSequence_of_ne_zero (by omega), hnext]

/-- Behaviour of `GetLedger` on a closed backend: it serves the cached sequence and refuses every
other one, without touching the backend or the pipe. -/
theorem GetLedger_closed {c : CaptiveDiamcircleCore} (hclosed : c.closed = true)
    (sequence : Nat) (cases : List SelectCase) :
    (∀ m, c.cachedMeta = some m → m.ledgerSequence = sequence →
      c.GetLedger sequence cases = Outcome.returned m none c cases) ∧
    ((∀ m, c.cachedMeta = some m → m.ledgerSequence ≠ sequence) →
      c.GetLedger sequence cases =
        Outcome.returned LedgerCloseMeta.zero (some Error.noLongerUsable) c cases) := by
  constructor
  · intro m hm hs
    rw [← hs]
    exact GetLedger_cached hm cases
  · intro hcache
    have hfilter : c.cachedMeta.filter (fun m => decide (sequence = m.ledgerSequence)) = none := by
      cases hc : c.cachedMeta with
      | none => rfl
      | some m0 =>
        have hne : ¬ sequence = m0.ledgerSequence := fun e => hcache m0 hc e.symm
        simp [Option.filter, hne]
    unfold GetLedger
    rw [hfilter]
    simp [isClosed, hclosed]

/-- The closed flag is set by `Close`. -/
theorem Close_closed (c : CaptiveDiamcircleCore) : c.Close.2.closed = true := by
  unfold Close
  split <;> rfl

/-- A closed backend has nothing prepared. -/
theorem isPrepared_closed {c : CaptiveDiamcircleCore} (hclosed : c.closed = true) (r : Range) :
    c.isPrepared r = false := by
  simp [isPrepared, isClosed, hclosed]

end CaptiveDiamcircleCore

/-- C12 (PrepareRange positions the stream), the code at the failing input. After
`PrepareRange(Bounded(8, 8))` on a fresh backend, `PrepareRange(Bounded(8, 20))`
finds the range not prepared, starts a new session (a new runner, `catchup(8, 20)`
issued, cursor at 2) and returns successfully without consuming anything from
the new runner's stream: the cached record has sequence 8, but it is the record
of the first session, and the next expected sequence is 2, not 9. -/
theorem prepare_range_served_from_stale_cache :
    freshBackend.PrepareRange archiveAt63 (BoundedRange 8 8) (recordCases ledgers2To8) =
      PrepareOutcome.returned none firstSession [] ∧
    firstSession.isPrepared (BoundedRange 8 20) = false ∧
    firstSession.PrepareRange archiveAt63 (BoundedRange 8 20) (recordCases ledgers2To5) =
      PrepareOutcome.returned none reopenedBackend (recordCases ledgers2To5) ∧
    reopenedBackend.diamcircleCoreRunner =
      some ({ exitedRunner with catchupCalls := [(8, 20)] }) ∧
    reopenedBackend.cachedMeta = firstSession.cachedMeta ∧
    reopenedBackend.nextExpectedSequence = 2 := by
  refine ⟨by decide, by decide, by decide, rfl, rfl, by decide⟩

/-- C13 (GetLedger after Close), the code at the failing input. After
`PrepareRange(Unbounded(8))` on a fresh backend and `Close()`, the backend is
closed, and `GetLedger(8)` returns the cached ledger 8 without error. -/
theorem GetLedger_after_Close_serves_cache :
    freshBackend.PrepareRange archiveAt63 (UnboundedRange 8) (recordCases ledgers2To8) =
      PrepareOutcome.returned none onlineSession [] ∧
    onlineSession.Close = (none, closedSession) ∧
    closedSession.closed = true ∧
    closedSession.GetLedger 8 (recordCases [ledger 9 "h9" "h8"]) =
      Outcome.returned (ledger 8 "h8" "h7") none closedSession
        (recordCases [ledger 9 "h9" "h8"]) := by
  refine ⟨by decide, by decide, rfl, by decide⟩

namespace CaptiveDiamcircleCore

/-- The closed flag is set by no call other than `Close`, and cleared by none:
`PrepareRange` leaves it as it was. -/
theorem PrepareRange_closed {c : CaptiveDiamcircleCore} (env : Collaborators) (r : Range)
    (cases : List SelectCase) :
    ∀ c1 ∈ (c.PrepareRange env r cases).backend, c1.closed = c.closed := by
  obtain ⟨-, -, hcl, -, -⟩ := startPreparingRange_spec c env r
  intro c1 h1
  unfold PrepareRange at h1
  rcases hst : c.startPreparingRange env r with ⟨⟨b, e⟩, c0⟩
  rw [hst] at h1 hcl
  simp only at hcl
  cases e with
  | some err =>
    simp only [PrepareOutcome.backend, Option.mem_def, Option.some.injEq] at h1
    rw [← h1, hcl]
  | none =>
    cases b with
    | true =>
      simp only [PrepareOutcome.backend, Option.mem_def, Option.some.injEq] at h1
      rw [← h1, hcl]
    | false =>
      simp only at h1
      have hframe := @GetLedger_frame c0 r.from_ cases
      split at h1
      · next led err c2 pending2 hget =>
        simp only [PrepareOutcome.backend, Option.mem_def, Option.some.injEq] at h1
        rw [hget] at hframe
        rw [← h1, (hframe c2 (by simp [Outcome.backend])).1, hcl]
      · next led c2 pending2 hget =>
        simp only [PrepareOutcome.backend, Option.mem_def, Option.some.injEq] at h1
        rw [hget] at hframe
        rw [← h1, (hframe c2 (by simp [Outcome.backend])).1, hcl]
      · next c2 hget =>
        simp only [PrepareOutcome.backend, Option.mem_def, Option.some.injEq] at h1
        rw [hget] at hframe
        rw [← h1, (hframe c2 (by simp [Outcome.backend])).1, hcl]
      · simp [PrepareOutcome.backend] at h1

/-- No call of the public interface clears the closed flag. -/
theorem backendAfter_closed {c c1 : CaptiveDiamcircleCore} (call : Call)
    (hclosed : c.closed = true) (h : call.backendAfter c = some c1) : c1.closed = true := by
  cases call with
  | prepareRange env r cases =>
    rw [PrepareRange_closed env r cases c1 h, hclosed]
  | getLedger sequence cases =>
    rw [(GetLedger_frame cases c1 h).1, hclosed]
  | isPrepared r =>
    simp only [Call.backendAfter, Option.some.injEq] at h
    rw [← h, hclosed]
  | getLatestLedgerSequence buffered =>
    simp only [Call.backendAfter, Option.some.injEq] at h
    rw [← h, hclosed]
  | close =>
    simp only [Call.backendAfter, Option.some.injEq] at h
    rw [← h]
    exact Close_closed c

/-- No sequence of calls of the public interface clears the closed flag. -/
theorem runCalls_closed (calls : List Call) :
    ∀ c c1 : CaptiveDiamcircleCore, c.closed = true → runCalls c calls = some c1 →
      c1.closed = true := by
  induction calls with
  | nil =>
    intro c c1 hclosed h
    simp only [runCalls, Option.some.injEq] at h
    rw [← h, hclosed]
  | cons call rest ih =>
    intro c c1 hclosed h
    unfold runCalls at h
    split at h
    · next c2 h2 => exact ih c2 c1 (backendAfter_closed call hclosed h2) h
    · simp at h

end CaptiveDiamcircleCore

/-- The closed flag alone does not stop `PrepareRange`: `startPreparingRange` never
tests it. On the closed backend reached by `PrepareRange(Unbounded(8))` and
`Close()`, were the collaborators to answer as before the cancellation of the root
context (`archiveAfterCancel` is not of the form `Collaborators.afterClose`),
`PrepareRange(Bounded(9, 20))` would install a new runner and issue
`catchup(9, 20)` before returning its error, and `PrepareRange(Bounded(8, 20))`
would return no error. What makes `PrepareRange` fail after `Close()` is the
cancellation. -/
theorem closed_flag_alone_starts_runner :
    onlineSession.Close = (none, closedSession) ∧
    closedSession.PrepareRange archiveAfterCancel (BoundedRange 9 20) (recordCases ledgers2To5) =
      PrepareOutcome.returned
        (some (Error.wrapf Error.noLongerUsable "Error fast-forwarding to %d" 9))
        { closedSession with
          diamcircleCoreRunner := some ({ cancelledRunner with catchupCalls := [(9, 20)] })
          prepared := some (BoundedRange 9 20)
          nextLedger := 2
          lastLedger := some 20
          previousLedgerHash := none }
        (recordCases ledgers2To5) ∧
    closedSession.PrepareRange archiveAfterCancel (BoundedRange 8 20) (recordCases ledgers2To5) =
      PrepareOutcome.returned none
        { closedSession with
          diamcircleCoreRunner := some ({ cancelledRunner with catchupCalls := [(8, 20)] })
          prepared := some (BoundedRange 8 20)
          nextLedger := 2
          lastLedger := some 20
          previousLedgerHash := none }
        (recordCases ledgers2To5) := by
  refine ⟨by decide, by decide, by decide⟩

/-- On a closed backend, for every range `r`, whatever the collaborators answer
and whatever the pipe offers: `r` is not prepared; `PrepareRange(r)` returns, with
every select case still pending (no result is taken from the pipe, no record is
accepted: the cache is unchanged) and the backend still closed; and it returns an
error whenever `r.from` is not the cached sequence. -/
theorem PrepareRange_on_closed (c : CaptiveDiamcircleCore) (env : Collaborators) (r : Range)
    (cases : List SelectCase) (hclosed : c.closed = true) :
    c.isPrepared r = false ∧
    ∃ err c1, c.PrepareRange env r cases = PrepareOutcome.returned err c1 cases ∧
      c1.closed = true ∧ c1.cachedMeta = c.cachedMeta ∧
      ((∀ m, c.cachedMeta = some m → m.ledgerSequence ≠ r.from_) → err ≠ none) := by
  have hnp := CaptiveDiamcircleCore.isPrepared_closed hclosed r
  refine ⟨hnp, ?_⟩
  obtain ⟨hiff, -, hcl, hcache, -⟩ := CaptiveDiamcircleCore.startPreparingRange_spec c env r
  unfold CaptiveDiamcircleCore.PrepareRange
  rcases hst : c.startPreparingRange env r with ⟨⟨b, e⟩, c0⟩
  rw [hst] at hiff hcl hcache
  simp only at hiff hcl hcache
  rw [hclosed] at hcl
  cases b with
  | true =>
    rw [hnp] at hiff
    simp at hiff
  | false =>
    cases e with
    | some err0 =>
      exact ⟨some (Error.wrap err0 "error starting prepare range"), c0, rfl, hcl, hcache,
        fun _ => by simp⟩
    | none =>
      simp only
      obtain ⟨hhit, hmiss⟩ := CaptiveDiamcircleCore.GetLedger_closed hcl r.from_ cases
      by_cases hc : ∀ m, c0.cachedMeta = some m → m.ledgerSequence ≠ r.from_
      · rw [hmiss hc]
        exact ⟨some (Error.wrapf Error.noLongerUsable "Error fast-forwarding to %d" r.from_),
          c0, rfl, hcl, hcache, fun _ => by simp⟩
      · push_neg at hc
        obtain ⟨m, hm, hs⟩ := hc
        rw [hhit m hm hs]
        refine ⟨none, c0, rfl, hcl, hcache, fun hne => ?_⟩
        rw [hcache] at hm
        exact absurd hs (hne m hm)

/-- C15 (Close is terminal). After `Close()` the closed flag is set; it is still
set after any further sequence of `PrepareRange`, `GetLedger`, `IsPrepared`,
`GetLatestLedgerSequence` and `Close` calls; and in the state `c1` reached a
further `Close()` changes no field of the backend: it only calls `close()` once
more on the same runner, if there is one. -/
theorem close_is_terminal (c c1 : CaptiveDiamcircleCore) (calls : List Call)
    (h : runCalls c.Close.2 calls = some c1) :
    c.Close.2.closed = true ∧ c1.closed = true ∧
    c1.Close.2 =
      { c1 with diamcircleCoreRunner := c1.diamcircleCoreRunner.map (fun r => r.close.2) } := by
  have h0 := CaptiveDiamcircleCore.Close_closed c
  have h1 := CaptiveDiamcircleCore.runCalls_closed calls _ c1 h0 h
  refine ⟨h0, h1, ?_⟩
  unfold CaptiveDiamcircleCore.Close
  cases hr : c1.diamcircleCoreRunner with
  | none =>
    simp only [Option.map_none']
    rw [← h1, ← hr]
  | some runner =>
    simp only [Option.map_some']
    rw [← h1]

/-- C15 at a concrete history: `Close()` on the online session, then the calls
`laterCalls`; the closed flag is set throughout, and one more `Close()` only
records one more `close()` on the runner. -/
theorem close_is_terminal_witness :
    runCalls onlineSession.Close.2 laterCalls = some afterLaterCalls ∧
    onlineSession.Close.2.closed = true ∧ afterLaterCalls.closed = true ∧
    afterLaterCalls.Close.2 =
      { afterLaterCalls with
        diamcircleCoreRunner := afterLaterCalls.diamcircleCoreRunner.map (fun r => r.close.2) } :=
  ⟨by decide, close_is_terminal onlineSession afterLaterCalls laterCalls (by decide)⟩

/-- C16 (at most one active runner). When `PrepareRange(r)` is called with a runner
in place and `r` not prepared, `close()` is called on that runner before
anything else. If `close()` fails, or succeeds while the runner reports that
its process has not exited, `PrepareRange` returns an error (the wrapped close
error, or "the previous Diamcircle-Core instance is still running", each wrapped
as "error starting prepare range"), nothing is taken from the pipe, and the
backend is left with the same runner after that one `close()` and every other
field unchanged: whatever the collaborators are, no new runner is installed
and no `catchup` or `runFrom` is recorded. If `close()` succeeds and the process
has exited, the subprocess is opened on the backend whose runner was closed. -/
theorem previous_runner_closed_first (c : CaptiveDiamcircleCore) (runner : Runner)
    (env : Collaborators) (r : Range) (cases : List SelectCase)
    (hr : c.diamcircleCoreRunner = some runner) (hnp : c.isPrepared r = false) :
    (∀ e, runner.closeErr = some e →
      c.PrepareRange env r cases =
        PrepareOutcome.returned
          (some (Error.wrap (Error.wrap e "error closing existing session")
            "error starting prepare range"))
          { c with diamcircleCoreRunner := some (runner.close).2 } cases) ∧
    (runner.closeErr = none → runner.processExited = false →
      c.PrepareRange env r cases =
        PrepareOutcome.returned
          (some (Error.wrap Error.previousStillRunning "error starting prepare range"))
          { c with diamcircleCoreRunner := some (runner.close).2 } cases) ∧
    (runner.close).2.catchupCalls = runner.catchupCalls ∧
    (runner.close).2.runFromCalls = runner.runFromCalls ∧
    (runner.close).2.closeCalls = runner.closeCalls + 1 ∧
    (runner.closeErr = none → runner.processExited = true →
      c.startPreparingRange env r =
        CaptiveDiamcircleCore.openSubprocess
          { c with diamcircleCoreRunner := some (runner.close).2 } env r) := by
  refine ⟨?_, ?_, rfl, rfl, rfl, ?_⟩
  · intro e he
    simp [CaptiveDiamcircleCore.PrepareRange, CaptiveDiamcircleCore.startPreparingRange, hnp, hr,
      Runner.close, he, CaptiveDiamcircleCore.closeRunner]
  · intro he hex
    simp [CaptiveDiamcircleCore.PrepareRange, CaptiveDiamcircleCore.startPreparingRange, hnp, hr,
      Runner.close, he, hex, CaptiveDiamcircleCore.closeRunner]
  · intro he hex
    simp [CaptiveDiamcircleCore.startPreparingRange, hnp, hr,
      Runner.close, he, hex, CaptiveDiamcircleCore.closeRunner]

/-- C16 at two concrete calls of `PrepareRange(Unbounded(3))`, which is not
prepared: on a session whose runner closes but still runs, and on a session
whose runner fails to close. -/
theorem previous_runner_closed_first_witness :
    (onlineBackend 8 none none).PrepareRange archiveAt63 (UnboundedRange 3)
        (recordCases ledgers2To5) =
      PrepareOutcome.returned
        (some (Error.wrap Error.previousStillRunning "error starting prepare range"))
        { onlineBackend 8 none none with diamcircleCoreRunner := some (liveRunner.close).2 }
        (recordCases ledgers2To5) ∧
    (offlineBackend stubbornRunner 12 10 none none).PrepareRange archiveAt63 (UnboundedRange 3)
        (recordCases ledgers2To5) =
      PrepareOutcome.returned
        (some (Error.wrap (Error.wrap (Error.other "close failed")
          "error closing existing session") "error starting prepare range"))
        { offlineBackend stubbornRunner 12 10 none none with
          diamcircleCoreRunner := some (stubbornRunner.close).2 }
        (recordCases ledgers2To5) :=
  ⟨(previous_runner_closed_first (onlineBackend 8 none none) liveRunner archiveAt63
      (UnboundedRange 3) (recordCases ledgers2To5) rfl (by decide)).2.1 rfl rfl,
   (previous_runner_closed_first (offlineBackend stubbornRunner 12 10 none none) stubbornRunner
      archiveAt63 (UnboundedRange 3) (recordCases ledgers2To5) rfl (by decide)).1
      (Error.other "close failed") rfl⟩

/-- C17 (no silent reuse after an integrity failure), the code at the failing
input. After `PrepareRange(Unbounded(8))` on a fresh backend, `GetLedger(9)` receives
ledger 10 and fails with the sequence error, closing the runner. Afterwards
`Unbounded(12)` still counts as prepared, and `PrepareRange(Unbounded(12))` returns
successfully without changing anything: the closed runner stays in place, no
new runner is created and no `runFrom` is issued. -/
theorem prepared_after_integrity_failure :
    freshBackend.PrepareRange archiveAt63 (UnboundedRange 8) (recordCases ledgers2To8) =
      PrepareOutcome.returned none onlineSession [] ∧
    onlineSession.GetLedger 9 (recordCases [ledger 10 "h10" "h9"]) =
      Outcome.returned LedgerCloseMeta.zero (some (Error.unexpectedLedgerSequence 9 10))
        failedSession [] ∧
    failedSession.isPrepared (UnboundedRange 12) = true ∧
    failedSession.PrepareRange archiveAt63 (UnboundedRange 12)
        (recordCases [ledger 11 "h11" "h10"]) =
      PrepareOutcome.returned none failedSession (recordCases [ledger 11 "h11" "h10"]) := by
  refine ⟨by decide, by decide, by decide, by decide⟩

namespace CaptiveDiamcircleCore

/-- The runner after `acceptLedger`: closed once when an error is returned or
when the requested ledger is the last one of a bounded session, untouched
otherwise. -/
theorem acceptLedger_runner_eq {c c1 : CaptiveDiamcircleCore} {runner : Runner}
    {sequence : Nat} {m : LedgerCloseMeta} {found : Bool} {ledger : LedgerCloseMeta}
    {err : Option Error} (hr : c.diamcircleCoreRunner = some runner)
    (h : c.acceptLedger runner sequence m = ((found, ledger, err), c1)) :
    RunnerAfter c c1 runner sequence found err := by
  unfold RunnerAfter
  unfold acceptLedger at h
  simp only at h
  split_ifs at h with h1 h2 h3
  · simp only [Prod.mk.injEq] at h
    obtain ⟨⟨hf, -, he⟩, hc⟩ := h
    subst hc hf he
    exact ⟨rfl, fun _ => rfl, by simp, by simp, by simp⟩
  · split at h
    · simp only [Prod.mk.injEq] at h
      obtain ⟨⟨hf, -, he⟩, hc⟩ := h
      subst hc hf he
      exact ⟨rfl, fun _ => rfl, by simp, by simp, by simp⟩
    · simp only [Prod.mk.injEq] at h
      obtain ⟨⟨hf, -, he⟩, hc⟩ := h
      subst hc hf he
      refine ⟨rfl, by simp, fun _ _ _ => rfl, fun _ _ hne => ?_, by simp⟩
      exact absurd (by rw [← h2]; exact h3) hne
  · simp only [Prod.mk.injEq] at h
    obtain ⟨⟨hf, -, he⟩, hc⟩ := h
    subst hc hf he
    refine ⟨rfl, by simp, fun _ _ hl => ?_, fun _ _ _ => hr, by simp⟩
    exact absurd (by rw [h2]; exact hl) h3
  · simp only [Prod.mk.injEq] at h
    obtain ⟨⟨hf, -, he⟩, hc⟩ := h
    subst hc hf he
    exact ⟨rfl, by simp, by simp, by simp, fun _ _ => hr⟩

/-- The runner after `handleMetaPipeResult`, by kind of return. -/
theorem handleMetaPipeResult_runner {c c1 : CaptiveDiamcircleCore} {sequence : Nat}
    {result : metaResult} {ok : Bool} {found : Bool} {ledger : LedgerCloseMeta}
    {err : Option Error}
    (h : c.handleMetaPipeResult sequence result ok = some ((found, ledger, err), c1)) :
    ∃ runner, c.diamcircleCoreRunner = some runner ∧
      RunnerAfter c c1 runner sequence found err := by
  unfold handleMetaPipeResult at h
  split at h
  · simp at h
  · next runner hr =>
    refine ⟨runner, hr, ?_⟩
    have hrej : ∀ e, some ((false, LedgerCloseMeta.zero, some e), c.closeRunner runner) =
        some ((found, ledger, err), c1) → RunnerAfter c c1 runner sequence found err := by
      intro e he
      simp only [Option.some.injEq, Prod.mk.injEq] at he
      obtain ⟨⟨hf, -, he1⟩, hc⟩ := he
      subst hc hf he1
      exact ⟨rfl, fun _ => rfl, by simp, by simp, by simp⟩
    split at h
    · exact hrej _ h
    · split at h
      · simp at h
      · next m hm =>
        simp only at h
        split_ifs at h with h1 h2
        · exact hrej _ h
        · split at h
          · simp at h
          · split_ifs at h with h3
            · exact hrej _ h
            · exact acceptLedger_runner_eq hr (Option.some.inj h)
        · exact acceptLedger_runner_eq hr (Option.some.inj h)

end CaptiveDiamcircleCore
/-- C18 (fail-closed). Whatever the backend and the pipe result, when
`handleMetaPipeResult` returns an error, the backend had a runner and holds that
same runner after exactly one more `close()` call; the other answers and call
logs of the runner are unchanged. -/
theorem fail_closed (c c1 : CaptiveDiamcircleCore) (sequence : Nat) (result : metaResult)
    (ok found : Bool) (ledger : LedgerCloseMeta) (e : Error)
    (h : c.handleMetaPipeResult sequence result ok = some ((found, ledger, some e), c1)) :
    ∃ runner, c.diamcircleCoreRunner = some runner ∧
      c1.diamcircleCoreRunner = some { runner with closeCalls := runner.closeCalls + 1 } := by
  obtain ⟨runner, hr, -, herr, -⟩ := CaptiveDiamcircleCore.handleMetaPipeResult_runner h
  exact ⟨runner, hr, herr (by simp)⟩

/-- C18 at a concrete call: ledger 10 arrives while ledger 9 is expected. -/
theorem fail_closed_witness :
    (onlineBackend 9 none none).handleMetaPipeResult 9 (recordResult (ledger 10 "h10" "h9")) true =
        some ((false, LedgerCloseMeta.zero, some (Error.unexpectedLedgerSequence 9 10)),
          { onlineBackend 9 none none with
            diamcircleCoreRunner := some { liveRunner with closeCalls := 1 } }) ∧
      ∃ runner, (onlineBackend 9 none none).diamcircleCoreRunner = some runner ∧
        some { liveRunner with closeCalls := 1 } =
          some { runner with closeCalls := runner.closeCalls + 1 } :=
  ⟨by decide,
   fail_closed (onlineBackend 9 none none)
     { onlineBackend 9 none none with
       diamcircleCoreRunner := some { liveRunner with closeCalls := 1 } }
     9 (recordResult (ledger 10 "h10" "h9")) true false LedgerCloseMeta.zero
     (Error.unexpectedLedgerSequence 9 10) (by decide)⟩

namespace CaptiveDiamcircleCore

/-- The runner through a drain loop that returns a record: closed once when the
requested sequence is the bound of the session, untouched otherwise. -/
theorem getLedgerLoop_runner {sequence : Nat} {ledger : LedgerCloseMeta}
    {c1 : CaptiveDiamcircleCore} {pending : List SelectCase} (cases : List SelectCase) :
    ∀ c : CaptiveDiamcircleCore,
      c.getLedgerLoop sequence cases = Outcome.returned ledger none c1 pending →
      ∃ runner, c.diamcircleCoreRunner = some runner ∧
        (c.lastLedger = some sequence → c1.diamcircleCoreRunner = some runner.close.2) ∧
        (c.lastLedger ≠ some sequence → c1.diamcircleCoreRunner = some runner) := by
  induction cases with
  | nil =>
    intro c h
    simp [getLedgerLoop] at h
  | cons x rest ih =>
    intro c h
    cases x with
    | ctxDone err => simp [getLedgerLoop] at h
    | metaPipe result ok =>
      unfold getLedgerLoop at h
      split at h
      · simp at h
      · next found led err c2 hres =>
        obtain ⟨runner, hr, hl, -, hlast, hother, hskip⟩ := handleMetaPipeResult_runner hres
        split_ifs at h with hret
        · simp only [Outcome.returned.injEq] at h
          obtain ⟨-, herr, hc, -⟩ := h
          subst hc
          have hfound : found = true := by
            rcases hret with hf | hne
            · exact hf
            · exact absurd herr hne
          exact ⟨runner, hr, fun hb => hlast herr hfound hb, fun hb => hother herr hfound hb⟩
        · have hfound : found = false := by
            cases found with
            | false => rfl
            | true => exact absurd (Or.inl rfl) hret
          have herr : err = none := by
            by_contra hne
            exact hret (Or.inr hne)
          obtain ⟨runner2, hr2, hlast2, hother2⟩ := ih c2 h
          have heq : runner2 = runner := by
            have := hskip herr hfound
            rw [hr2] at this
            exact Option.some.inj this
          subst heq
          rw [hl] at hlast2 hother2
          exact ⟨runner2, hr, hlast2, hother2⟩

/-- After a `GetLedger(to)` that took its record from the pipe, with `from < to`
and `to + 1` below `2^32`, the range `[from, to]` is not prepared. -/
theorem isPrepared_after_last_ledger {c c1 : CaptiveDiamcircleCore} {from_ to_ : Nat}
    {ledger : LedgerCloseMeta} {cases pending : List SelectCase}
    (h : c.GetLedger to_ cases = Outcome.returned ledger none c1 pending)
    (hcache : ∀ m, c.cachedMeta = some m → m.ledgerSequence ≠ to_)
    (hlt : from_ < to_) (hto : to_ + 1 < uint32Size) :
    c1.IsPrepared (BoundedRange from_ to_) = (false, none) := by
  have hloop := entersLoop_of_ok h hcache
  obtain ⟨hseq, hcached⟩ := GetLedger_ok h
  rw [GetLedger_of_entersLoop hloop] at h
  obtain ⟨hnext, -, -, -⟩ := getLedgerLoop_ok_cursor cases c h hloop.2.1 hloop.2.2.1
  rw [Nat.mod_eq_of_lt hto] at hnext
  have hne : c1.nextExpectedSequence = to_ + 1 := by
    simp [nextExpectedSequence, hnext]
  have hnot : ¬ (to_ + 1 ≤ from_ ∨ to_ = from_) := by omega
  simp only [IsPrepared, Prod.mk.injEq, and_true]
  unfold isPrepared
  simp only [hne, hcached, Option.map_some', Option.getD_some, hseq, BoundedRange]
  split_ifs <;> simp [hnot]

end CaptiveDiamcircleCore

/-- C19 (bounded self-termination). Let `GetLedger(sequence)` return a record
without error. If the record was not served from the cache (it was obtained from
the pipe) and `sequence` is the upper bound of the session, the backend had a
runner and it holds that runner after one more `close()` call. If `sequence` is
not the upper bound of the session (another bound, or an unbounded session),
the runner is the one held before the call: neither the returned record nor the
records accepted before it closed it. -/
theorem bounded_self_termination (c c1 : CaptiveDiamcircleCore) (sequence : Nat)
    (ledger : LedgerCloseMeta) (cases pending : List SelectCase)
    (h : c.GetLedger sequence cases = Outcome.returned ledger none c1 pending) :
    ((∀ m, c.cachedMeta = some m → m.ledgerSequence ≠ sequence) →
      c.lastLedger = some sequence →
      ∃ runner, c.diamcircleCoreRunner = some runner ∧
        c1.diamcircleCoreRunner = some { runner with closeCalls := runner.closeCalls + 1 }) ∧
    (c.lastLedger ≠ some sequence → c1.diamcircleCoreRunner = c.diamcircleCoreRunner) := by
  by_cases hloop : c.entersLoop sequence
  · rw [CaptiveDiamcircleCore.GetLedger_of_entersLoop hloop] at h
    obtain ⟨runner, hr, hlast, hother⟩ := CaptiveDiamcircleCore.getLedgerLoop_runner cases c h
    exact ⟨fun _ hb => ⟨runner, hr, hlast hb⟩, fun hb => (hother hb).trans hr.symm⟩
  · have hcall := h
    obtain ⟨l0, e0, h0⟩ := CaptiveDiamcircleCore.GetLedger_of_not_entersLoop hloop cases
    rw [h0] at h
    simp only [Outcome.returned.injEq] at h
    obtain ⟨-, -, hc, -⟩ := h
    subst hc
    refine ⟨fun hcache _ => ?_, fun _ => rfl⟩
    exact absurd (CaptiveDiamcircleCore.entersLoop_of_ok hcall hcache) hloop

/-- C19 on a session bounded by 12 whose cursor is at 10: `GetLedger(12)` reads
ledgers 10 to 12 and closes the runner, `GetLedger(11)` reads ledgers 10 and 11 and
leaves the runner alone. -/
theorem bounded_self_termination_witness :
    (offlineBackend exitedRunner 12 10 none none).GetLedger 12
        (recordCases [ledger 10 "h10" "h9", ledger 11 "h11" "h10", ledger 12 "h12" "h11"]) =
      Outcome.returned (ledger 12 "h12" "h11") none
        { offlineBackend exitedRunner 12 13 (some "h12") (some (ledger 12 "h12" "h11")) with
          diamcircleCoreRunner := some { exitedRunner with closeCalls := 1 } } [] ∧
    (offlineBackend exitedRunner 12 10 none none).GetLedger 11
        (recordCases [ledger 10 "h10" "h9", ledger 11 "h11" "h10", ledger 12 "h12" "h11"]) =
      Outcome.returned (ledger 11 "h11" "h10") none
        (offlineBackend exitedRunner 12 12 (some "h11") (some (ledger 11 "h11" "h10")))
        (recordCases [ledger 12 "h12" "h11"]) ∧
    (∃ runner,
      (offlineBackend exitedRunner 12 10 none none).diamcircleCoreRunner = some runner ∧
      some { exitedRunner with closeCalls := 1 } =
        some { runner with closeCalls := runner.closeCalls + 1 }) ∧
    (offlineBackend exitedRunner 12 12 (some "h11")
        (some (ledger 11 "h11" "h10"))).diamcircleCoreRunner =
      (offlineBackend exitedRunner 12 10 none none).diamcircleCoreRunner :=
  ⟨by decide, by decide,
   (bounded_self_termination (offlineBackend exitedRunner 12 10 none none)
      { offlineBackend exitedRunner 12 13 (some "h12") (some (ledger 12 "h12" "h11")) with
        diamcircleCoreRunner := some { exitedRunner with closeCalls := 1 } } 12
      (ledger 12 "h12" "h11")
      (recordCases [ledger 10 "h10" "h9", ledger 11 "h11" "h10", ledger 12 "h12" "h11"]) []
      (by decide)).1 (by decide) rfl,
   (bounded_self_termination (offlineBackend exitedRunner 12 10 none none)
      (offlineBackend exitedRunner 12 12 (some "h11") (some (ledger 11 "h11" "h10"))) 11
      (ledger 11 "h11" "h10")
      (recordCases [ledger 10 "h10" "h9", ledger 11 "h11" "h10", ledger 12 "h12" "h11"])
      (recordCases [ledger 12 "h12" "h11"]) (by decide)).2 (by decide)⟩

/-- The example of the specification: after `PrepareRange(Bounded(10, 12))` on a
fresh backend and `GetLedger(12)`, `IsPrepared(Bounded(10, 12))` answers false. -/
theorem IsPrepared_after_bounded_10_12 :
    (runCalls freshBackend
        [Call.prepareRange archiveAt63 (BoundedRange 10 12)
          (recordCases (ledgers2To8 ++ [ledger 9 "h9" "h8", ledger 10 "h10" "h9"])),
         Call.getLedger 12
          (recordCases [ledger 11 "h11" "h10", ledger 12 "h12" "h11"])]).map
      (fun c => (c.nextLedger, c.lastLedger, c.IsPrepared (BoundedRange 10 12))) =
      some (13, some 12, (false, none)) := by
  decide

/-- C20 (bounded auto-close, preparedness), refuted as stated, at the range
`from = to = 8`. `PrepareRange(Bounded(8, 8))` on a fresh backend succeeds, reading
ledgers 2 to 8 and closing the runner at ledger 8; `GetLedger(8)` then returns
ledger 8 without error; and `IsPrepared(Bounded(8, 8))` answers true. -/
theorem IsPrepared_after_single_ledger_range :
    freshBackend.PrepareRange archiveAt63 (BoundedRange 8 8) (recordCases ledgers2To8) =
      PrepareOutcome.returned none firstSession [] ∧
    firstSession.GetLedger 8 [] =
      Outcome.returned (ledger 8 "h8" "h7") none firstSession [] ∧
    firstSession.IsPrepared (BoundedRange 8 8) = (true, none) := by
  refine ⟨by decide, by decide, by decide⟩

/-- C27 (isPrepared on an unusable backend). When the backend is closed, has no
runner, or has no prepared range, `isPrepared(r)` is false for every range `r`
and `IsPrepared(r)` returns `(false, nil)`; and on every backend `IsPrepared`
returns the value of `isPrepared` with a nil error. -/
theorem isPrepared_false_of_unusable (c : CaptiveDiamcircleCore) (r : Range)
    (h : c.closed = true ∨ c.diamcircleCoreRunner = none ∨ c.prepared = none) :
    c.isPrepared r = false ∧ c.IsPrepared r = (false, none) ∧
    ∀ (c2 : CaptiveDiamcircleCore) (r2 : Range),
      c2.IsPrepared r2 = (c2.isPrepared r2, none) := by
  have hfalse : c.isPrepared r = false := by
    unfold CaptiveDiamcircleCore.isPrepared CaptiveDiamcircleCore.isClosed
    rcases h with h | h | h
    · simp [h]
    · simp [h]
    · simp [h]
  refine ⟨hfalse, ?_, fun _ _ => rfl⟩
  simp [CaptiveDiamcircleCore.IsPrepared, hfalse]

/-- C27 on three backends: a fresh one (no runner, no range), the online session
after `Close()`, and the online session without its runner. -/
theorem isPrepared_false_of_unusable_witness :
    (freshBackend.prepared = none ∧ closedSession.closed = true ∧
      ({ onlineSession with diamcircleCoreRunner := none } :
        CaptiveDiamcircleCore).diamcircleCoreRunner = none) ∧
    freshBackend.IsPrepared (UnboundedRange 8) = (false, none) ∧
    closedSession.IsPrepared (UnboundedRange 8) = (false, none) ∧
    ({ onlineSession with diamcircleCoreRunner := none } :
      CaptiveDiamcircleCore).IsPrepared (UnboundedRange 8) = (false, none) ∧
    onlineSession.IsPrepared (UnboundedRange 8) = (true, none) :=
  ⟨⟨rfl, rfl, rfl⟩,
   (isPrepared_false_of_unusable freshBackend (UnboundedRange 8) (Or.inr (Or.inr rfl))).2.1,
   (isPrepared_false_of_unusable closedSession (UnboundedRange 8) (Or.inl rfl)).2.1,
   (isPrepared_false_of_unusable { onlineSession with diamcircleCoreRunner := none }
      (UnboundedRange 8) (Or.inr (Or.inl rfl))).2.1,
   by decide⟩

/-- C28 (isPrepared on an unbounded session). On a backend that is not closed, has
a runner, and holds an unbounded session (prepared range `Unbounded(from)`, no
upper bound), for every range `r`, bounded or not and whatever `r.to`:
`isPrepared(r)` is true exactly when `nextExpectedSequence() <= r.from` or `r.from`
is the cached sequence, the cached sequence counting as 0 when nothing is cached.
When `r.from >= 1` or a record is cached this reads: exactly when
`nextExpectedSequence() <= r.from` or a record with sequence `r.from` is cached. -/
theorem isPrepared_unbounded_session (c : CaptiveDiamcircleCore) (r : Range) (from_ : Nat)
    (hclosed : c.closed = false) (hrunner : c.diamcircleCoreRunner ≠ none)
    (hprep : c.prepared = some (UnboundedRange from_)) (hlast : c.lastLedger = none) :
    (c.isPrepared r = true ↔ c.nextExpectedSequence ≤ r.from_ ∨ c.cachedLedger = r.from_) ∧
    ((1 ≤ r.from_ ∨ c.cachedMeta ≠ none) →
      (c.isPrepared r = true ↔
        c.nextExpectedSequence ≤ r.from_ ∨
          ∃ m, c.cachedMeta = some m ∧ m.ledgerSequence = r.from_)) := by
  have hcode : c.isPrepared r = true ↔
      c.nextExpectedSequence ≤ r.from_ ∨ c.cachedLedger = r.from_ := by
    unfold CaptiveDiamcircleCore.isPrepared CaptiveDiamcircleCore.isClosed
      CaptiveDiamcircleCore.cachedLedger
    simp [hclosed, hrunner, hprep, hlast]
  refine ⟨hcode, fun hvalid => ?_⟩
  rw [hcode]
  unfold CaptiveDiamcircleCore.cachedLedger
  cases hc : c.cachedMeta with
  | none =>
    rcases hvalid with hvalid | hvalid
    · simp only [Option.map_none', Option.getD_none]
      constructor
      · rintro (h | h)
        · exact Or.inl h
        · omega
      · rintro (h | ⟨m, hm, -⟩)
        · exact Or.inl h
        · simp at hm
    · exact absurd hc hvalid
  | some m0 =>
    simp only [Option.map_some', Option.getD_some]
    constructor
    · rintro (h | h)
      · exact Or.inl h
      · exact Or.inr ⟨m0, rfl, h⟩
    · rintro (h | ⟨m, hm, hseq⟩)
      · exact Or.inl h
      · rw [Option.some.injEq] at hm
        subst hm
        exact Or.inr hseq

/-- C28 on the online session (cursor at 9, ledger 8 cached): `Unbounded(9)`,
`Bounded(12, 3)` and `Unbounded(8)` are prepared, `Unbounded(7)` is not. -/
theorem isPrepared_unbounded_session_witness :
    (onlineSession.closed = false ∧ onlineSession.diamcircleCoreRunner ≠ none ∧
      onlineSession.prepared = some (UnboundedRange 8) ∧ onlineSession.lastLedger = none) ∧
    onlineSession.isPrepared (UnboundedRange 9) = true ∧
    onlineSession.isPrepared (BoundedRange 12 3) = true ∧
    onlineSession.isPrepared (UnboundedRange 8) = true ∧
    ¬ onlineSession.isPrepared (UnboundedRange 7) = true :=
  ⟨⟨rfl, by decide, rfl, rfl⟩,
   (isPrepared_unbounded_session onlineSession (UnboundedRange 9) 8 rfl (by decide) rfl
      rfl).1.2 (Or.inl (by decide)),
   (isPrepared_unbounded_session onlineSession (BoundedRange 12 3) 8 rfl (by decide) rfl
      rfl).1.2 (Or.inl (by decide)),
   (isPrepared_unbounded_session onlineSession (UnboundedRange 8) 8 rfl (by decide) rfl
      rfl).1.2 (Or.inr (by decide)),
   fun h => absurd
     ((isPrepared_unbounded_session onlineSession (UnboundedRange 7) 8 rfl (by decide) rfl
        rfl).1.1 h) (by decide)⟩

/-- C30 (GetLatestLedgerSequence). On a backend that is not closed, with a
prepared range and a runner, `buffered` results waiting in the pipe: in a bounded
session the call returns the upper bound `to`, whatever the cursor, the cache and
`buffered` are; in an unbounded session it returns
`nextExpectedSequence() - 1 + buffered` in uint32 arithmetic, which is that number
itself when `nextExpectedSequence() >= 1` and the sum is below `2^32`, and
`nextExpectedSequence()` is the start of the prepared range while `nextLedger` is
0. On every backend that is closed or has no prepared range the call returns 0
and an error. -/
theorem GetLatestLedgerSequence_spec (c : CaptiveDiamcircleCore) (buffered : Nat)
    (hclosed : c.closed = false) (hprep : c.prepared ≠ none)
    (hrunner : c.diamcircleCoreRunner ≠ none) :
    (∀ to_, c.lastLedger = some to_ → c.GetLatestLedgerSequence buffered = (to_, none)) ∧
    (c.lastLedger = none →
      c.GetLatestLedgerSequence buffered =
        ((c.nextExpectedSequence + (uint32Size - 1) + buffered % uint32Size) % uint32Size,
          none) ∧
      (1 ≤ c.nextExpectedSequence → c.nextExpectedSequence - 1 + buffered < uint32Size →
        c.GetLatestLedgerSequence buffered = (c.nextExpectedSequence - 1 + buffered, none)) ∧
      (c.nextLedger = 0 → ∀ p, c.prepared = some p → c.nextExpectedSequence = p.from_)) ∧
    (∀ c2 : CaptiveDiamcircleCore, c2.closed = true ∨ c2.prepared = none →
      (c2.GetLatestLedgerSequence buffered).1 = 0 ∧
      (c2.GetLatestLedgerSequence buffered).2 ≠ none) := by
  refine ⟨fun to_ hl => ?_, fun hl => ⟨?_, fun h1 hlt => ?_, fun hn p hp => ?_⟩,
    fun c2 h2 => ?_⟩
  · simp [CaptiveDiamcircleCore.GetLatestLedgerSequence, CaptiveDiamcircleCore.isClosed,
      hclosed, hprep, hrunner, hl]
  · simp [CaptiveDiamcircleCore.GetLatestLedgerSequence, CaptiveDiamcircleCore.isClosed,
      hclosed, hprep, hrunner, hl]
  · have hsum : (c.nextExpectedSequence + (uint32Size - 1) + buffered % uint32Size) %
        uint32Size = c.nextExpectedSequence - 1 + buffered := by
      simp only [uint32Size] at hlt ⊢
      omega
    simp [CaptiveDiamcircleCore.GetLatestLedgerSequence, CaptiveDiamcircleCore.isClosed,
      hclosed, hprep, hrunner, hl, hsum]
  · simp [CaptiveDiamcircleCore.nextExpectedSequence, hn, hp]
  · unfold CaptiveDiamcircleCore.GetLatestLedgerSequence CaptiveDiamcircleCore.isClosed
    rcases h2 with h2 | h2
    · simp [h2]
    · by_cases hc2 : c2.closed = true
      · simp [hc2]
      · simp [hc2, h2]

/-- C30 on four backends: the online session with 3 results buffered (cursor at 9)
returns 11; a bounded session returns its bound 12 with the cursor at 10;
the fresh backend and the closed session return 0 and an error. -/
theorem GetLatestLedgerSequence_spec_witness :
    (onlineSession.closed = false ∧ onlineSession.prepared ≠ none ∧
      onlineSession.diamcircleCoreRunner ≠ none) ∧
    onlineSession.GetLatestLedgerSequence 3 = (11, none) ∧
    (offlineBackend exitedRunner 12 10 none none).GetLatestLedgerSequence 3 = (12, none) ∧
    freshBackend.GetLatestLedgerSequence 3 = (0, some Error.mustBePrepared) ∧
    closedSession.GetLatestLedgerSequence 3 = (0, some Error.noLongerUsable) :=
  ⟨⟨rfl, by decide, by decide⟩,
   ((GetLatestLedgerSequence_spec onlineSession 3 rfl (by decide) (by decide)).2.1 rfl).2.1
     (by decide) (by decide),
   by decide, by decide, by decide⟩

namespace CaptiveDiamcircleCore

/-- The three ways `runFromParams` ends for a request other than ledger 1, by
what the hash store answers for `runFrom`. -/
theorem runFromParams_cases (env : Collaborators) (from_ : Nat) (hfrom : from_ ≠ 1) :
    (∀ store hash exist err, env.ledgerHashStore = some store →
      store (redirectedFrom from_ - 1) = (hash, exist, some err) →
      runFromParams env from_ =
        (redirectedFrom from_ - 1, hash,
          some (Error.wrapf err "error trying to read ledger hash %d"
            (redirectedFrom from_ - 1)))) ∧
    (∀ store hash, env.ledgerHashStore = some store →
      store (redirectedFrom from_ - 1) = (hash, true, none) →
      runFromParams env from_ = (redirectedFrom from_ - 1, hash, none)) ∧
    (∀ hash, (env.ledgerHashStore = none ∧ hash = "") ∨
        (∃ store, env.ledgerHashStore = some store ∧
          store (redirectedFrom from_ - 1) = (hash, false, none)) →
      runFromParams env from_ =
        match env.ledgerHeader (redirectedFrom from_) with
        | Except.error err2 =>
          (redirectedFrom from_ - 1, hash,
            some (Error.wrapf err2 "error trying to read ledger header %d from HAS"
              (redirectedFrom from_)))
        | Except.ok previousLedgerHash =>
          (redirectedFrom from_ - 1, previousLedgerHash, none)) := by
  refine ⟨fun store hash exist err hs hst => ?_, fun store hash hs hst => ?_, fun hash h => ?_⟩
  · unfold runFromParams redirectedFrom at *
    simp only [hfrom, if_false, hs, hst]
  · unfold runFromParams redirectedFrom at *
    simp only [hfrom, if_false, hs, hst]
  · unfold runFromParams redirectedFrom at *
    rcases h with ⟨hs, hh⟩ | ⟨store, hs, hst⟩
    · subst hh
      simp only [hfrom, if_false, hs]
    · simp only [hfrom, if_false, hs, hst]

/-- The start sequence computed by `runFromParams` for a request other than
ledger 1 is one less than the (possibly redirected) requested ledger, whatever
the hash store and the archive answer. -/
theorem runFromParams_fst (env : Collaborators) (from_ : Nat) (hfrom : from_ ≠ 1) :
    (runFromParams env from_).1 = redirectedFrom from_ - 1 := by
  obtain ⟨h1, h2, h3⟩ := runFromParams_cases env from_ hfrom
  cases hs : env.ledgerHashStore with
  | none =>
    rw [h3 "" (Or.inl ⟨hs, rfl⟩)]
    cases env.ledgerHeader (redirectedFrom from_) <;> rfl
  | some store =>
    rcases hst : store (redirectedFrom from_ - 1) with ⟨hash, exist, err⟩
    cases err with
    | some e => rw [h1 store hash exist e hs hst]
    | none =>
      cases exist with
      | true => rw [h2 store hash hs hst]
      | false =>
        rw [h3 hash (Or.inr ⟨store, hs, hst⟩)]
        cases env.ledgerHeader (redirectedFrom from_) <;> rfl

end CaptiveDiamcircleCore

/-- C24 (live-mode start sequence). A request for ledger 1 makes `runFromParams`
return an error, whatever the hash store and the archive are. For every other
requested ledger, whatever they answer, the returned start sequence is 2 when
`from <= 63` and `from - 1` when `from >= 64`: it is at least 2, it is the
predecessor of the (possibly redirected) requested ledger, so the subtraction
does not underflow, and it stays a uint32 when `from` is one. -/
theorem runFromParams_start_sequence (env : Collaborators) (from_ : Nat) (hfrom : from_ ≠ 1) :
    (CaptiveDiamcircleCore.runFromParams env from_).1 =
      (if from_ ≤ 63 then 2 else from_ - 1) ∧
    2 ≤ (CaptiveDiamcircleCore.runFromParams env from_).1 ∧
    (CaptiveDiamcircleCore.runFromParams env from_).1 + 1 = redirectedFrom from_ ∧
    (from_ < uint32Size → (CaptiveDiamcircleCore.runFromParams env from_).1 < uint32Size) ∧
    ∀ env2 : Collaborators,
      CaptiveDiamcircleCore.runFromParams env2 1 = (0, "", some Error.startFromLedgerOne) := by
  rw [CaptiveDiamcircleCore.runFromParams_fst env from_ hfrom]
  unfold redirectedFrom
  refine ⟨?_, ?_, ?_, ?_, fun env2 => ?_⟩
  · split_ifs <;> rfl
  · split_ifs <;> omega
  · split_ifs <;> omega
  · intro hlt
    split_ifs <;> simp only [uint32Size] at hlt ⊢ <;> omega
  · simp [CaptiveDiamcircleCore.runFromParams]

/-- C24 at requests for ledgers 0, 2, 63, 64 and 1000 on an archive without hash
store, and for ledger 1. -/
theorem runFromParams_start_sequence_witness :
    ((0 : Nat) ≠ 1 ∧ (2 : Nat) ≠ 1 ∧ (63 : Nat) ≠ 1 ∧ (64 : Nat) ≠ 1 ∧ (1000 : Nat) ≠ 1) ∧
    (CaptiveDiamcircleCore.runFromParams archiveAt63 0).1 = 2 ∧
    (CaptiveDiamcircleCore.runFromParams archiveAt63 2).1 = 2 ∧
    (CaptiveDiamcircleCore.runFromParams archiveAt63 63).1 = 2 ∧
    (CaptiveDiamcircleCore.runFromParams archiveAt63 64).1 = 63 ∧
    (CaptiveDiamcircleCore.runFromParams archiveAt63 1000).1 = 999 ∧
    CaptiveDiamcircleCore.runFromParams archiveAt63 1 = (0, "", some Error.startFromLedgerOne) :=
  ⟨by decide,
   (runFromParams_start_sequence archiveAt63 0 (by decide)).1,
   (runFromParams_start_sequence archiveAt63 2 (by decide)).1,
   (runFromParams_start_sequence archiveAt63 63 (by decide)).1,
   (runFromParams_start_sequence archiveAt63 64 (by decide)).1,
   (runFromParams_start_sequence archiveAt63 1000 (by decide)).1,
   (runFromParams_start_sequence archiveAt63 0 (by decide)).2.2.2.2 archiveAt63⟩

/-- C25 (live-mode start hash source). For a request other than ledger 1, with
`runFrom` the start sequence: if a hash store is configured and answers
`(hash, true, nil)` for `runFrom`, `runFromParams` returns `(runFrom, hash, nil)`
whatever the archive would answer; if the store answers with an error,
`runFromParams` returns that error wrapped, whatever the archive would answer;
if no store is configured, or the store answers `(_, false, nil)`, the result
is the hex previous-ledger hash of the archive's header for ledger `runFrom + 1`,
the possibly redirected `from`, or the wrapped error of that lookup. -/
theorem runFromParams_start_hash (env : Collaborators) (from_ : Nat) (hfrom : from_ ≠ 1) :
    (∀ store hash, env.ledgerHashStore = some store →
      store (redirectedFrom from_ - 1) = (hash, true, none) →
      ∀ header : Nat → Except Error String,
        CaptiveDiamcircleCore.runFromParams { env with ledgerHeader := header } from_ =
          (redirectedFrom from_ - 1, hash, none)) ∧
    (∀ store hash exist err, env.ledgerHashStore = some store →
      store (redirectedFrom from_ - 1) = (hash, exist, some err) →
      ∀ header : Nat → Except Error String,
        CaptiveDiamcircleCore.runFromParams { env with ledgerHeader := header } from_ =
          (redirectedFrom from_ - 1, hash,
            some (Error.wrapf err "error trying to read ledger hash %d"
              (redirectedFrom from_ - 1)))) ∧
    (env.ledgerHashStore = none ∨
        (∃ store hash, env.ledgerHashStore = some store ∧
          store (redirectedFrom from_ - 1) = (hash, false, none)) →
      (∀ previousLedgerHash,
        env.ledgerHeader (redirectedFrom from_ - 1 + 1) = Except.ok previousLedgerHash →
        CaptiveDiamcircleCore.runFromParams env from_ =
          (redirectedFrom from_ - 1, previousLedgerHash, none)) ∧
      (∀ err2, env.ledgerHeader (redirectedFrom from_ - 1 + 1) = Except.error err2 →
        (CaptiveDiamcircleCore.runFromParams env from_).2.2 =
          some (Error.wrapf err2 "error trying to read ledger header %d from HAS"
            (redirectedFrom from_)))) := by
  have hpos : redirectedFrom from_ - 1 + 1 = redirectedFrom from_ := by
    unfold redirectedFrom
    split_ifs <;> omega
  rw [hpos]
  refine ⟨fun store hash hs hst header => ?_, fun store hash exist err hs hst header => ?_,
    fun h => ?_⟩
  · exact (CaptiveDiamcircleCore.runFromParams_cases { env with ledgerHeader := header } from_
      hfrom).2.1 store hash hs hst
  · exact (CaptiveDiamcircleCore.runFromParams_cases { env with ledgerHeader := header } from_
      hfrom).1 store hash exist err hs hst
  · obtain ⟨-, -, h3⟩ := CaptiveDiamcircleCore.runFromParams_cases env from_ hfrom
    have hres : ∃ hash, CaptiveDiamcircleCore.runFromParams env from_ =
        match env.ledgerHeader (redirectedFrom from_) with
        | Except.error err2 =>
          (redirectedFrom from_ - 1, hash,
            some (Error.wrapf err2 "error trying to read ledger header %d from HAS"
              (redirectedFrom from_)))
        | Except.ok previousLedgerHash =>
          (redirectedFrom from_ - 1, previousLedgerHash, none) := by
      rcases h with hs | ⟨store, hash, hs, hst⟩
      · exact ⟨"", h3 "" (Or.inl ⟨hs, rfl⟩)⟩
      · exact ⟨hash, h3 hash (Or.inr ⟨store, hs, hst⟩)⟩
    obtain ⟨hash, hres⟩ := hres
    refine ⟨fun previousLedgerHash hh => ?_, fun err2 hh => ?_⟩
    · rw [hres, hh]
    · rw [hres, hh]

/-- C25 at a request for ledger 100: with a store that knows the hash, with a
store that fails, with a store that has no entry, and without store (the
archive of the examples answers "h" for every header). -/
theorem runFromParams_start_hash_witness :
    (100 : Nat) ≠ 1 ∧
    CaptiveDiamcircleCore.runFromParams
        { archiveAt63 with ledgerHashStore := some fullHashStore } 100 = (99, "stored", none) ∧
    CaptiveDiamcircleCore.runFromParams
        { archiveAt63 with ledgerHashStore := some brokenHashStore } 100 =
      (99, "", some (Error.wrapf (Error.other "store down")
        "error trying to read ledger hash %d" 99)) ∧
    CaptiveDiamcircleCore.runFromParams
        { archiveAt63 with ledgerHashStore := some emptyHashStore } 100 = (99, "h", none) ∧
    CaptiveDiamcircleCore.runFromParams archiveAt63 100 = (99, "h", none) :=
  ⟨by decide,
   (runFromParams_start_hash { archiveAt63 with ledgerHashStore := some fullHashStore } 100
      (by decide)).1 fullHashStore "stored" rfl rfl (fun _ => Except.ok "h"),
   (runFromParams_start_hash { archiveAt63 with ledgerHashStore := some brokenHashStore } 100
      (by decide)).2.1 brokenHashStore "" false (Error.other "store down") rfl rfl
      (fun _ => Except.ok "h"),
   ((runFromParams_start_hash { archiveAt63 with ledgerHashStore := some emptyHashStore } 100
      (by decide)).2.2 (Or.inr ⟨emptyHashStore, "", rfl, rfl⟩)).1 "h" rfl,
   ((runFromParams_start_hash archiveAt63 100 (by decide)).2.2 (Or.inl rfl)).1 "h" rfl⟩

namespace CaptiveDiamcircleCore

/-- An offline open on an archive whose latest checkpoint is below `from` or `to`
returns the range error and leaves the backend as it is. -/
theorem openOfflineReplaySubprocess_rejects (c : CaptiveDiamcircleCore) {env : Collaborators}
    {from_ to_ latest : Nat} (hroot : env.rootHAS = Except.ok latest)
    (h : latest < from_ ∨ latest < to_) :
    c.openOfflineReplaySubprocess env from_ to_ =
      (some (if latest < from_ then Error.fromAboveArchive from_ latest
        else Error.toAboveArchive to_ latest), c) := by
  unfold openOfflineReplaySubprocess getLatestCheckpointSequence
  simp only [hroot]
  by_cases hf : latest < from_
  · simp [hf]
  · have ht : latest < to_ := h.resolve_left hf
    simp [hf, ht]

/-- An offline open on an archive whose latest checkpoint covers `from` and `to`
goes on to the runner factory and `catchup(from, to)`. -/
theorem openOfflineReplaySubprocess_accepts (c : CaptiveDiamcircleCore) {env : Collaborators}
    {from_ to_ latest : Nat} (hroot : env.rootHAS = Except.ok latest)
    (hf : from_ ≤ latest) (ht : to_ ≤ latest) :
    c.openOfflineReplaySubprocess env from_ to_ =
      match env.diamcircleCoreRunnerFactory
          diamcircleCoreRunnerMode.diamcircleCoreRunnerModeOffline with
      | Except.error err => (some (Error.wrap err "error creating diamcircle-core runner"), c)
      | Except.ok runner =>
        match (runner.catchup from_ to_).1 with
        | some err =>
          (some (Error.wrap err "error running diamcircle-core"),
            { c with diamcircleCoreRunner := some (runner.catchup from_ to_).2 })
        | none =>
          (none,
            { c with
              diamcircleCoreRunner := some (runner.catchup from_ to_).2
              prepared := some (BoundedRange from_ to_)
              nextLedger := roundDownToFirstReplayAfterCheckpointStart env from_
              lastLedger := some to_
              previousLedgerHash := none }) := by
  unfold openOfflineReplaySubprocess getLatestCheckpointSequence
  simp only [hroot]
  rw [if_neg (by omega), if_neg (by omega)]

/-- A successful offline open sets the cursor to the replay start of `from`,
forgets the previous hash and keeps the cache. -/
theorem openOfflineReplaySubprocess_cursor {c c1 : CaptiveDiamcircleCore} {env : Collaborators}
    {from_ to_ : Nat} (h : c.openOfflineReplaySubprocess env from_ to_ = (none, c1)) :
    c1.nextLedger = roundDownToFirstReplayAfterCheckpointStart env from_ ∧
    c1.previousLedgerHash = none ∧ c1.cachedMeta = c.cachedMeta := by
  unfold openOfflineReplaySubprocess at h
  split at h
  · simp at h
  · split_ifs at h
    · simp at h
    · simp at h
    · split at h
      · simp at h
      · split at h
        · simp at h
        · simp only [Prod.mk.injEq, true_and] at h
          subst h
          exact ⟨rfl, rfl, rfl⟩

end CaptiveDiamcircleCore

/-- C22 (offline range validation). Let the archive report `latest` as its latest
checkpoint. If `from > latest` or `to > latest`, `openOfflineReplaySubprocess(from, to)`
returns the "from sequence" or "to sequence ... is greater than max available"
error and leaves the backend untouched, whatever the runner factory is (it is
not invoked, no runner is installed and no `catchup` issued); and
`PrepareRange(Bounded(from, to))`, when the range is not already prepared, returns
an error with every select case pending, the fields `prepared`, `nextLedger`,
`lastLedger`, `previousLedgerHash`, `cachedMeta` and `closed` unchanged, and the
runner either untouched or the previous runner after its `close()`. If
`from <= latest` and `to <= latest`, the open does not end with either of the two
range errors, and succeeds with `catchup(from, to)` issued on the new runner when
the factory hands out a runner whose `catchup` succeeds. -/
theorem offline_range_validation (c : CaptiveDiamcircleCore) (env : Collaborators)
    (from_ to_ latest : Nat) (cases : List SelectCase)
    (hroot : env.rootHAS = Except.ok latest) :
    (latest < from_ ∨ latest < to_ →
      c.openOfflineReplaySubprocess env from_ to_ =
        (some (if latest < from_ then Error.fromAboveArchive from_ latest
          else Error.toAboveArchive to_ latest), c) ∧
      (c.isPrepared (BoundedRange from_ to_) = false →
        ∃ err c1,
          c.PrepareRange env (BoundedRange from_ to_) cases =
            PrepareOutcome.returned (some err) c1 cases ∧
          c1.prepared = c.prepared ∧ c1.nextLedger = c.nextLedger ∧
          c1.lastLedger = c.lastLedger ∧ c1.previousLedgerHash = c.previousLedgerHash ∧
          c1.cachedMeta = c.cachedMeta ∧ c1.closed = c.closed ∧
          (c1.diamcircleCoreRunner = c.diamcircleCoreRunner ∨
            ∃ runner, c.diamcircleCoreRunner = some runner ∧
              c1.diamcircleCoreRunner = some runner.close.2))) ∧
    (from_ ≤ latest → to_ ≤ latest →
      (∀ a b, (c.openOfflineReplaySubprocess env from_ to_).1 ≠
          some (Error.fromAboveArchive a b) ∧
        (c.openOfflineReplaySubprocess env from_ to_).1 ≠ some (Error.toAboveArchive a b)) ∧
      (∀ runner,
        env.diamcircleCoreRunnerFactory diamcircleCoreRunnerMode.diamcircleCoreRunnerModeOffline =
          Except.ok runner →
        runner.catchupErr = none →
        (c.openOfflineReplaySubprocess env from_ to_).1 = none ∧
        (c.openOfflineReplaySubprocess env from_ to_).2.diamcircleCoreRunner =
          some { runner with catchupCalls := runner.catchupCalls ++ [(from_, to_)] })) := by
  constructor
  · intro h
    refine ⟨CaptiveDiamcircleCore.openOfflineReplaySubprocess_rejects c hroot h, fun hnp => ?_⟩
    have hopen : ∀ c0 : CaptiveDiamcircleCore,
        c0.openSubprocess env (BoundedRange from_ to_) =
          ((false, some (Error.wrap
            (if latest < from_ then Error.fromAboveArchive from_ latest
              else Error.toAboveArchive to_ latest) "opening subprocess")), c0) := by
      intro c0
      simp [CaptiveDiamcircleCore.openSubprocess, BoundedRange,
        CaptiveDiamcircleCore.openOfflineReplaySubprocess_rejects c0 hroot h]
    cases hr : c.diamcircleCoreRunner with
    | none =>
      refine ⟨Error.wrap (Error.wrap
          (if latest < from_ then Error.fromAboveArchive from_ latest
            else Error.toAboveArchive to_ latest) "opening subprocess")
          "error starting prepare range", c, ?_, rfl, rfl, rfl, rfl, rfl, rfl, Or.inl hr⟩
      simp [CaptiveDiamcircleCore.PrepareRange, CaptiveDiamcircleCore.startPreparingRange, hnp,
        hr, hopen]
    | some runner =>
      cases hcl : runner.closeErr with
      | some e =>
        refine ⟨Error.wrap (Error.wrap e "error closing existing session")
          "error starting prepare range", c.closeRunner runner, ?_, rfl, rfl, rfl, rfl, rfl,
          rfl, Or.inr ⟨runner, rfl, rfl⟩⟩
        simp [CaptiveDiamcircleCore.PrepareRange, CaptiveDiamcircleCore.startPreparingRange, hnp,
          hr, Runner.close, hcl]
      | none =>
        by_cases hex : runner.processExited = false
        · refine ⟨Error.wrap Error.previousStillRunning "error starting prepare range",
            c.closeRunner runner, ?_, rfl, rfl, rfl, rfl, rfl, rfl, Or.inr ⟨runner, rfl, rfl⟩⟩
          simp [CaptiveDiamcircleCore.PrepareRange, CaptiveDiamcircleCore.startPreparingRange,
            hnp, hr, Runner.close, hcl, hex]
        · refine ⟨Error.wrap (Error.wrap
            (if latest < from_ then Error.fromAboveArchive from_ latest
              else Error.toAboveArchive to_ latest) "opening subprocess")
            "error starting prepare range", c.closeRunner runner, ?_, rfl, rfl, rfl, rfl, rfl,
            rfl, Or.inr ⟨runner, rfl, rfl⟩⟩
          simp [CaptiveDiamcircleCore.PrepareRange, CaptiveDiamcircleCore.startPreparingRange,
            hnp, hr, Runner.close, hcl, hex, hopen]
  · intro hf ht
    rw [CaptiveDiamcircleCore.openOfflineReplaySubprocess_accepts c hroot hf ht]
    constructor
    · intro a b
      cases env.diamcircleCoreRunnerFactory
          diamcircleCoreRunnerMode.diamcircleCoreRunnerModeOffline with
      | error err => simp
      | ok runner =>
        simp only
        cases (runner.catchup from_ to_).1 <;> simp
    · intro runner hfac hcatch
      simp [hfac, Runner.catchup, hcatch]

/-- C22 on the archive whose latest checkpoint is 63: `Bounded(8, 64)` and
`Bounded(64, 70)` are rejected on the fresh backend, by the open and by
`PrepareRange`, and `Bounded(8, 63)` is opened. -/
theorem offline_range_validation_witness :
    archiveAt63.rootHAS = Except.ok 63 ∧
    freshBackend.openOfflineReplaySubprocess archiveAt63 8 64 =
      (some (Error.toAboveArchive 64 63), freshBackend) ∧
    freshBackend.openOfflineReplaySubprocess archiveAt63 64 70 =
      (some (Error.fromAboveArchive 64 63), freshBackend) ∧
    freshBackend.PrepareRange archiveAt63 (BoundedRange 8 64) (recordCases ledgers2To8) =
      PrepareOutcome.returned
        (some (Error.wrap (Error.wrap (Error.toAboveArchive 64 63) "opening subprocess")
          "error starting prepare range"))
        freshBackend (recordCases ledgers2To8) ∧
    (freshBackend.openOfflineReplaySubprocess archiveAt63 8 63).1 = none ∧
    (freshBackend.openOfflineReplaySubprocess archiveAt63 8 63).2.diamcircleCoreRunner =
      some { exitedRunner with catchupCalls := exitedRunner.catchupCalls ++ [(8, 63)] } :=
  ⟨rfl,
   ((offline_range_validation freshBackend archiveAt63 8 64 63 [] rfl).1
      (Or.inr (by decide))).1,
   ((offline_range_validation freshBackend archiveAt63 64 70 63 [] rfl).1
      (Or.inl (by decide))).1,
   by decide,
   ((offline_range_validation freshBackend archiveAt63 8 63 63 [] rfl).2 (by decide)
      (by decide)).2 exitedRunner rfl rfl⟩

namespace CaptiveDiamcircleCore

/-- With the first checkpoint at ledger 63 and the archive at `latest`, the online
open compares `from` with `latest + 128` reduced modulo `2^32`: above it, the
"too far" error is returned and the backend is untouched; otherwise the error
returned, if any, is another one. -/
theorem openOnlineReplaySubprocess_tooFar (c : CaptiveDiamcircleCore) {env : Collaborators}
    {latest : Nat} (from_ : Nat) (hroot : env.rootHAS = Except.ok latest)
    (hfreq : env.getCheckpoint 0 = 63) :
    ((latest + 128) % uint32Size < from_ →
      c.openOnlineReplaySubprocess env from_ = (some (Error.onlineTooFar latest), c)) ∧
    (¬ (latest + 128) % uint32Size < from_ →
      ∀ l, (c.openOnlineReplaySubprocess env from_).1 ≠ some (Error.onlineTooFar l)) := by
  have htwo : ((env.getCheckpoint 0 + 1) % uint32Size * 2) % uint32Size = 128 := by
    rw [hfreq]
    decide
  unfold openOnlineReplaySubprocess getLatestCheckpointSequence
  simp only [hroot, htwo]
  constructor
  · intro h
    rw [if_pos h]
  · intro h l
    rw [if_neg h]
    repeat' split
    all_goals simp

end CaptiveDiamcircleCore

/-- C23 (online too-far guard), refuted as stated. With checkpoint frequency 64
and the archive's latest checkpoint at `2^32 - 1`, opening the online session
from ledger 200 is rejected as too far, although 200 is not above
`2^32 - 1 + 128`: the sum is computed in uint32 and wraps to 127. -/
theorem online_guard_wraps :
    archiveAtMax.rootHAS = Except.ok 4294967295 ∧ archiveAtMax.getCheckpoint 0 = 63 ∧
    freshBackend.openOnlineReplaySubprocess archiveAtMax 200 =
      (some (Error.onlineTooFar 4294967295), freshBackend) ∧
    ¬ 200 > 4294967295 + 128 := by
  refine ⟨rfl, rfl, by decide, by decide⟩

/-- C23 (online too-far guard), amended. With checkpoint frequency 64 (the first
checkpoint is ledger 63) and the archive's latest checkpoint `latest`, opening
the online session from `from` returns the "trying to start online mode too far"
error exactly when `from` is above `latest + 128` reduced modulo `2^32`, which is
`latest + 128` itself whenever that is below `2^32`; and when it does, the backend
is left untouched whatever the runner factory is: no runner is created. -/
theorem online_too_far_guard (c : CaptiveDiamcircleCore) (env : Collaborators)
    (from_ latest : Nat) (hroot : env.rootHAS = Except.ok latest)
    (hfreq : env.getCheckpoint 0 = 63) :
    ((c.openOnlineReplaySubprocess env from_).1 = some (Error.onlineTooFar latest) ↔
      (latest + 128) % uint32Size < from_) ∧
    (latest + 128 < uint32Size →
      ((c.openOnlineReplaySubprocess env from_).1 = some (Error.onlineTooFar latest) ↔
        latest + 128 < from_)) ∧
    ((c.openOnlineReplaySubprocess env from_).1 = some (Error.onlineTooFar latest) →
      c.openOnlineReplaySubprocess env from_ = (some (Error.onlineTooFar latest), c)) := by
  obtain ⟨hfar, hnear⟩ :=
    CaptiveDiamcircleCore.openOnlineReplaySubprocess_tooFar c from_ hroot hfreq
  have hiff : (c.openOnlineReplaySubprocess env from_).1 = some (Error.onlineTooFar latest) ↔
      (latest + 128) % uint32Size < from_ := by
    constructor
    · intro h
      by_contra hn
      exact hnear hn latest h
    · intro h
      rw [hfar h]
  refine ⟨hiff, fun hlt => ?_, fun h => hfar (hiff.1 h)⟩
  rw [hiff, Nat.mod_eq_of_lt hlt]

/-- C23 on the archive whose latest checkpoint is 63: the online open from ledger
192 is rejected as too far, the one from ledger 191 is not. -/
theorem online_too_far_guard_witness :
    (archiveAt63.rootHAS = Except.ok 63 ∧ archiveAt63.getCheckpoint 0 = 63) ∧
    freshBackend.openOnlineReplaySubprocess archiveAt63 192 =
      (some (Error.onlineTooFar 63), freshBackend) ∧
    (freshBackend.openOnlineReplaySubprocess archiveAt63 191).1 = none :=
  ⟨⟨rfl, rfl⟩,
   (online_too_far_guard freshBackend archiveAt63 192 63 rfl rfl).2.2
     (((online_too_far_guard freshBackend archiveAt63 192 63 rfl rfl).2.1 (by decide)).2
       (by decide)),
   by decide⟩

namespace CaptiveDiamcircleCore

/-- The replay start is 2 for a checkpoint range starting at ledger 0 or 1 and
the start of the range otherwise; it is at least 2. -/
theorem roundDown_ge_two (env : Collaborators) (l : Nat) :
    2 ≤ roundDownToFirstReplayAfterCheckpointStart env l := by
  unfold roundDownToFirstReplayAfterCheckpointStart
  split_ifs <;> omega

end CaptiveDiamcircleCore

/-- C26 (replay start arithmetic). With a checkpoint manager of frequency 64
(checkpoint ranges start at multiples of 64, contain their ledger and span at
most 64 ledgers), for every ledger `L`:
`roundDownToFirstReplayAfterCheckpointStart(L)` is 2 when `L < 64` and otherwise the
largest multiple of 64 not above `L`; it is at least 2, and at most `L` when
`L >= 2`. And a successful `openOfflineReplaySubprocess(L, to)` leaves `nextLedger` at
that value and `lastLedger` at `to`. -/
theorem replay_start_arithmetic (env : Collaborators) (L : Nat) (hfreq : Frequency64 env) :
    CaptiveDiamcircleCore.roundDownToFirstReplayAfterCheckpointStart env L =
      (if L < 64 then 2 else L / 64 * 64) ∧
    (64 ≤ L →
      64 ∣ CaptiveDiamcircleCore.roundDownToFirstReplayAfterCheckpointStart env L ∧
      CaptiveDiamcircleCore.roundDownToFirstReplayAfterCheckpointStart env L ≤ L ∧
      L < CaptiveDiamcircleCore.roundDownToFirstReplayAfterCheckpointStart env L + 64) ∧
    2 ≤ CaptiveDiamcircleCore.roundDownToFirstReplayAfterCheckpointStart env L ∧
    (2 ≤ L → CaptiveDiamcircleCore.roundDownToFirstReplayAfterCheckpointStart env L ≤ L) ∧
    (∀ (c c1 : CaptiveDiamcircleCore) (to_ : Nat),
      c.openOfflineReplaySubprocess env L to_ = (none, c1) →
      c1.nextLedger = CaptiveDiamcircleCore.roundDownToFirstReplayAfterCheckpointStart env L ∧
      c1.lastLedger = some to_) := by
  have hval : CaptiveDiamcircleCore.roundDownToFirstReplayAfterCheckpointStart env L =
      (if L < 64 then 2 else L / 64 * 64) := by
    unfold CaptiveDiamcircleCore.roundDownToFirstReplayAfterCheckpointStart
    obtain ⟨hstart, hle, hspan⟩ := hfreq L
    by_cases hL : L < 64
    · have hlow : env.checkpointRangeLow L ≤ 1 := by
        rcases hstart with ⟨k, hk⟩ | ⟨h1, -⟩
        · omega
        · omega
      rw [if_pos hlow, if_pos hL]
    · have hlow : env.checkpointRangeLow L = L / 64 * 64 := by
        rcases hstart with ⟨k, hk⟩ | ⟨-, h1⟩
        · omega
        · omega
      rw [hlow, if_neg hL, if_neg (by omega)]
  refine ⟨hval, fun h64 => ?_, CaptiveDiamcircleCore.roundDown_ge_two env L, fun h2 => ?_,
    fun c c1 to_ h => ?_⟩
  · rw [hval, if_neg (by omega)]
    exact ⟨Dvd.intro_left _ rfl, by omega, by omega⟩
  · rw [hval]
    split_ifs <;> omega
  · exact ⟨(CaptiveDiamcircleCore.openOfflineReplaySubprocess_cursor h).1,
      (CaptiveDiamcircleCore.openOfflineReplaySubprocess_ok h).2.2⟩

/-- C26 on the checkpoint manager of the examples: the replay start of ledgers
1 and 63 is 2, that of ledger 64 is 64, that of ledger 200 is 192, and the offline
open for `[8, 63]` on the fresh backend leaves the cursor at 2 and the bound at 63. -/
theorem replay_start_arithmetic_witness :
    Frequency64 archiveAt63 ∧
    CaptiveDiamcircleCore.roundDownToFirstReplayAfterCheckpointStart archiveAt63 1 = 2 ∧
    CaptiveDiamcircleCore.roundDownToFirstReplayAfterCheckpointStart archiveAt63 63 = 2 ∧
    CaptiveDiamcircleCore.roundDownToFirstReplayAfterCheckpointStart archiveAt63 64 = 64 ∧
    CaptiveDiamcircleCore.roundDownToFirstReplayAfterCheckpointStart archiveAt63 200 = 192 ∧
    (freshBackend.openOfflineReplaySubprocess archiveAt63 8 63).2.nextLedger = 2 ∧
    (freshBackend.openOfflineReplaySubprocess archiveAt63 8 63).2.lastLedger = some 63 :=
  ⟨fun l => ⟨Or.inl (Dvd.intro_left _ rfl), by show l / 64 * 64 ≤ max l 1; omega,
      by show l < l / 64 * 64 + 64; omega⟩,
   (replay_start_arithmetic archiveAt63 1
      (fun l => ⟨Or.inl (Dvd.intro_left _ rfl), by show l / 64 * 64 ≤ max l 1; omega,
        by show l < l / 64 * 64 + 64; omega⟩)).1,
   (replay_start_arithmetic archiveAt63 63
      (fun l => ⟨Or.inl (Dvd.intro_left _ rfl), by show l / 64 * 64 ≤ max l 1; omega,
        by show l < l / 64 * 64 + 64; omega⟩)).1,
   (replay_start_arithmetic archiveAt63 64
      (fun l => ⟨Or.inl (Dvd.intro_left _ rfl), by show l / 64 * 64 ≤ max l 1; omega,
        by show l < l / 64 * 64 + 64; omega⟩)).1,
   (replay_start_arithmetic archiveAt63 200
      (fun l => ⟨Or.inl (Dvd.intro_left _ rfl), by show l / 64 * 64 ≤ max l 1; omega,
        by show l < l / 64 * 64 + 64; omega⟩)).1,
   by decide, by decide⟩

/-- C29 (isPrepared on a bounded session), refuted as stated. On `firstSession`,
`PrepareRange(Bounded(200, 300))` opens a new offline session and returns the
caller's cancellation before any record arrives. The backend is then not
closed, has a runner and a bounded session with upper bound 300, cursor 192 and
cached sequence 8. The bounded range `[100, 250]` fits within
`[min(192, 8), 300]`, yet `isPrepared(Bounded(100, 250))` is false. -/
theorem isPrepared_between_cache_and_cursor :
    firstSession.PrepareRange archiveAt319 (BoundedRange 200 300)
        [SelectCase.ctxDone (Error.other "context canceled")] =
      PrepareOutcome.returned
        (some (Error.wrapf (Error.other "context canceled") "Error fast-forwarding to %d" 200))
        stalledSession [] ∧
    stalledSession.closed = false ∧ stalledSession.diamcircleCoreRunner ≠ none ∧
    stalledSession.lastLedger = some 300 ∧
    stalledSession.nextExpectedSequence = 192 ∧ stalledSession.cachedLedger = 8 ∧
    (BoundedRange 100 250).bounded = true ∧
    min stalledSession.nextExpectedSequence stalledSession.cachedLedger ≤
      (BoundedRange 100 250).from_ ∧
    (BoundedRange 100 250).from_ ≤ (BoundedRange 100 250).to_ ∧
    (BoundedRange 100 250).to_ ≤ 300 ∧
    stalledSession.isPrepared (BoundedRange 100 250) = false := by
  refine ⟨by decide, rfl, by decide, rfl, by decide, by decide, rfl, by decide, by decide,
    by decide, by decide⟩

/-- C29 (isPrepared on a bounded session), amended. On a backend that is not
closed, has a runner, a prepared range and the upper bound `L >= 1`:
`isPrepared(r)` is true exactly when `r` is bounded, `r.to <= L`, and
`nextExpectedSequence() <= r.from` or `r.from` is the cached sequence (0 when
nothing is cached); it is false for every unbounded `r`. When the cached
sequence is `nextExpectedSequence() - 1`, as after every record read from the
stream, this is: `r` is bounded and `min(nextExpectedSequence(), cached) <= r.from`
and `r.to <= L`. -/
theorem isPrepared_bounded_session (c : CaptiveDiamcircleCore) (r : Range) (L : Nat)
    (hclosed : c.closed = false) (hrunner : c.diamcircleCoreRunner ≠ none)
    (hprep : c.prepared ≠ none) (hlast : c.lastLedger = some L) (hL : L ≠ 0) :
    (c.isPrepared r = true ↔
      r.bounded = true ∧
        (c.nextExpectedSequence ≤ r.from_ ∨ c.cachedLedger = r.from_) ∧ r.to_ ≤ L) ∧
    (r.bounded = false → c.isPrepared r = false) ∧
    (c.cachedLedger + 1 = c.nextExpectedSequence →
      (c.isPrepared r = true ↔
        r.bounded = true ∧ min c.nextExpectedSequence c.cachedLedger ≤ r.from_ ∧
          r.to_ ≤ L)) := by
  have hcode : c.isPrepared r = true ↔
      r.bounded = true ∧
        (c.nextExpectedSequence ≤ r.from_ ∨ c.cachedLedger = r.from_) ∧ r.to_ ≤ L := by
    unfold CaptiveDiamcircleCore.isPrepared CaptiveDiamcircleCore.isClosed
      CaptiveDiamcircleCore.cachedLedger
    cases hb : r.bounded <;> simp [hclosed, hrunner, hprep, hlast, hL]
  refine ⟨hcode, fun hb => ?_, fun hcur => ?_⟩
  · cases hp : c.isPrepared r with
    | false => rfl
    | true =>
      have := (hcode.1 hp).1
      rw [hb] at this
      exact absurd this (by decide)
  · rw [hcode]
    constructor
    · rintro ⟨hb, hfrom, hto⟩
      exact ⟨hb, by omega, hto⟩
    · rintro ⟨hb, hfrom, hto⟩
      exact ⟨hb, by omega, hto⟩

/-- C29 on the bounded session `boundedPrepared` (bound 12, cursor 11, ledger 10
cached): `[10, 12]` and `[11, 11]` are prepared, `[9, 12]` and `[10, 13]` and
`Unbounded(11)` are not. -/
theorem isPrepared_bounded_session_witness :
    (boundedPrepared.closed = false ∧ boundedPrepared.diamcircleCoreRunner ≠ none ∧
      boundedPrepared.prepared ≠ none ∧ boundedPrepared.lastLedger = some 12 ∧ 12 ≠ 0) ∧
    boundedPrepared.isPrepared (BoundedRange 10 12) = true ∧
    boundedPrepared.isPrepared (BoundedRange 11 11) = true ∧
    boundedPrepared.isPrepared (BoundedRange 9 12) = false ∧
    boundedPrepared.isPrepared (BoundedRange 10 13) = false ∧
    boundedPrepared.isPrepared (UnboundedRange 11) = false :=
  ⟨⟨rfl, by decide, by decide, rfl, by decide⟩,
   (isPrepared_bounded_session boundedPrepared (BoundedRange 10 12) 12 rfl (by decide)
      (by decide) rfl (by decide)).1.2 ⟨rfl, Or.inr (by decide), by decide⟩,
   (isPrepared_bounded_session boundedPrepared (BoundedRange 11 11) 12 rfl (by decide)
      (by decide) rfl (by decide)).1.2 ⟨rfl, Or.inl (by decide), by decide⟩,
   by decide, by decide,
   (isPrepared_bounded_session boundedPrepared (UnboundedRange 11) 12 rfl (by decide)
      (by decide) rfl (by decide)).2.1 rfl⟩

/-- C21 (bounded auto-close, reads), refuted as stated. After
`PrepareRange(Bounded(10, 12))` on a fresh backend and a successful `GetLedger(12)`,
the prepared range is still in place, and `GetLedger(13)` fails with the "reading
past bounded range" error and `GetLedger(11)` with the "behind the captive core
stream" error: neither is the "session is not prepared" error. -/
theorem reads_after_bounded_range_not_unprepared :
    freshBackend.PrepareRange archiveAt63 (BoundedRange 10 12) (recordCases ledgers2To10) =
      PrepareOutcome.returned none boundedPrepared [] ∧
    boundedPrepared.GetLedger 12 (recordCases [ledger 11 "h11" "h10", ledger 12 "h12" "h11"]) =
      Outcome.returned (ledger 12 "h12" "h11") none boundedDone [] ∧
    boundedDone.prepared = some (BoundedRange 10 12) ∧
    boundedDone.GetLedger 13 [] =
      Outcome.returned LedgerCloseMeta.zero (some (Error.pastBoundedRange 13 12))
        boundedDone [] ∧
    boundedDone.GetLedger 11 [] =
      Outcome.returned LedgerCloseMeta.zero (some (Error.behindStream 11 13)) boundedDone [] ∧
    Error.pastBoundedRange 13 12 ≠ Error.notPrepared ∧
    Error.behindStream 11 13 ≠ Error.notPrepared := by
  refine ⟨by decide, by decide, rfl, by decide, by decide, by decide, by decide⟩

/-- C21 (bounded auto-close, reads), amended. In a session with upper bound `to`,
`to + 1` below `2^32`, after a `GetLedger(to)` that returned ledger `to` read from
the stream, every further `GetLedger(seq)` with `seq` other than `to` fails,
whatever the pipe offers, without touching the backend or the pipe: with the
"behind the captive core stream" error when `seq < to` and with the "reading past
bounded range" error when `seq > to`. -/
theorem reads_after_last_ledger (c c1 : CaptiveDiamcircleCore) (to_ : Nat)
    (led : LedgerCloseMeta) (cases pending : List SelectCase)
    (h : c.GetLedger to_ cases = Outcome.returned led none c1 pending)
    (hcache : ∀ m, c.cachedMeta = some m → m.ledgerSequence ≠ to_)
    (hlast : c.lastLedger = some to_) (hto : to_ + 1 < uint32Size) :
    ∀ (seq : Nat) (cases2 : List SelectCase), seq ≠ to_ →
      c1.GetLedger seq cases2 =
        Outcome.returned LedgerCloseMeta.zero
          (some (if seq < to_ then Error.behindStream seq (to_ + 1)
            else Error.pastBoundedRange seq to_)) c1 cases2 := by
  have hloop := CaptiveDiamcircleCore.entersLoop_of_ok h hcache
  obtain ⟨hseq, hcached⟩ := CaptiveDiamcircleCore.GetLedger_ok h
  rw [CaptiveDiamcircleCore.GetLedger_of_entersLoop hloop] at h
  obtain ⟨hnext, hcl1, hprep1, hrun1⟩ :=
    CaptiveDiamcircleCore.getLedgerLoop_ok_cursor cases c h hloop.2.1 hloop.2.2.1
  have hframe := CaptiveDiamcircleCore.getLedgerLoop_frame cases c c1
    (by rw [h]; simp [Outcome.backend])
  have hl1 : c1.lastLedger = some to_ := hframe.2.2.1.trans hlast
  rw [Nat.mod_eq_of_lt hto] at hnext
  have hne : c1.nextExpectedSequence = to_ + 1 := by
    simp [CaptiveDiamcircleCore.nextExpectedSequence, hnext]
  intro seq cases2 hseqne
  have hfilter :
      c1.cachedMeta.filter (fun m => decide (seq = m.ledgerSequence)) = none := by
    rw [hcached]
    simp [Option.filter, hseq, hseqne]
  unfold CaptiveDiamcircleCore.GetLedger
  rw [hfilter]
  simp only [CaptiveDiamcircleCore.isClosed, hcl1, hprep1, hrun1, hne, hl1]
  by_cases hlt : seq < to_
  · have hlt1 : seq < to_ + 1 := by omega
    simp [hlt, hlt1]
  · have hgt : to_ < seq := by omega
    have hlt1 : ¬ seq < to_ + 1 := by omega
    simp [hlt, hlt1, Option.filter, hgt]

/-- C21 on the session `boundedPrepared` (bound 12): after `GetLedger(12)` has read
ledgers 11 and 12, `GetLedger(11)` and `GetLedger(13)` fail. -/
theorem reads_after_last_ledger_witness :
    (boundedPrepared.GetLedger 12
        (recordCases [ledger 11 "h11" "h10", ledger 12 "h12" "h11"]) =
      Outcome.returned (ledger 12 "h12" "h11") none boundedDone [] ∧
      boundedPrepared.lastLedger = some 12 ∧ 12 + 1 < uint32Size) ∧
    boundedDone.GetLedger 11 (recordCases ledgers2To5) =
      Outcome.returned LedgerCloseMeta.zero (some (Error.behindStream 11 13)) boundedDone
        (recordCases ledgers2To5) ∧
    boundedDone.GetLedger 13 (recordCases ledgers2To5) =
      Outcome.returned LedgerCloseMeta.zero (some (Error.pastBoundedRange 13 12)) boundedDone
        (recordCases ledgers2To5) :=
  ⟨⟨by decide, rfl, by decide⟩,
   reads_after_last_ledger boundedPrepared boundedDone 12 (ledger 12 "h12" "h11")
     (recordCases [ledger 11 "h11" "h10", ledger 12 "h12" "h11"]) [] (by decide)
     (by decide) rfl (by decide) 11 (recordCases ledgers2To5) (by decide),
   reads_after_last_ledger boundedPrepared boundedDone 12 (ledger 12 "h12" "h11")
     (recordCases [ledger 11 "h11" "h10", ledger 12 "h12" "h11"]) [] (by decide)
     (by decide) rfl (by decide) 13 (recordCases ledgers2To5) (by decide)⟩

/-- C36 (stream-result classification). For every runner, result and `ok`:
`checkMetaPipeResult` returns nil exactly when the runner's context has no error,
`ok` is true and the result carries no error. Otherwise it returns, in this
order of precedence: the error of the runner's context; else the error of the
result; else, the pipe being closed, the exit error of the process wrapped as
"diamcircle core exited unexpectedly" if the process has exited (the plain error
of that name if there is no exit error); else "meta pipe closed unexpectedly". -/
theorem stream_result_classification (runner : Runner) (result : metaResult) (ok : Bool) :
    (CaptiveDiamcircleCore.checkMetaPipeResult runner result ok = none ↔
      runner.contextErr = none ∧ ok = true ∧ result.err = none) ∧
    (∀ e, runner.contextErr = some e →
      CaptiveDiamcircleCore.checkMetaPipeResult runner result ok = some e) ∧
    (runner.contextErr = none → ∀ e, result.err = some e →
      CaptiveDiamcircleCore.checkMetaPipeResult runner result ok = some e) ∧
    (runner.contextErr = none → result.err = none → ok = false →
      runner.processExited = true →
      (∀ e, runner.processExitError = some e →
        CaptiveDiamcircleCore.checkMetaPipeResult runner result ok =
          some (Error.wrap e "diamcircle core exited unexpectedly")) ∧
      (runner.processExitError = none →
        CaptiveDiamcircleCore.checkMetaPipeResult runner result ok =
          some Error.exitedUnexpectedly)) ∧
    (runner.contextErr = none → result.err = none → ok = false →
      runner.processExited = false →
      CaptiveDiamcircleCore.checkMetaPipeResult runner result ok =
        some Error.metaPipeClosedUnexpectedly) := by
  unfold CaptiveDiamcircleCore.checkMetaPipeResult
  refine ⟨?_, ?_, ?_, ?_, ?_⟩
  · cases hctx : runner.contextErr with
    | some e => simp
    | none =>
      cases herr : result.err with
      | some e => simp
      | none =>
        cases ok with
        | true => simp
        | false =>
          cases hex : runner.processExited with
          | false => simp
          | true => cases hpe : runner.processExitError <;> simp
  · intro e hctx
    simp [hctx]
  · intro hctx e herr
    simp [hctx, herr]
  · intro hctx herr hok hex
    subst hok
    constructor
    · intro e hpe
      simp [hctx, herr, hex, hpe]
    · intro hpe
      simp [hctx, herr, hex, hpe]
  · intro hctx herr hok hex
    subst hok
    simp [hctx, herr, hex]

/-- C33 (cancellation is propagated verbatim). When the `select` of the drain loop
resolves to the caller's context being done with error `err`, the loop, and a
`GetLedger` that has reached it, returns exactly `err` with the zero record,
leaving the backend and the pipe as they are. And whenever the runner's context
has the error `e`, for every result and `ok`, `checkMetaPipeResult` returns exactly
`e`, and `handleMetaPipeResult` returns exactly `e` with no record after one
`close()` on the runner, the rest of the backend unchanged. -/
theorem cancellation_verbatim (c : CaptiveDiamcircleCore) (sequence : Nat) :
    (∀ (err : Error) (pending : List SelectCase),
      c.getLedgerLoop sequence (SelectCase.ctxDone err :: pending) =
        Outcome.returned LedgerCloseMeta.zero (some err) c pending ∧
      (c.entersLoop sequence →
        c.GetLedger sequence (SelectCase.ctxDone err :: pending) =
          Outcome.returned LedgerCloseMeta.zero (some err) c pending)) ∧
    (∀ (runner : Runner) (result : metaResult) (ok : Bool) (e : Error),
      c.diamcircleCoreRunner = some runner → runner.contextErr = some e →
      CaptiveDiamcircleCore.checkMetaPipeResult runner result ok = some e ∧
      c.handleMetaPipeResult sequence result ok =
        some ((false, LedgerCloseMeta.zero, some e),
          { c with
            diamcircleCoreRunner := some { runner with closeCalls := runner.closeCalls + 1 } }) ∧
      ∀ pending : List SelectCase,
        c.getLedgerLoop sequence (SelectCase.metaPipe result ok :: pending) =
          Outcome.returned LedgerCloseMeta.zero (some e)
            { c with
              diamcircleCoreRunner := some { runner with closeCalls := runner.closeCalls + 1 } }
            pending) := by
  constructor
  · intro err pending
    refine ⟨by simp [CaptiveDiamcircleCore.getLedgerLoop], fun hloop => ?_⟩
    rw [CaptiveDiamcircleCore.GetLedger_of_entersLoop hloop]
    simp [CaptiveDiamcircleCore.getLedgerLoop]
  · intro runner result ok e hr hctx
    have hchk : CaptiveDiamcircleCore.checkMetaPipeResult runner result ok = some e := by
      simp [CaptiveDiamcircleCore.checkMetaPipeResult, hctx]
    have hcall : c.handleMetaPipeResult sequence result ok =
        some ((false, LedgerCloseMeta.zero, some e),
          { c with
            diamcircleCoreRunner :=
              some { runner with closeCalls := runner.closeCalls + 1 } }) := by
      simp [CaptiveDiamcircleCore.handleMetaPipeResult, hr, hchk,
        CaptiveDiamcircleCore.closeRunner, Runner.close]
    refine ⟨hchk, hcall, fun pending => ?_⟩
    simp [CaptiveDiamcircleCore.getLedgerLoop, hcall]

namespace CaptiveDiamcircleCore

/-- What `acceptLedger` does to the backend when the hash check passes: cursor,
previous hash and cache are those of the record, the other fields but the
runner are kept; and in a session without upper bound the record is returned
exactly when it is the requested one, with no error and the runner untouched. -/
theorem acceptLedger_commit {c : CaptiveDiamcircleCore} (runner : Runner) (sequence : Nat)
    {m : LedgerCloseMeta}
    (hprev : c.previousLedgerHash = none ∨ c.previousLedgerHash = some m.previousLedgerHash) :
    (c.acceptLedger runner sequence m).2.cachedMeta = some m ∧
    (c.acceptLedger runner sequence m).2.previousLedgerHash = some m.ledgerHash ∧
    (c.acceptLedger runner sequence m).2.nextLedger = (m.ledgerSequence + 1) % uint32Size ∧
    (c.lastLedger = none →
      c.acceptLedger runner sequence m =
        ((decide (m.ledgerSequence = sequence),
            (if m.ledgerSequence = sequence then m else LedgerCloseMeta.zero), none),
          { c with
            nextLedger := (m.ledgerSequence + 1) % uint32Size
            previousLedgerHash := some m.ledgerHash
            cachedMeta := some m })) := by
  have hno : ¬ (c.previousLedgerHash ≠ none ∧
      c.previousLedgerHash ≠ some m.previousLedgerHash) := by
    rcases hprev with h | h <;> simp [h]
  unfold acceptLedger
  simp only [hno, if_false]
  refine ⟨?_, ?_, ?_, fun hl => ?_⟩
  · split_ifs
    · split <;> rfl
    · rfl
    · rfl
  · split_ifs
    · split <;> rfl
    · rfl
    · rfl
  · split_ifs
    · split <;> rfl
    · rfl
    · rfl
  · by_cases hs : m.ledgerSequence = sequence
    · simp [hs, hl]
    · simp [hs]

end CaptiveDiamcircleCore

/-- C39 (cursor/cache consistency). With a runner in place, `handleMetaPipeResult`
rejects a result in four ways, each returning an error with no record after
one `close()` on the runner: the result fails `checkMetaPipeResult`; its record
has a sequence other than a known cursor; its record is the first one and lies
beyond the start of the prepared range; its record declares a previous hash
other than the recorded one. In each of them `nextLedger`, `previousLedgerHash`
and `cachedMeta` are unchanged. A record that passes these checks is accepted:
afterwards it is the cached record, `previousLedgerHash` is its hash, and
`nextLedger` is its sequence plus one modulo `2^32`, that is its sequence plus
one when the sequence is below `2^32 - 1`. -/
theorem cursor_cache_consistency (c : CaptiveDiamcircleCore) (runner : Runner)
    (sequence : Nat) (result : metaResult) (ok : Bool)
    (hr : c.diamcircleCoreRunner = some runner) :
    (∀ e, CaptiveDiamcircleCore.checkMetaPipeResult runner result ok = some e →
      c.handleMetaPipeResult sequence result ok =
        some ((false, LedgerCloseMeta.zero, some e), c.closeRunner runner)) ∧
    (∀ m, CaptiveDiamcircleCore.checkMetaPipeResult runner result ok = none →
      result.LedgerCloseMeta = some m →
      (c.nextLedger ≠ 0 → m.ledgerSequence ≠ c.nextLedger →
        c.handleMetaPipeResult sequence result ok =
          some ((false, LedgerCloseMeta.zero,
              some (Error.unexpectedLedgerSequence c.nextLedger m.ledgerSequence)),
            c.closeRunner runner)) ∧
      (c.nextLedger = 0 → ∀ r, c.prepared = some r → r.from_ < m.ledgerSequence →
        c.handleMetaPipeResult sequence result ok =
          some ((false, LedgerCloseMeta.zero,
              some (Error.unexpectedFirstLedgerSequence r.from_ m.ledgerSequence)),
            c.closeRunner runner)) ∧
      ((c.nextLedger ≠ 0 ∧ m.ledgerSequence = c.nextLedger) ∨
          (c.nextLedger = 0 ∧ ∃ r, c.prepared = some r ∧ m.ledgerSequence ≤ r.from_) →
        (∀ p, c.previousLedgerHash = some p → p ≠ m.previousLedgerHash →
          c.handleMetaPipeResult sequence result ok =
            some ((false, LedgerCloseMeta.zero,
                some (Error.unexpectedPreviousLedgerHash m.ledgerSequence p
                  m.previousLedgerHash)),
              c.closeRunner runner)) ∧
        (c.previousLedgerHash = none ∨ c.previousLedgerHash = some m.previousLedgerHash →
          ∃ out c1, c.handleMetaPipeResult sequence result ok = some (out, c1) ∧
            c1.cachedMeta = some m ∧ c1.previousLedgerHash = some m.ledgerHash ∧
            c1.nextLedger = (m.ledgerSequence + 1) % uint32Size ∧
            (m.ledgerSequence < uint32Size - 1 →
              c1.nextLedger = m.ledgerSequence + 1 ∧
              (c1.cachedMeta.map LedgerCloseMeta.ledgerSequence).getD 0 + 1 =
                c1.nextLedger)))) ∧
    ((c.closeRunner runner).nextLedger = c.nextLedger ∧
      (c.closeRunner runner).previousLedgerHash = c.previousLedgerHash ∧
      (c.closeRunner runner).cachedMeta = c.cachedMeta) := by
  refine ⟨fun e he => ?_, fun m hvalid hm => ⟨fun hn hs => ?_, fun hn r hp hlt => ?_,
    fun hseq => ⟨fun p hp hne => ?_, fun hprev => ?_⟩⟩, rfl, rfl, rfl⟩
  · simp [CaptiveDiamcircleCore.handleMetaPipeResult, hr, he]
  · simp [CaptiveDiamcircleCore.handleMetaPipeResult, hr, hvalid, hm, hn, hs]
  · simp [CaptiveDiamcircleCore.handleMetaPipeResult, hr, hvalid, hm, hn, hp, hlt]
  · rw [CaptiveDiamcircleCore.handleMetaPipeResult_eq_acceptLedger sequence hr hvalid hm hseq]
    have hne2 : ¬ (some p = some m.previousLedgerHash) := fun h => hne (Option.some.inj h)
    simp [CaptiveDiamcircleCore.acceptLedger, hp, hne2]
  · rw [CaptiveDiamcircleCore.handleMetaPipeResult_eq_acceptLedger sequence hr hvalid hm hseq]
    obtain ⟨h1, h2, h3, -⟩ :=
      @CaptiveDiamcircleCore.acceptLedger_commit c runner sequence m hprev
    refine ⟨(c.acceptLedger runner sequence m).1, (c.acceptLedger runner sequence m).2, rfl,
      h1, h2, h3, fun hlt => ?_⟩
    have hmod : (m.ledgerSequence + 1) % uint32Size = m.ledgerSequence + 1 := by
      apply Nat.mod_eq_of_lt
      simp only [uint32Size] at hlt ⊢
      omega
    rw [h3, h1, hmod]
    exact ⟨rfl, rfl⟩

/-- C39 on the unbounded session with cursor 9 and previous hash "h8": ledger 9
with the right previous hash is accepted, ledger 10 is rejected for its
sequence, and ledger 9 with another previous hash is rejected for its hash. -/
theorem cursor_cache_consistency_witness :
    (onlineBackend 9 (some "h8") none).diamcircleCoreRunner = some liveRunner ∧
    (∃ out c1,
      (onlineBackend 9 (some "h8") none).handleMetaPipeResult 9
          (recordResult (ledger 9 "h9" "h8")) true = some (out, c1) ∧
        c1.cachedMeta = some (ledger 9 "h9" "h8") ∧ c1.previousLedgerHash = some "h9" ∧
        c1.nextLedger = 10) ∧
    (onlineBackend 9 (some "h8") none).handleMetaPipeResult 9
        (recordResult (ledger 10 "h10" "h9")) true =
      some ((false, LedgerCloseMeta.zero, some (Error.unexpectedLedgerSequence 9 10)),
        (onlineBackend 9 (some "h8") none).closeRunner liveRunner) ∧
    (onlineBackend 9 (some "h8") none).handleMetaPipeResult 9
        (recordResult (ledger 9 "h9" "x")) true =
      some ((false, LedgerCloseMeta.zero,
          some (Error.unexpectedPreviousLedgerHash 9 "h8" "x")),
        (onlineBackend 9 (some "h8") none).closeRunner liveRunner) :=
  ⟨rfl,
   (((cursor_cache_consistency (onlineBackend 9 (some "h8") none) liveRunner 9
      (recordResult (ledger 9 "h9" "h8")) true rfl).2.1 (ledger 9 "h9" "h8") (by decide)
      rfl).2.2 (Or.inl ⟨by decide, rfl⟩)).2 (Or.inr rfl) |>.imp fun _ h =>
        h.imp fun _ h2 => ⟨h2.1, h2.2.1, h2.2.2.1, h2.2.2.2.1⟩,
   ((cursor_cache_consistency (onlineBackend 9 (some "h8") none) liveRunner 9
      (recordResult (ledger 10 "h10" "h9")) true rfl).2.1 (ledger 10 "h10" "h9") (by decide)
      rfl).1 (by decide) (by decide),
   (((cursor_cache_consistency (onlineBackend 9 (some "h8") none) liveRunner 9
      (recordResult (ledger 9 "h9" "x")) true rfl).2.1 (ledger 9 "h9" "x") (by decide)
      rfl).2.2 (Or.inl ⟨by decide, rfl⟩)).1 "h8" rfl (by decide)⟩

/-- C31 (cursor monotonicity), refuted as stated. With the cursor at `2^32 - 1`,
`handleMetaPipeResult` accepts the record with sequence `2^32 - 1` and leaves the
cursor at 0, below its previous value. -/
theorem cursor_decreases_at_uint32_max :
    (onlineBackend 4294967295 none none).handleMetaPipeResult 4294967295
        (recordResult (ledger 4294967295 "b" "a")) true =
      some ((true, ledger 4294967295 "b" "a", none),
        onlineBackend 0 (some "b") (some (ledger 4294967295 "b" "a"))) ∧
    (onlineBackend 0 (some "b") (some (ledger 4294967295 "b" "a"))).nextLedger <
      (onlineBackend 4294967295 none none).nextLedger := by
  refine ⟨by decide, by decide⟩

/-- C31 (cursor monotonicity), amended. For every call of `handleMetaPipeResult`
that returns, on a result whose record, if any, has a sequence below `2^32 - 1`:
`nextLedger` afterwards is at least `nextLedger` before. Either the result was
rejected (an error is returned, the runner closed) and `nextLedger` is unchanged,
or the record was accepted and `nextLedger` is strictly greater than before: it
is the sequence of the record plus one. -/
theorem cursor_monotone (c c1 : CaptiveDiamcircleCore) (sequence : Nat) (result : metaResult)
    (ok : Bool) (out : Bool × LedgerCloseMeta × Option Error)
    (h : c.handleMetaPipeResult sequence result ok = some (out, c1))
    (hs : ∀ m, result.LedgerCloseMeta = some m → m.ledgerSequence + 1 < uint32Size) :
    c.nextLedger ≤ c1.nextLedger ∧
    ∃ runner, c.diamcircleCoreRunner = some runner ∧
      ((CaptiveDiamcircleCore.Rejected c c1 runner out ∧ c1.nextLedger = c.nextLedger) ∨
        (∃ m, result.LedgerCloseMeta = some m ∧
          CaptiveDiamcircleCore.Committed c c1 sequence m out ∧
          c1.nextLedger = m.ledgerSequence + 1 ∧ c.nextLedger < c1.nextLedger)) := by
  obtain ⟨runner, hr, hcase⟩ := CaptiveDiamcircleCore.handleMetaPipeResult_cases h
  rcases hcase with hrej | ⟨m, hm, -, hknown, hfirst, hcom⟩
  · have hsame : c1.nextLedger = c.nextLedger := by
      rw [hrej.2.2.2]
      rfl
    exact ⟨by omega, runner, hr, Or.inl ⟨hrej, hsame⟩⟩
  · have hnext : c1.nextLedger = m.ledgerSequence + 1 := by
      rw [hcom.2.1, Nat.mod_eq_of_lt (hs m hm)]
    have hlt : c.nextLedger < c1.nextLedger := by
      by_cases hn : c.nextLedger = 0
      · omega
      · have := hknown hn
        omega
    exact ⟨by omega, runner, hr, Or.inr ⟨m, hm, hcom, hnext, hlt⟩⟩

/-- C31 on the unbounded session with cursor 9: accepting ledger 9 moves the
cursor to 10, rejecting ledger 11 leaves it at 9. -/
theorem cursor_monotone_witness :
    (onlineBackend 9 none none).handleMetaPipeResult 12 (recordResult (ledger 9 "h9" "h8"))
        true =
      some ((false, LedgerCloseMeta.zero, none),
        onlineBackend 10 (some "h9") (some (ledger 9 "h9" "h8"))) ∧
    (onlineBackend 9 none none).nextLedger ≤
      (onlineBackend 10 (some "h9") (some (ledger 9 "h9" "h8"))).nextLedger ∧
    (onlineBackend 9 none none).nextLedger ≤
      ((onlineBackend 9 none none).closeRunner liveRunner).nextLedger :=
  ⟨by decide,
   (cursor_monotone (onlineBackend 9 none none)
      (onlineBackend 10 (some "h9") (some (ledger 9 "h9" "h8"))) 12
      (recordResult (ledger 9 "h9" "h8")) true (false, LedgerCloseMeta.zero, none) (by decide)
      (by decide)).1,
   (cursor_monotone (onlineBackend 9 none none)
      ((onlineBackend 9 none none).closeRunner liveRunner) 12
      (recordResult (ledger 11 "h11" "h10")) true
      (false, LedgerCloseMeta.zero, some (Error.unexpectedLedgerSequence 9 11)) (by decide)
      (by decide)).1⟩

/-- C35 (first record of an online session), refuted as stated. In the session
prepared from ledger `2^32 - 1` whose first record is still to come, the record
with sequence `2^32 - 1` does not exceed the start of the range and is accepted,
but `nextLedger` afterwards is 0, not `2^32`. -/
theorem first_record_wraps_cursor :
    lastUint32Session.nextLedger = 0 ∧
    lastUint32Session.prepared = some (UnboundedRange 4294967295) ∧
    lastUint32Session.handleMetaPipeResult 4294967295
        (recordResult (ledger 4294967295 "b" "a")) true =
      some ((true, ledger 4294967295 "b" "a", none),
        { lastUint32Session with
          nextLedger := 0
          previousLedgerHash := some "b"
          cachedMeta := some (ledger 4294967295 "b" "a") }) ∧
    (0 : Nat) ≠ 4294967295 + 1 := by
  refine ⟨rfl, rfl, by decide, by decide⟩

/-- C35 (first record of an online session), amended. Let `nextLedger` be 0, the
prepared range start at `from`, and a result pass `checkMetaPipeResult` with a
record of sequence `s`. If `s > from`, `handleMetaPipeResult` returns the
"unexpected ledger sequence (expected=<=from actual=s)" error with no record,
after one `close()` on the runner and with every other field unchanged. If
`s <= from` and no previous hash is recorded, the record is accepted: it becomes
the cached record, its hash the recorded previous hash, and `nextLedger` becomes
`s + 1` modulo `2^32`, which is `s + 1` for `s` below `2^32 - 1`; in a session
without upper bound no error is returned, the runner is untouched, and the
record is returned exactly when `s` is the requested sequence. -/
theorem first_online_record (c : CaptiveDiamcircleCore) (runner : Runner) (sequence : Nat)
    (result : metaResult) (ok : Bool) (m : LedgerCloseMeta) (r : Range)
    (hr : c.diamcircleCoreRunner = some runner) (hn : c.nextLedger = 0)
    (hp : c.prepared = some r)
    (hvalid : CaptiveDiamcircleCore.checkMetaPipeResult runner result ok = none)
    (hm : result.LedgerCloseMeta = some m) :
    (r.from_ < m.ledgerSequence →
      c.handleMetaPipeResult sequence result ok =
        some ((false, LedgerCloseMeta.zero,
            some (Error.unexpectedFirstLedgerSequence r.from_ m.ledgerSequence)),
          { c with
            diamcircleCoreRunner := some { runner with closeCalls := runner.closeCalls + 1 } })) ∧
    (m.ledgerSequence ≤ r.from_ → c.previousLedgerHash = none →
      ∃ out c1, c.handleMetaPipeResult sequence result ok = some (out, c1) ∧
        c1.cachedMeta = some m ∧ c1.previousLedgerHash = some m.ledgerHash ∧
        c1.nextLedger = (m.ledgerSequence + 1) % uint32Size ∧
        (m.ledgerSequence + 1 < uint32Size → c1.nextLedger = m.ledgerSequence + 1) ∧
        (c.lastLedger = none →
          out = (decide (m.ledgerSequence = sequence),
            (if m.ledgerSequence = sequence then m else LedgerCloseMeta.zero), none) ∧
          c1.diamcircleCoreRunner = some runner)) := by
  constructor
  · intro hlt
    simp [CaptiveDiamcircleCore.handleMetaPipeResult, hr, hvalid, hm, hn, hp, hlt,
      CaptiveDiamcircleCore.closeRunner, Runner.close]
  · intro hle hprev
    rw [CaptiveDiamcircleCore.handleMetaPipeResult_eq_acceptLedger sequence hr hvalid hm
      (Or.inr ⟨hn, r, hp, hle⟩)]
    obtain ⟨h1, h2, h3, h4⟩ :=
      @CaptiveDiamcircleCore.acceptLedger_commit c runner sequence m (Or.inl hprev)
    refine ⟨(c.acceptLedger runner sequence m).1, (c.acceptLedger runner sequence m).2, rfl,
      h1, h2, h3, fun hlt => ?_, fun hl => ?_⟩
    · rw [h3, Nat.mod_eq_of_lt hlt]
    · rw [h4 hl]
      exact ⟨rfl, hr⟩

/-- C35 on the online session prepared from ledger 5 whose first record is still
to come: ledger 6 is rejected, ledger 2 is accepted and moves the cursor to 3. -/
theorem first_online_record_witness :
    ((onlineBackend 0 none none).diamcircleCoreRunner = some liveRunner ∧
      (onlineBackend 0 none none).nextLedger = 0 ∧
      (onlineBackend 0 none none).prepared = some (UnboundedRange 5)) ∧
    (onlineBackend 0 none none).handleMetaPipeResult 5 (recordResult (ledger 6 "h6" "h5"))
        true =
      some ((false, LedgerCloseMeta.zero, some (Error.unexpectedFirstLedgerSequence 5 6)),
        { onlineBackend 0 none none with
          diamcircleCoreRunner := some { liveRunner with closeCalls := 1 } }) ∧
    (onlineBackend 0 none none).handleMetaPipeResult 5 (recordResult (ledger 2 "h2" "h1"))
        true =
      some ((false, LedgerCloseMeta.zero, none),
        onlineBackend 3 (some "h2") (some (ledger 2 "h2" "h1"))) :=
  ⟨⟨rfl, rfl, rfl⟩,
   (first_online_record (onlineBackend 0 none none) liveRunner 5
      (recordResult (ledger 6 "h6" "h5")) true (ledger 6 "h6" "h5") (UnboundedRange 5) rfl rfl
      rfl (by decide) rfl).1 (by decide),
   by decide⟩

namespace CaptiveDiamcircleCore

/-- One call of `handleMetaPipeResult(sequence, ...)` in a backend whose cursor has
not passed `sequence`: if it commits a record, the record's sequence is at most
`sequence`; and if it then returns neither a record nor an error, the sequence
is below `sequence` and the cursor still has not passed `sequence`. -/
theorem handleMetaPipeResult_no_overshoot {c c1 : CaptiveDiamcircleCore} {sequence : Nat}
    {result : metaResult} {ok : Bool} {out : Bool × LedgerCloseMeta × Option Error}
    (hinv : c.nextExpectedSequence ≤ sequence) (hseq : sequence < uint32Size)
    (h : c.handleMetaPipeResult sequence result ok = some (out, c1)) :
    ∃ runner, c.diamcircleCoreRunner = some runner ∧
      (Rejected c c1 runner out ∨
        ∃ m, result.LedgerCloseMeta = some m ∧ Committed c c1 sequence m out ∧
          m.ledgerSequence ≤ sequence ∧
          (out.1 = false → out.2.2 = none →
            m.ledgerSequence < sequence ∧ c1.nextExpectedSequence ≤ sequence)) := by
  obtain ⟨runner, hr, hcase⟩ := handleMetaPipeResult_cases h
  refine ⟨runner, hr, ?_⟩
  rcases hcase with hrej | ⟨m, hm, -, hknown, hfirst, hcom⟩
  · exact Or.inl hrej
  · right
    have hle : m.ledgerSequence ≤ sequence := by
      by_cases hn : c.nextLedger = 0
      · obtain ⟨r, hp, hmr⟩ := hfirst hn
        have : c.nextExpectedSequence = r.from_ := by
          simp [nextExpectedSequence, hn, hp]
        omega
      · have h1 := hknown hn
        have h2 : c.nextExpectedSequence = c.nextLedger := by
          simp [nextExpectedSequence, hn]
        omega
    refine ⟨m, hm, hcom, hle, fun hfound herr => ?_⟩
    have hne : m.ledgerSequence ≠ sequence := by
      intro heq
      rcases hcom.2.2.2.2.2.2.2.2 with ⟨-, hout | hout⟩ | ⟨hne, -⟩
      · rw [hout] at hfound
        exact Bool.noConfusion hfound
      · exact hout.2.2 herr
      · exact hne heq
    have hlt : m.ledgerSequence < sequence := by omega
    refine ⟨hlt, ?_⟩
    have hnext : c1.nextLedger = m.ledgerSequence + 1 := by
      rw [hcom.2.1]
      apply Nat.mod_eq_of_lt
      omega
    have : c1.nextExpectedSequence = m.ledgerSequence + 1 := by
      simp [nextExpectedSequence, hnext]
    omega

/-- Every call the drain loop makes is made in a backend whose cursor has not
passed the requested sequence, provided the first one is. -/
theorem loopCalls_cursor {sequence : Nat} (hseq : sequence < uint32Size)
    (cases : List SelectCase) :
    ∀ c : CaptiveDiamcircleCore, c.nextExpectedSequence ≤ sequence →
      ∀ call ∈ c.loopCalls sequence cases, call.1.nextExpectedSequence ≤ sequence := by
  induction cases with
  | nil =>
    intro c _ call hcall
    simp [loopCalls] at hcall
  | cons x rest ih =>
    intro c hinv call hcall
    cases x with
    | ctxDone err => simp [loopCalls] at hcall
    | metaPipe result ok =>
      simp only [loopCalls, List.mem_cons] at hcall
      rcases hcall with hhead | htail
      · rw [hhead]
        exact hinv
      · rcases hres : c.handleMetaPipeResult sequence result ok with _ | ⟨⟨found, led, err⟩, c1⟩
        · rw [hres] at htail
          simp at htail
        · rw [hres] at htail
          simp only at htail
          split_ifs at htail with hret
          · simp at htail
          · have hfound : found = false := by
              cases found with
              | false => rfl
              | true => exact absurd (Or.inl rfl) hret
            have herr : err = none := by
              by_contra hne
              exact hret (Or.inr hne)
            obtain ⟨runner, -, hcase⟩ := handleMetaPipeResult_no_overshoot hinv hseq hres
            rcases hcase with hrej | ⟨m, -, -, -, hcont⟩
            · exact absurd herr hrej.2.2.1
            · exact ih c1 (hcont hfound herr).2 call htail

end CaptiveDiamcircleCore

/-- C38 (no overshoot while draining). Let `GetLedger(sequence)`, for a uint32
`sequence`, pass its fast path and precondition checks. Every call of
`handleMetaPipeResult` its drain loop makes finds the cursor at or below
`sequence`, and either rejects the result (error returned, nothing accepted) or
accepts a record whose sequence is at most `sequence`; and when the loop goes on
after an accepted record (neither a record nor an error was returned), the
sequence of that record is strictly below `sequence`. -/
theorem no_overshoot (c : CaptiveDiamcircleCore) (sequence : Nat) (cases : List SelectCase)
    (hloop : c.entersLoop sequence) (hseq : sequence < uint32Size) :
    ∀ call ∈ c.loopCalls sequence cases,
      call.1.nextExpectedSequence ≤ sequence ∧
      ∀ out c1, call.1.handleMetaPipeResult sequence call.2.1 call.2.2 = some (out, c1) →
        ∃ runner, call.1.diamcircleCoreRunner = some runner ∧
          (CaptiveDiamcircleCore.Rejected call.1 c1 runner out ∨
            ∃ m, call.2.1.LedgerCloseMeta = some m ∧
              CaptiveDiamcircleCore.Committed call.1 c1 sequence m out ∧
              m.ledgerSequence ≤ sequence ∧
              (out.1 = false → out.2.2 = none → m.ledgerSequence < sequence)) := by
  intro call hcall
  have hinv : c.nextExpectedSequence ≤ sequence := Nat.not_lt.1 hloop.2.2.2.2.1
  have hcur := CaptiveDiamcircleCore.loopCalls_cursor hseq cases c hinv call hcall
  refine ⟨hcur, fun out c1 h => ?_⟩
  obtain ⟨runner, hr, hcase⟩ :=
    CaptiveDiamcircleCore.handleMetaPipeResult_no_overshoot hcur hseq h
  refine ⟨runner, hr, ?_⟩
  rcases hcase with hrej | ⟨m, hm, hcom, hle, hcont⟩
  · exact Or.inl hrej
  · exact Or.inr ⟨m, hm, hcom, hle, fun hf he => (hcont hf he).1⟩

/-- C38 on the unbounded session with cursor 9: `GetLedger(12)` on a pipe holding
ledgers 9 to 13 makes four calls, with the cursor at 9, 10, 11 and 12. -/
theorem no_overshoot_witness :
    ((onlineBackend 9 none none).entersLoop 12 ∧ 12 < uint32Size) ∧
    ((onlineBackend 9 none none).loopCalls 12
        (recordCases [ledger 9 "h9" "h8", ledger 10 "h10" "h9", ledger 11 "h11" "h10",
          ledger 12 "h12" "h11", ledger 13 "h13" "h12"])).map
      (fun call => call.1.nextLedger) = [9, 10, 11, 12] ∧
    ∀ call ∈ (onlineBackend 9 none none).loopCalls 12
        (recordCases [ledger 9 "h9" "h8", ledger 10 "h10" "h9", ledger 11 "h11" "h10",
          ledger 12 "h12" "h11", ledger 13 "h13" "h12"]),
      call.1.nextExpectedSequence ≤ 12 :=
  ⟨⟨by decide, by decide⟩, by decide,
   fun call hcall =>
     (no_overshoot (onlineBackend 9 none none) 12
        (recordCases [ledger 9 "h9" "h8", ledger 10 "h10" "h9", ledger 11 "h11" "h10",
          ledger 12 "h12" "h11", ledger 13 "h13" "h12"])
        (by decide) (by decide) call hcall).1⟩

namespace CaptiveDiamcircleCore

/-- When the range is not prepared, `startPreparingRange` either fails while
closing the previous runner, or opens the subprocess on the backend whose
previous runner, if any, has been closed. -/
theorem startPreparingRange_opened (c : CaptiveDiamcircleCore) (env : Collaborators)
    (r : Range) (hnp : c.isPrepared r = false) :
    ∃ c0 : CaptiveDiamcircleCore,
      c0.cachedMeta = c.cachedMeta ∧ c0.closed = c.closed ∧ c0.prepared = c.prepared ∧
      (c.startPreparingRange env r = c0.openSubprocess env r ∨
        ((c.startPreparingRange env r).1.2 ≠ none ∧ (c.startPreparingRange env r).2 = c0)) := by
  unfold startPreparingRange
  simp only [hnp, Bool.false_eq_true, if_false]
  cases hr : c.diamcircleCoreRunner with
  | none => exact ⟨c, rfl, rfl, rfl, Or.inl rfl⟩
  | some runner =>
    refine ⟨c.closeRunner runner, rfl, rfl, rfl, ?_⟩
    simp only
    cases hcl : runner.close.1 with
    | some err => exact Or.inr ⟨by simp, rfl⟩
    | none =>
      simp only
      by_cases hex : runner.close.2.processExited = false
      · rw [if_pos hex]
        exact Or.inr ⟨by simp, rfl⟩
      · rw [if_neg hex]
        exact Or.inl rfl

/-- A request below the cursor, on a backend with a range, a runner and an empty
cache, is refused without touching the backend or the pipe. -/
theorem GetLedger_behind {c : CaptiveDiamcircleCore} {sequence : Nat} (cases : List SelectCase)
    (hcache : c.cachedMeta = none) (hprep : c.prepared ≠ none)
    (hrunner : c.diamcircleCoreRunner ≠ none) (hlt : sequence < c.nextExpectedSequence) :
    c.GetLedger sequence cases =
      Outcome.returned LedgerCloseMeta.zero
        (some (if c.closed = true then Error.noLongerUsable
          else Error.behindStream sequence c.nextExpectedSequence)) c cases := by
  unfold GetLedger isClosed
  by_cases hcl : c.closed = true
  · simp [hcache, hcl]
  · simp [hcache, hcl, hprep, hrunner, hlt]

/-- The online open from ledger 1 never succeeds and never sets the prepared
range; with the first checkpoint at ledger 63, an archive whose latest checkpoint
is not within 128 of `2^32` and a factory handing out a runner, it fails in
`runFromParams`. -/
theorem openOnlineReplaySubprocess_ledger_one (c : CaptiveDiamcircleCore)
    (env : Collaborators) :
    (c.openOnlineReplaySubprocess env 1).1 ≠ none ∧
    (c.openOnlineReplaySubprocess env 1).2.prepared = c.prepared ∧
    (∀ latest runner, env.rootHAS = Except.ok latest → env.getCheckpoint 0 = 63 →
      latest + 128 < uint32Size →
      env.diamcircleCoreRunnerFactory diamcircleCoreRunnerMode.diamcircleCoreRunnerModeOnline =
        Except.ok runner →
      c.openOnlineReplaySubprocess env 1 =
        (some (Error.wrap Error.startFromLedgerOne
          "error calculating ledger and hash for diamcircle-core run"),
          { c with diamcircleCoreRunner := some runner })) := by
  have hone : runFromParams env 1 = (0, "", some Error.startFromLedgerOne) := by
    simp [runFromParams]
  have hshape : (c.openOnlineReplaySubprocess env 1).1 ≠ none ∧
      (c.openOnlineReplaySubprocess env 1).2.prepared = c.prepared := by
    unfold openOnlineReplaySubprocess
    rw [hone]
    cases getLatestCheckpointSequence env with
    | error e => exact ⟨by simp, rfl⟩
    | ok latest =>
      simp only
      split_ifs
      · exact ⟨by simp, rfl⟩
      · cases env.diamcircleCoreRunnerFactory
            diamcircleCoreRunnerMode.diamcircleCoreRunnerModeOnline with
        | error e => exact ⟨by simp, rfl⟩
        | ok runner => exact ⟨by simp, rfl⟩
  refine ⟨hshape.1, hshape.2, fun latest runner hroot hfreq hlat hfac => ?_⟩
  · have htwo : ((env.getCheckpoint 0 + 1) % uint32Size * 2) % uint32Size = 128 := by
      rw [hfreq]
      decide
    unfold openOnlineReplaySubprocess getLatestCheckpointSequence
    simp only [hroot, htwo, hfac, hone]
    rw [Nat.mod_eq_of_lt hlat, if_neg (by omega)]

end CaptiveDiamcircleCore

/-- On a backend with no cached record, for every archive, runner factory and
pipe content: `PrepareRange(Bounded(1, to))`, when the range is not already
prepared, returns an error for every `to` and takes nothing from the pipe; when
its offline session was opened, the cursor is the replay start of ledger 1, which
is at least 2 (and 2 for checkpoint frequency 64), and the error is that of the
fast-forward `GetLedger(1)`: "requested ledger 1 is behind the captive core stream"
(or "no longer usable" on a closed backend). `PrepareRange(Unbounded(1))`, when not
already prepared, returns an error and sets no prepared range: the online open
from ledger 1 never succeeds, and when it gets as far as `runFromParams` the error
is "unable to start from ledger 1". -/
theorem PrepareRange_ledger_one (c : CaptiveDiamcircleCore) (env : Collaborators)
    (cases : List SelectCase) (hcache : c.cachedMeta = none) :
    (∀ to_, c.isPrepared (BoundedRange 1 to_) = false →
      ∃ err c1,
        c.PrepareRange env (BoundedRange 1 to_) cases =
          PrepareOutcome.returned (some err) c1 cases ∧
        ((c.startPreparingRange env (BoundedRange 1 to_)).1.2 = none →
          c1.nextLedger =
            CaptiveDiamcircleCore.roundDownToFirstReplayAfterCheckpointStart env 1 ∧
          2 ≤ c1.nextLedger ∧ (Frequency64 env → c1.nextLedger = 2) ∧
          err = Error.wrapf
            (if c.closed = true then Error.noLongerUsable
              else Error.behindStream 1
                (CaptiveDiamcircleCore.roundDownToFirstReplayAfterCheckpointStart env 1))
            "Error fast-forwarding to %d" 1)) ∧
    (c.isPrepared (UnboundedRange 1) = false →
      ∃ err c1,
        c.PrepareRange env (UnboundedRange 1) cases =
          PrepareOutcome.returned (some err) c1 cases ∧
        c1.prepared = c.prepared) ∧
    (∀ (c0 : CaptiveDiamcircleCore) (latest : Nat) (runner : Runner),
      env.rootHAS = Except.ok latest → env.getCheckpoint 0 = 63 → latest + 128 < uint32Size →
      env.diamcircleCoreRunnerFactory diamcircleCoreRunnerMode.diamcircleCoreRunnerModeOnline =
        Except.ok runner →
      c0.openOnlineReplaySubprocess env 1 =
        (some (Error.wrap Error.startFromLedgerOne
          "error calculating ledger and hash for diamcircle-core run"),
          { c0 with diamcircleCoreRunner := some runner })) := by
  refine ⟨fun to_ hnp => ?_, fun hnp => ?_, fun c0 latest runner h1 h2 h3 h4 =>
    (CaptiveDiamcircleCore.openOnlineReplaySubprocess_ledger_one c0 env).2.2 latest runner
      h1 h2 h3 h4⟩
  · obtain ⟨c0, hc0cache, hc0closed, -, hcase⟩ :=
      CaptiveDiamcircleCore.startPreparingRange_opened c env (BoundedRange 1 to_) hnp
    obtain ⟨hiff, -, -, -, hinst⟩ :=
      CaptiveDiamcircleCore.startPreparingRange_spec c env (BoundedRange 1 to_)
    rcases hst : c.startPreparingRange env (BoundedRange 1 to_) with ⟨⟨b, e⟩, c1⟩
    rw [hst] at hcase hiff hinst
    cases e with
    | some err =>
      refine ⟨Error.wrap err "error starting prepare range", c1, ?_, ?_⟩
      · simp [CaptiveDiamcircleCore.PrepareRange, hst]
      · intro hnone
        simp at hnone
    | none =>
      have hb : b = false := by
        cases b with
        | false => rfl
        | true =>
          have := hiff.1 rfl
          rw [hnp] at this
          exact absurd this (by decide)
      subst hb
      have hopen : c0.openSubprocess env (BoundedRange 1 to_) = ((false, none), c1) := by
        rcases hcase with h | h
        · exact h.symm
        · exact absurd rfl h.1
      have hoff : c0.openOfflineReplaySubprocess env 1 to_ = (none, c1) := by
        unfold CaptiveDiamcircleCore.openSubprocess at hopen
        simp only [BoundedRange, if_true] at hopen
        rcases hres : c0.openOfflineReplaySubprocess env 1 to_ with ⟨e2, c2⟩
        rw [hres] at hopen
        cases e2 with
        | some err2 => simp at hopen
        | none =>
          simp only [Prod.mk.injEq, true_and] at hopen
          rw [hopen]
      obtain ⟨hnext, -, hcache1⟩ :=
        CaptiveDiamcircleCore.openOfflineReplaySubprocess_cursor hoff
      obtain ⟨hrun1, hprep1, -⟩ := CaptiveDiamcircleCore.openOfflineReplaySubprocess_ok hoff
      have hclosed1 : c1.closed = c.closed := by
        have := (CaptiveDiamcircleCore.openOfflineReplaySubprocess_frame c0 env 1 to_).1
        rw [hoff] at this
        exact this.trans hc0closed
      have hge := CaptiveDiamcircleCore.roundDown_ge_two env 1
      have hne : c1.nextExpectedSequence =
          CaptiveDiamcircleCore.roundDownToFirstReplayAfterCheckpointStart env 1 := by
        rw [CaptiveDiamcircleCore.nextExpectedSequence_of_ne_zero (by omega), hnext]
      have hget := @CaptiveDiamcircleCore.GetLedger_behind c1 1 cases
        (by rw [hcache1, hc0cache, hcache]) (by rw [hprep1]; simp) hrun1 (by omega)
      rw [hne, hclosed1] at hget
      refine ⟨_, c1, ?_, fun _ => ⟨hnext, by omega, fun hfreq => ?_, rfl⟩⟩
      · have hfrom : (BoundedRange 1 to_).from_ = 1 := rfl
        unfold CaptiveDiamcircleCore.PrepareRange
        rw [hst]
        simp only [hfrom]
        rw [hget]
      · rw [hnext]
        unfold CaptiveDiamcircleCore.roundDownToFirstReplayAfterCheckpointStart
        obtain ⟨hstart, -, -⟩ := hfreq 1
        have hlow : env.checkpointRangeLow 1 ≤ 1 := by
          rcases hstart with ⟨k, hk⟩ | ⟨h1, -⟩
          · have := (hfreq 1).2.1
            simp at this
            omega
          · omega
        rw [if_pos hlow]
  · obtain ⟨c0, -, -, hc0prep, hcase⟩ :=
      CaptiveDiamcircleCore.startPreparingRange_opened c env (UnboundedRange 1) hnp
    obtain ⟨hone, hprep, -⟩ := CaptiveDiamcircleCore.openOnlineReplaySubprocess_ledger_one c0 env
    rcases hst : c.startPreparingRange env (UnboundedRange 1) with ⟨⟨b, e⟩, c1⟩
    rw [hst] at hcase
    have herr : e ≠ none ∧ c1.prepared = c.prepared := by
      rcases hcase with h | h
      · unfold CaptiveDiamcircleCore.openSubprocess at h
        simp only [UnboundedRange, Bool.false_eq_true, if_false] at h
        rcases hres : c0.openOnlineReplaySubprocess env 1 with ⟨e2, c2⟩
        rw [hres] at h hone hprep
        cases e2 with
        | none => exact absurd rfl hone
        | some err2 =>
          simp only [Prod.mk.injEq] at h
          obtain ⟨⟨-, he⟩, hc⟩ := h
          subst he hc
          exact ⟨by simp, hprep.trans hc0prep⟩
      · have h2 : c1 = c0 := h.2
        exact ⟨h.1, by rw [h2, hc0prep]⟩
    cases e with
    | none => exact absurd rfl herr.1
    | some err =>
      refine ⟨Error.wrap err "error starting prepare range", c1, ?_, herr.2⟩
      simp [CaptiveDiamcircleCore.PrepareRange, hst]

namespace CaptiveDiamcircleCore

/-- A successful online open leaves the cursor at 0, forgets the previous hash
and keeps the cache. -/
theorem openOnlineReplaySubprocess_cursor {c c1 : CaptiveDiamcircleCore} {env : Collaborators}
    {from_ : Nat} (h : c.openOnlineReplaySubprocess env from_ = (none, c1)) :
    c1.nextLedger = 0 ∧ c1.previousLedgerHash = none ∧ c1.cachedMeta = c.cachedMeta := by
  have hframe := (openOnlineReplaySubprocess_frame c env from_).2
  rw [h] at hframe
  refine ⟨?_, ?_, hframe⟩
  all_goals
    unfold openOnlineReplaySubprocess at h
    split at h
    · simp at h
    · simp only at h
      split_ifs at h
      · simp at h
      · split at h
        · simp at h
        · split at h
          · simp at h
          · split at h
            · simp at h
            · simp only [Prod.mk.injEq, true_and] at h
              subst h
              rfl

end CaptiveDiamcircleCore

/-- C32 (new-session reset), the code at the failing input. After
`PrepareRange(Bounded(8, 8))` on a fresh backend, ledger 8 is cached and "h8" is the
recorded previous hash. `PrepareRange(Bounded(8, 20))` then starts a new offline
session, and `PrepareRange(Unbounded(8))` a new online session: in both the
recorded previous hash is reset, but the cache still holds ledger 8 of the first
session when the session is open, and the fast-forward `GetLedger(8)` returns that
record without reading the new stream. -/
theorem new_session_keeps_cache :
    freshBackend.PrepareRange archiveAt63 (BoundedRange 8 8) (recordCases ledgers2To8) =
      PrepareOutcome.returned none firstSession [] ∧
    firstSession.previousLedgerHash = some "h8" ∧
    firstSession.cachedMeta = some (ledger 8 "h8" "h7") ∧
    firstSession.startPreparingRange archiveAt63 (BoundedRange 8 20) =
      ((false, none), reopenedBackend) ∧
    reopenedBackend.previousLedgerHash = none ∧
    reopenedBackend.cachedMeta = some (ledger 8 "h8" "h7") ∧
    reopenedBackend.GetLedger 8 (recordCases ledgers2To5) =
      Outcome.returned (ledger 8 "h8" "h7") none reopenedBackend (recordCases ledgers2To5) ∧
    firstSession.startPreparingRange archiveAt63 (UnboundedRange 8) =
      ((false, none),
        { firstSession with
          diamcircleCoreRunner := some ({ exitedRunner with runFromCalls := [(2, "h")] })
          prepared := some (UnboundedRange 8)
          nextLedger := 0
          lastLedger := none
          previousLedgerHash := none }) := by
  refine ⟨by decide, rfl, rfl, by decide, rfl, rfl, by decide, by decide⟩

/-- C1 (chain integrity), the code at the failing input. After
`PrepareRange(Bounded(8, 8))` has read ledgers 2 to 8 of a first stream,
`PrepareRange(Bounded(8, 20))` starts a second runner session and returns without
reading its stream. In that session `GetLedger(8)` returns the cached ledger 8 of
the first stream (hash "h8"), and `GetLedger(9)` then reads ledgers 2 to 9 of the
second stream and returns its ledger 9, whose declared previous hash "g8" is not
the hash of the record returned just before it. -/
theorem returned_records_break_chain :
    freshBackend.PrepareRange archiveAt63 (BoundedRange 8 8) (recordCases ledgers2To8) =
      PrepareOutcome.returned none firstSession [] ∧
    firstSession.PrepareRange archiveAt63 (BoundedRange 8 20) (recordCases forkedLedgers2To9) =
      PrepareOutcome.returned none reopenedBackend (recordCases forkedLedgers2To9) ∧
    reopenedBackend.GetLedger 8 (recordCases forkedLedgers2To9) =
      Outcome.returned (ledger 8 "h8" "h7") none reopenedBackend
        (recordCases forkedLedgers2To9) ∧
    reopenedBackend.GetLedger 9 (recordCases forkedLedgers2To9) =
      Outcome.returned (ledger 9 "g9" "g8") none afterForkedRead [] ∧
    (ledger 9 "g9" "g8").previousLedgerHash ≠ (ledger 8 "h8" "h7").ledgerHash ∧
    reopenedBackend.sessionRecords
        (forkedLedgers2To9.map (fun m => { sequence := 9, result := recordResult m, ok := true })) =
      forkedLedgers2To9 := by
  refine ⟨by decide, by decide, by decide, by decide, by decide, by decide⟩

/-- C20 (bounded auto-close, preparedness), amended. Let `from < to`, with `to + 1`
below `2^32`. After `PrepareRange(Bounded(from, to))` has returned successfully and a
following `GetLedger(to)` has returned successfully, `IsPrepared(Bounded(from, to))`
returns `(false, nil)`; when `PrepareRange` found the range already prepared, this
is for a `GetLedger(to)` that reads its record from the stream (ledger `to` was
not the cached record). -/
theorem bounded_auto_close_preparedness (c c1 c2 : CaptiveDiamcircleCore)
    (env : Collaborators) (from_ to_ : Nat) (led : LedgerCloseMeta)
    (cases pending cases2 pending2 : List SelectCase)
    (hprep : c.PrepareRange env (BoundedRange from_ to_) cases =
      PrepareOutcome.returned none c1 pending)
    (hget : c1.GetLedger to_ cases2 = Outcome.returned led none c2 pending2)
    (hlt : from_ < to_) (hto : to_ + 1 < uint32Size)
    (hstream : c.isPrepared (BoundedRange from_ to_) = true →
      ∀ m, c.cachedMeta = some m → m.ledgerSequence ≠ to_) :
    c2.IsPrepared (BoundedRange from_ to_) = (false, none) := by
  have hcache : ∀ m, c1.cachedMeta = some m → m.ledgerSequence ≠ to_ := by
    rcases CaptiveDiamcircleCore.PrepareRange_ok hprep with ⟨hp, hc, -⟩ | ⟨-, -, l0, hff⟩
    · rw [hc]
      exact hstream hp
    · obtain ⟨hseq, hcached⟩ := CaptiveDiamcircleCore.GetLedger_ok hff
      intro m hm
      rw [hcached] at hm
      have hml : l0 = m := Option.some.inj hm
      rw [← hml, hseq]
      show from_ ≠ to_
      omega
  exact CaptiveDiamcircleCore.isPrepared_after_last_ledger hget hcache hlt hto

/-- C20 on the example of the specification: `PrepareRange(Bounded(10, 12))` on a
fresh backend, then `GetLedger(12)`; afterwards `IsPrepared(Bounded(10, 12))` is false. -/
theorem bounded_auto_close_preparedness_witness :
    (freshBackend.PrepareRange archiveAt63 (BoundedRange 10 12) (recordCases ledgers2To10) =
        PrepareOutcome.returned none boundedPrepared [] ∧
      boundedPrepared.GetLedger 12
          (recordCases [ledger 11 "h11" "h10", ledger 12 "h12" "h11"]) =
        Outcome.returned (ledger 12 "h12" "h11") none boundedDone [] ∧
      10 < 12 ∧ 12 + 1 < uint32Size) ∧
    boundedDone.IsPrepared (BoundedRange 10 12) = (false, none) :=
  ⟨⟨by decide, by decide, by decide, by decide⟩,
   bounded_auto_close_preparedness freshBackend boundedPrepared boundedDone archiveAt63 10 12
     (ledger 12 "h12" "h11") (recordCases ledgers2To10) []
     (recordCases [ledger 11 "h11" "h10", ledger 12 "h12" "h11"]) [] (by decide) (by decide)
     (by decide) (by decide) (fun h => absurd h (by decide))⟩

namespace CaptiveDiamcircleCore

/-- The state `CursorAboveLedgerOne` depends on the prepared range, the cursor and
the cache only. -/
theorem CursorAboveLedgerOne_of_same {c c1 : CaptiveDiamcircleCore}
    (hp : c1.prepared = c.prepared) (hn : c1.nextLedger = c.nextLedger)
    (hc : c1.cachedMeta = c.cachedMeta) (h : c.CursorAboveLedgerOne) :
    c1.CursorAboveLedgerOne := by
  unfold CursorAboveLedgerOne nextExpectedSequence at *
  rw [hp, hn, hc]
  exact h

/-- A failing offline open leaves prepared range, cursor and cache as they are. -/
theorem openOfflineReplaySubprocess_failed (c : CaptiveDiamcircleCore) (env : Collaborators)
    (from_ to_ : Nat) (h : (c.openOfflineReplaySubprocess env from_ to_).1 ≠ none) :
    (c.openOfflineReplaySubprocess env from_ to_).2.prepared = c.prepared ∧
    (c.openOfflineReplaySubprocess env from_ to_).2.nextLedger = c.nextLedger ∧
    (c.openOfflineReplaySubprocess env from_ to_).2.cachedMeta = c.cachedMeta := by
  unfold openOfflineReplaySubprocess at h ⊢
  split
  · exact ⟨rfl, rfl, rfl⟩
  · split_ifs
    · exact ⟨rfl, rfl, rfl⟩
    · exact ⟨rfl, rfl, rfl⟩
    · split
      · exact ⟨rfl, rfl, rfl⟩
      · split
        · exact ⟨rfl, rfl, rfl⟩
        · next latest hlat h1 h2 x runner hfac y hcatch =>
          exfalso
          apply h
          simp [hlat, h1, h2, hfac, hcatch]

/-- A failing online open leaves prepared range, cursor and cache as they are. -/
theorem openOnlineReplaySubprocess_failed (c : CaptiveDiamcircleCore) (env : Collaborators)
    (from_ : Nat) (h : (c.openOnlineReplaySubprocess env from_).1 ≠ none) :
    (c.openOnlineReplaySubprocess env from_).2.prepared = c.prepared ∧
    (c.openOnlineReplaySubprocess env from_).2.nextLedger = c.nextLedger ∧
    (c.openOnlineReplaySubprocess env from_).2.cachedMeta = c.cachedMeta := by
  rcases hres : c.openOnlineReplaySubprocess env from_ with ⟨e, c1⟩
  rw [hres] at h
  cases e with
  | none => exact absurd rfl h
  | some err =>
    unfold openOnlineReplaySubprocess at hres
    split at hres
    · simp only [Prod.mk.injEq] at hres
      rw [← hres.2]
      exact ⟨rfl, rfl, rfl⟩
    · simp only at hres
      split_ifs at hres
      · simp only [Prod.mk.injEq] at hres
        rw [← hres.2]
        exact ⟨rfl, rfl, rfl⟩
      · split at hres
        · simp only [Prod.mk.injEq] at hres
          rw [← hres.2]
          exact ⟨rfl, rfl, rfl⟩
        · split at hres
          · simp only [Prod.mk.injEq] at hres
            rw [← hres.2]
            exact ⟨rfl, rfl, rfl⟩
          · split at hres
            · simp only [Prod.mk.injEq] at hres
              rw [← hres.2]
              exact ⟨rfl, rfl, rfl⟩
            · simp at hres

end CaptiveDiamcircleCore

namespace CaptiveDiamcircleCore

/-- Opening the subprocess for a range that starts at ledger 1 or later keeps the
state `CursorAboveLedgerOne`: an offline session starts with its cursor at 2 or
above, an online session cannot be opened from ledger 1, and a failed open
changes neither range nor cursor nor cache. -/
theorem CursorAboveLedgerOne_openSubprocess {c : CaptiveDiamcircleCore} (env : Collaborators)
    {r : Range} (hfrom : 1 ≤ r.from_) (h : c.CursorAboveLedgerOne) :
    (c.openSubprocess env r).2.CursorAboveLedgerOne := by
  have hsnd : (c.openSubprocess env r).2 =
      (if r.bounded then c.openOfflineReplaySubprocess env r.from_ r.to_
        else c.openOnlineReplaySubprocess env r.from_).2 := by
    unfold openSubprocess
    simp only
    split <;> rfl
  rw [hsnd]
  by_cases hb : r.bounded = true
  · simp only [hb, if_true]
    rcases hres : c.openOfflineReplaySubprocess env r.from_ r.to_ with ⟨e, c1⟩
    cases e with
    | none =>
      obtain ⟨hnext, -, -⟩ := openOfflineReplaySubprocess_cursor hres
      have hge := roundDown_ge_two env r.from_
      refine Or.inr (Or.inr ?_)
      show 2 ≤ c1.nextExpectedSequence
      rw [nextExpectedSequence_of_ne_zero (by omega), hnext]
      exact hge
    | some err =>
      have hf := openOfflineReplaySubprocess_failed c env r.from_ r.to_ (by rw [hres]; simp)
      rw [hres] at hf
      exact CursorAboveLedgerOne_of_same hf.1 hf.2.1 hf.2.2 h
  · simp only [hb]
    rcases hres : c.openOnlineReplaySubprocess env r.from_ with ⟨e, c1⟩
    cases e with
    | none =>
      obtain ⟨hnext, -, -⟩ := openOnlineReplaySubprocess_cursor hres
      obtain ⟨-, hprep, -⟩ := openOnlineReplaySubprocess_ok hres
      have hne1 : r.from_ ≠ 1 := by
        intro h1
        have hfail := (openOnlineReplaySubprocess_ledger_one c env).1
        rw [← h1, hres] at hfail
        exact hfail rfl
      refine Or.inr (Or.inr ?_)
      show 2 ≤ c1.nextExpectedSequence
      have hexp : c1.nextExpectedSequence = r.from_ := by
        simp [nextExpectedSequence, hnext, hprep, UnboundedRange]
      omega
    | some err =>
      have hf := openOnlineReplaySubprocess_failed c env r.from_ (by rw [hres]; simp)
      rw [hres] at hf
      exact CursorAboveLedgerOne_of_same hf.1 hf.2.1 hf.2.2 h

/-- The first step of `PrepareRange` for a range that starts at ledger 1 or later
keeps the state `CursorAboveLedgerOne`. -/
theorem CursorAboveLedgerOne_startPreparingRange {c : CaptiveDiamcircleCore}
    (env : Collaborators) {r : Range} (hfrom : 1 ≤ r.from_) (h : c.CursorAboveLedgerOne) :
    (c.startPreparingRange env r).2.CursorAboveLedgerOne := by
  have hclose : ∀ runner, (c.closeRunner runner).CursorAboveLedgerOne :=
    fun _ => CursorAboveLedgerOne_of_same rfl rfl rfl h
  unfold startPreparingRange
  split_ifs
  · exact h
  · split
    · split
      · exact hclose _
      · split_ifs
        · exact hclose _
        · exact CursorAboveLedgerOne_openSubprocess env hfrom (hclose _)
    · exact CursorAboveLedgerOne_openSubprocess env hfrom h

/-- One call of `handleMetaPipeResult` keeps the state `CursorAboveLedgerOne`: a
rejected result changes the runner only, a committed record fills the cache. -/
theorem CursorAboveLedgerOne_handleMetaPipeResult {c c1 : CaptiveDiamcircleCore}
    {sequence : Nat} {result : metaResult} {ok : Bool}
    {out : Bool × LedgerCloseMeta × Option Error}
    (hres : c.handleMetaPipeResult sequence result ok = some (out, c1))
    (h : c.CursorAboveLedgerOne) : c1.CursorAboveLedgerOne := by
  obtain ⟨runner, -, hcase⟩ := handleMetaPipeResult_cases hres
  rcases hcase with ⟨-, -, -, hc1⟩ | ⟨m, -, -, -, -, hcom⟩
  · subst hc1
    exact CursorAboveLedgerOne_of_same rfl rfl rfl h
  · obtain ⟨-, -, -, hcache, -⟩ := hcom
    exact Or.inr (Or.inl (by rw [hcache]; simp))

/-- The drain loop keeps the state `CursorAboveLedgerOne`. -/
theorem CursorAboveLedgerOne_getLedgerLoop {sequence : Nat} (cases : List SelectCase) :
    ∀ c : CaptiveDiamcircleCore, c.CursorAboveLedgerOne →
      ∀ c1 ∈ (c.getLedgerLoop sequence cases).backend, c1.CursorAboveLedgerOne := by
  induction cases with
  | nil =>
    intro c h c1 h1
    simp only [getLedgerLoop, Outcome.backend, Option.mem_def, Option.some.injEq] at h1
    subst h1
    exact h
  | cons x rest ih =>
    intro c h c1 h1
    cases x with
    | ctxDone err =>
      simp only [getLedgerLoop, Outcome.backend, Option.mem_def, Option.some.injEq] at h1
      subst h1
      exact h
    | metaPipe result ok =>
      unfold getLedgerLoop at h1
      split at h1
      · simp [Outcome.backend] at h1
      · next found led err c2 hres =>
        have h2 := CursorAboveLedgerOne_handleMetaPipeResult hres h
        split_ifs at h1 with hret
        · simp only [Outcome.backend, Option.mem_def, Option.some.injEq] at h1
          subst h1
          exact h2
        · exact ih c2 h2 c1 h1

/-- A call of `GetLedger` keeps the state `CursorAboveLedgerOne`. -/
theorem CursorAboveLedgerOne_GetLedger {c : CaptiveDiamcircleCore} {sequence : Nat}
    (cases : List SelectCase) (h : c.CursorAboveLedgerOne) :
    ∀ c1 ∈ (c.GetLedger sequence cases).backend, c1.CursorAboveLedgerOne := by
  by_cases hloop : c.entersLoop sequence
  · rw [GetLedger_of_entersLoop hloop]
    exact CursorAboveLedgerOne_getLedgerLoop cases c h
  · obtain ⟨ledger, err, hret⟩ := GetLedger_of_not_entersLoop hloop cases
    rw [hret]
    intro c1 h1
    simp only [Outcome.backend, Option.mem_def, Option.some.injEq] at h1
    subst h1
    exact h

/-- A call of `PrepareRange` for a range that starts at ledger 1 or later keeps
the state `CursorAboveLedgerOne`. -/
theorem CursorAboveLedgerOne_PrepareRange {c : CaptiveDiamcircleCore} (env : Collaborators)
    {r : Range} (cases : List SelectCase) (hfrom : 1 ≤ r.from_) (h : c.CursorAboveLedgerOne) :
    ∀ c1 ∈ (c.PrepareRange env r cases).backend, c1.CursorAboveLedgerOne := by
  have hstart := @CursorAboveLedgerOne_startPreparingRange c env r hfrom h
  rcases hst : c.startPreparingRange env r with ⟨⟨b, e⟩, c0⟩
  rw [hst] at hstart
  intro c1 h1
  unfold PrepareRange at h1
  rw [hst] at h1
  cases e with
  | some err =>
    simp only [PrepareOutcome.backend, Option.mem_def, Option.some.injEq] at h1
    subst h1
    exact hstart
  | none =>
    cases b with
    | true =>
      simp only [PrepareOutcome.backend, Option.mem_def, Option.some.injEq] at h1
      subst h1
      exact hstart
    | false =>
      simp only at h1
      have hget := @CursorAboveLedgerOne_GetLedger c0 r.from_ cases hstart
      cases hg : c0.GetLedger r.from_ cases with
      | returned led err c2 pending =>
        rw [hg] at h1 hget
        have hc2 : c2.CursorAboveLedgerOne := hget c2 (by simp [Outcome.backend])
        cases err with
        | none =>
          simp only [PrepareOutcome.backend, Option.mem_def, Option.some.injEq] at h1
          subst h1
          exact hc2
        | some e2 =>
          simp only [PrepareOutcome.backend, Option.mem_def, Option.some.injEq] at h1
          subst h1
          exact hc2
      | blocked c2 =>
        rw [hg] at h1 hget
        simp only [PrepareOutcome.backend, Option.mem_def, Option.some.injEq] at h1
        subst h1
        exact hget c2 (by simp [Outcome.backend])
      | panicked =>
        rw [hg] at h1
        simp [PrepareOutcome.backend] at h1

/-- A call of `Close` keeps the state `CursorAboveLedgerOne`. -/
theorem CursorAboveLedgerOne_Close {c : CaptiveDiamcircleCore} (h : c.CursorAboveLedgerOne) :
    c.Close.2.CursorAboveLedgerOne := by
  unfold Close
  split
  · exact CursorAboveLedgerOne_of_same rfl rfl rfl h
  · exact CursorAboveLedgerOne_of_same rfl rfl rfl h

/-- A new backend is in the state `CursorAboveLedgerOne`: it has no prepared
range. -/
theorem CursorAboveLedgerOne_freshBackend : freshBackend.CursorAboveLedgerOne :=
  Or.inl rfl

/-- Every sequence of calls of the public interface whose ranges start at ledger 1
or later keeps the state `CursorAboveLedgerOne`, whatever archive, runner factory
and pipe content each call meets. -/
theorem CursorAboveLedgerOne_runCalls (calls : List Call) :
    ∀ c c1 : CaptiveDiamcircleCore, c.CursorAboveLedgerOne →
      (∀ call ∈ calls, call.fromLedgerOne) → runCalls c calls = some c1 →
      c1.CursorAboveLedgerOne := by
  induction calls with
  | nil =>
    intro c c1 h _ hrun
    simp only [runCalls, Option.some.injEq] at hrun
    subst hrun
    exact h
  | cons call rest ih =>
    intro c c1 h hcalls hrun
    unfold runCalls at hrun
    cases hstep : call.backendAfter c with
    | none =>
      rw [hstep] at hrun
      simp at hrun
    | some c2 =>
      rw [hstep] at hrun
      have hcall : call.fromLedgerOne := hcalls call (List.mem_cons_self _ _)
      have h2 : c2.CursorAboveLedgerOne := by
        cases call with
        | prepareRange env ledgerRange cases =>
          exact CursorAboveLedgerOne_PrepareRange env cases hcall h c2 hstep
        | getLedger sequence cases =>
          exact CursorAboveLedgerOne_GetLedger cases h c2 hstep
        | isPrepared ledgerRange =>
          simp only [Call.backendAfter, Option.some.injEq] at hstep
          subst hstep
          exact h
        | getLatestLedgerSequence buffered =>
          simp only [Call.backendAfter, Option.some.injEq] at hstep
          subst hstep
          exact h
        | close =>
          simp only [Call.backendAfter, Option.some.injEq] at hstep
          subst hstep
          exact CursorAboveLedgerOne_Close h
      exact ih c2 c1 h2 (fun x hx => hcalls x (List.mem_cons_of_mem _ hx)) hrun

/-- In the state `CursorAboveLedgerOne`, with no cached record, no range that
starts at ledger 1 is prepared. -/
theorem isPrepared_ledger_one {c : CaptiveDiamcircleCore} {r : Range}
    (hfrom : r.from_ = 1) (hcache : c.cachedMeta = none) (h : c.CursorAboveLedgerOne) :
    c.isPrepared r = false := by
  rcases h with hp | hc | hn
  · unfold isPrepared
    simp [hp]
  · exact absurd hcache hc
  · unfold isPrepared
    simp only [hcache, hfrom, Option.map_none', Option.getD_none]
    split_ifs <;> simp <;> omega

end CaptiveDiamcircleCore

/-- C37 (requesting ledger 1 is rejected). On a backend with no cached record that
is in the state `CursorAboveLedgerOne` (a new backend is, and every call of the
interface whose range starts at ledger 1 or later keeps the state:
`CursorAboveLedgerOne_freshBackend`, `CursorAboveLedgerOne_runCalls`), for every
archive, runner factory and pipe content: `PrepareRange(Bounded(1, to))` returns an
error for every `to` and takes nothing from the pipe; when its offline session was
opened, the cursor is the replay start of ledger 1, which is at least 2 (and 2 for
checkpoint frequency 64), and the error is that of the fast-forward `GetLedger(1)`:
"requested ledger 1 is behind the captive core stream" (or "no longer usable" on a
closed backend). `PrepareRange(Unbounded(1))` returns an error and sets no prepared
range: the online open from ledger 1 never succeeds, and when it gets as far as
`runFromParams` the error is "unable to start from ledger 1". -/
theorem ledger_one_rejected (c : CaptiveDiamcircleCore) (env : Collaborators)
    (cases : List SelectCase) (hcache : c.cachedMeta = none)
    (hinv : c.CursorAboveLedgerOne) :
    (∀ to_, ∃ err c1,
      c.PrepareRange env (BoundedRange 1 to_) cases =
        PrepareOutcome.returned (some err) c1 cases ∧
      ((c.startPreparingRange env (BoundedRange 1 to_)).1.2 = none →
        c1.nextLedger =
          CaptiveDiamcircleCore.roundDownToFirstReplayAfterCheckpointStart env 1 ∧
        2 ≤ c1.nextLedger ∧ (Frequency64 env → c1.nextLedger = 2) ∧
        err = Error.wrapf
          (if c.closed = true then Error.noLongerUsable
            else Error.behindStream 1
              (CaptiveDiamcircleCore.roundDownToFirstReplayAfterCheckpointStart env 1))
          "Error fast-forwarding to %d" 1)) ∧
    (∃ err c1,
      c.PrepareRange env (UnboundedRange 1) cases =
        PrepareOutcome.returned (some err) c1 cases ∧
      c1.prepared = c.prepared) ∧
    (∀ (c0 : CaptiveDiamcircleCore) (latest : Nat) (runner : Runner),
      env.rootHAS = Except.ok latest → env.getCheckpoint 0 = 63 → latest + 128 < uint32Size →
      env.diamcircleCoreRunnerFactory diamcircleCoreRunnerMode.diamcircleCoreRunnerModeOnline =
        Except.ok runner →
      c0.openOnlineReplaySubprocess env 1 =
        (some (Error.wrap Error.startFromLedgerOne
          "error calculating ledger and hash for diamcircle-core run"),
          { c0 with diamcircleCoreRunner := some runner })) := by
  obtain ⟨hbounded, hunbounded, hopen⟩ := PrepareRange_ledger_one c env cases hcache
  exact ⟨fun to_ => hbounded to_ (CaptiveDiamcircleCore.isPrepared_ledger_one rfl hcache hinv),
    hunbounded (CaptiveDiamcircleCore.isPrepared_ledger_one rfl hcache hinv), hopen⟩

/-- C37 on the backend on which `PrepareRange(Bounded(1, 20))` has already failed
once (it is reached from the new backend by that call, has an open offline session
with the cursor at 2 and no cached record), with the archive whose latest
checkpoint is 63: `PrepareRange(Bounded(1, 20))` fails again in its fast-forward
and `PrepareRange(Unbounded(1))` fails in `runFromParams`. -/
theorem ledger_one_rejected_witness :
    (runCalls freshBackend
        [Call.prepareRange archiveAt63 (BoundedRange 1 20) (recordCases ledgers2To5)] =
        some ledgerOneRefused ∧
      ledgerOneRefused.cachedMeta = none ∧ ledgerOneRefused.CursorAboveLedgerOne) ∧
    (ledgerOneRefused.PrepareRange archiveAt63 (BoundedRange 1 20) (recordCases ledgers2To5) =
        PrepareOutcome.returned
          (some (Error.wrapf (Error.behindStream 1 2) "Error fast-forwarding to %d" 1))
          ledgerOneRefused (recordCases ledgers2To5) ∧
      ledgerOneRefused.PrepareRange archiveAt63 (UnboundedRange 1) (recordCases ledgers2To5) =
        PrepareOutcome.returned
          (some (Error.wrap (Error.wrap (Error.wrap Error.startFromLedgerOne
            "error calculating ledger and hash for diamcircle-core run") "opening subprocess")
            "error starting prepare range"))
          { ledgerOneRefused with diamcircleCoreRunner := some exitedRunner }
          (recordCases ledgers2To5)) ∧
    ((∀ to_, ∃ err c1,
        ledgerOneRefused.PrepareRange archiveAt63 (BoundedRange 1 to_) (recordCases ledgers2To5) =
          PrepareOutcome.returned (some err) c1 (recordCases ledgers2To5) ∧
        ((ledgerOneRefused.startPreparingRange archiveAt63 (BoundedRange 1 to_)).1.2 = none →
          c1.nextLedger =
            CaptiveDiamcircleCore.roundDownToFirstReplayAfterCheckpointStart archiveAt63 1 ∧
          2 ≤ c1.nextLedger ∧ (Frequency64 archiveAt63 → c1.nextLedger = 2) ∧
          err = Error.wrapf
            (if ledgerOneRefused.closed = true then Error.noLongerUsable
              else Error.behindStream 1
                (CaptiveDiamcircleCore.roundDownToFirstReplayAfterCheckpointStart archiveAt63 1))
            "Error fast-forwarding to %d" 1)) ∧
      (∃ err c1,
        ledgerOneRefused.PrepareRange archiveAt63 (UnboundedRange 1) (recordCases ledgers2To5) =
          PrepareOutcome.returned (some err) c1 (recordCases ledgers2To5) ∧
        c1.prepared = ledgerOneRefused.prepared) ∧
      (∀ (c0 : CaptiveDiamcircleCore) (latest : Nat) (runner : Runner),
        archiveAt63.rootHAS = Except.ok latest → archiveAt63.getCheckpoint 0 = 63 →
        latest + 128 < uint32Size →
        archiveAt63.diamcircleCoreRunnerFactory
            diamcircleCoreRunnerMode.diamcircleCoreRunnerModeOnline =
          Except.ok runner →
        c0.openOnlineReplaySubprocess archiveAt63 1 =
          (some (Error.wrap Error.startFromLedgerOne
            "error calculating ledger and hash for diamcircle-core run"),
            { c0 with diamcircleCoreRunner := some runner }))) :=
  ⟨⟨by decide, rfl, Or.inr (Or.inr (by decide))⟩, ⟨by decide, by decide⟩,
   ledger_one_rejected ledgerOneRefused archiveAt63 (recordCases ledgers2To5) rfl
     (Or.inr (Or.inr (by decide)))⟩

namespace CaptiveDiamcircleCore

/-- Once the root context is cancelled no subprocess is opened: both open
functions stop at `getLatestCheckpointSequence`, before the factory is called,
and leave the backend as it is. -/
theorem openSubprocess_afterClose (c : CaptiveDiamcircleCore) (env : Collaborators)
    (r : Range) :
    c.openSubprocess env.afterClose r =
      ((false,
        some (Error.wrap
          (Error.wrap (Error.wrap contextCanceled "error getting root HAS")
            "error getting latest checkpoint sequence")
          "opening subprocess")), c) := by
  have hlatest : getLatestCheckpointSequence env.afterClose =
      Except.error (Error.wrap contextCanceled "error getting root HAS") := rfl
  unfold openSubprocess openOfflineReplaySubprocess openOnlineReplaySubprocess
  rw [hlatest]
  by_cases hb : r.bounded = true <;> simp [hb]

/-- Once the root context is cancelled, the first step of `PrepareRange` on a
closed backend returns an error having done no more than close the runner in
place, if there is one. -/
theorem startPreparingRange_afterClose (c : CaptiveDiamcircleCore) (env : Collaborators)
    (r : Range) (hclosed : c.closed = true) :
    ∃ err c1, c.startPreparingRange env.afterClose r = ((false, some err), c1) ∧
      ((c.diamcircleCoreRunner = none ∧ c1 = c ∧
          Error.wrap err "error starting prepare range" = startAfterCloseError) ∨
        ∃ runner, c.diamcircleCoreRunner = some runner ∧ c1 = c.closeRunner runner ∧
          (runner.closeErr = none → runner.processExited = true →
            Error.wrap err "error starting prepare range" = startAfterCloseError)) := by
  have hnp := isPrepared_closed hclosed r
  unfold startPreparingRange
  simp only [hnp, Bool.false_eq_true, if_false]
  cases hr : c.diamcircleCoreRunner with
  | none =>
    dsimp only
    rw [openSubprocess_afterClose]
    exact ⟨_, _, rfl, Or.inl ⟨rfl, rfl, rfl⟩⟩
  | some runner =>
    dsimp only
    cases hcl : runner.close.1 with
    | some err0 =>
      refine ⟨_, _, rfl, Or.inr ⟨runner, rfl, rfl, fun hce => ?_⟩⟩
      have hce2 : runner.close.1 = none := hce
      rw [hcl] at hce2
      simp at hce2
    | none =>
      dsimp only
      by_cases hex : runner.close.2.processExited = false
      · rw [if_pos hex]
        refine ⟨_, _, rfl, Or.inr ⟨runner, rfl, rfl, fun _ hpe => ?_⟩⟩
        have hpe2 : runner.close.2.processExited = true := hpe
        rw [hex] at hpe2
        simp at hpe2
      · rw [if_neg hex, openSubprocess_afterClose]
        exact ⟨_, _, rfl, Or.inr ⟨runner, rfl, rfl, fun _ _ => rfl⟩⟩

end CaptiveDiamcircleCore

/-- C14 (PrepareRange after Close). On a closed backend (`Close` sets the flag and
no call clears it: `Close_closed`, `runCalls_closed`), with the collaborators as
`Close()` leaves them (`Collaborators.afterClose`: root context cancelled, hash
store released), for every range `r` and whatever the pipe offers:
`PrepareRange(r)` returns an error; every select case is still pending (nothing is
read from the pipe, no record is accepted); the backend is unchanged except that
the runner in place, if there is one, has been closed once more, so that no new
runner is installed and no `catchup` or `runFrom` is issued; and when that runner
closes without error and its process has exited (or there is none), the error is
the cancellation error of the archive, wrapped by `getLatestCheckpointSequence`,
the open function, `startPreparingRange` and `PrepareRange`. -/
theorem prepare_after_close_fails (c : CaptiveDiamcircleCore) (env : Collaborators)
    (r : Range) (cases : List SelectCase) (hclosed : c.closed = true) :
    ∃ err c1,
      c.PrepareRange env.afterClose r cases = PrepareOutcome.returned (some err) c1 cases ∧
      c1.closed = true ∧ c1.cachedMeta = c.cachedMeta ∧ c1.prepared = c.prepared ∧
      c1.nextLedger = c.nextLedger ∧ c1.lastLedger = c.lastLedger ∧
      c1.previousLedgerHash = c.previousLedgerHash ∧
      ((c.diamcircleCoreRunner = none ∧ c1.diamcircleCoreRunner = none ∧
          err = startAfterCloseError) ∨
        ∃ runner, c.diamcircleCoreRunner = some runner ∧
          c1.diamcircleCoreRunner = some runner.close.2 ∧
          runner.close.2.catchupCalls = runner.catchupCalls ∧
          runner.close.2.runFromCalls = runner.runFromCalls ∧
          (runner.closeErr = none → runner.processExited = true →
            err = startAfterCloseError)) := by
  obtain ⟨err, c1, hst, hcase⟩ :=
    CaptiveDiamcircleCore.startPreparingRange_afterClose c env r hclosed
  refine ⟨Error.wrap err "error starting prepare range", c1, ?_, ?_⟩
  · unfold CaptiveDiamcircleCore.PrepareRange
    rw [hst]
  · rcases hcase with ⟨hr, hc1, herr⟩ | ⟨runner, hr, hc1, herr⟩
    · subst hc1
      exact ⟨hclosed, rfl, rfl, rfl, rfl, rfl, Or.inl ⟨hr, hr, herr⟩⟩
    · subst hc1
      exact ⟨hclosed, rfl, rfl, rfl, rfl, rfl, Or.inr ⟨runner, hr, rfl, rfl, rfl, herr⟩⟩

/-- C14 on the backend closed by `Close()` after `PrepareRange(Unbounded(8))`, with
the collaborators `archiveAt63` after the cancellation: `PrepareRange(Bounded(9, 20))`
and `PrepareRange(Bounded(8, 20))`, 8 being the cached sequence, both return the
cancellation error of the archive, having closed the old runner once more and
started nothing. -/
theorem prepare_after_close_fails_witness :
    (onlineSession.Close = (none, closedSession) ∧ closedSession.closed = true) ∧
    (closedSession.PrepareRange archiveAt63.afterClose (BoundedRange 9 20)
          (recordCases ledgers2To5) =
        PrepareOutcome.returned (some startAfterCloseError)
          { closedSession with
            diamcircleCoreRunner :=
              some ({ exitedRunner with runFromCalls := [(2, "h")], closeCalls := 2 }) }
          (recordCases ledgers2To5) ∧
      closedSession.PrepareRange archiveAt63.afterClose (BoundedRange 8 20)
          (recordCases ledgers2To5) =
        PrepareOutcome.returned (some startAfterCloseError)
          { closedSession with
            diamcircleCoreRunner :=
              some ({ exitedRunner with runFromCalls := [(2, "h")], closeCalls := 2 }) }
          (recordCases ledgers2To5)) ∧
    ∃ err c1,
      closedSession.PrepareRange archiveAt63.afterClose (BoundedRange 9 20)
          (recordCases ledgers2To5) =
        PrepareOutcome.returned (some err) c1 (recordCases ledgers2To5) ∧
      c1.closed = true ∧ c1.cachedMeta = closedSession.cachedMeta ∧
      c1.prepared = closedSession.prepared ∧
      c1.nextLedger = closedSession.nextLedger ∧ c1.lastLedger = closedSession.lastLedger ∧
      c1.previousLedgerHash = closedSession.previousLedgerHash ∧
      ((closedSession.diamcircleCoreRunner = none ∧ c1.diamcircleCoreRunner = none ∧
          err = startAfterCloseError) ∨
        ∃ runner, closedSession.diamcircleCoreRunner = some runner ∧
          c1.diamcircleCoreRunner = some runner.close.2 ∧
          runner.close.2.catchupCalls = runner.catchupCalls ∧
          runner.close.2.runFromCalls = runner.runFromCalls ∧
          (runner.closeErr = none → runner.processExited = true →
            err = startAfterCloseError)) :=
  ⟨⟨by decide, rfl⟩, ⟨by decide, by decide⟩,
   prepare_after_close_fails closedSession archiveAt63 (BoundedRange 9 20)
     (recordCases ledgers2To5) rfl⟩

end Ledgerbackend
